import Mathlib

/-!
# Spatial grid lock (`CGAL/Spatial_grid_lock_data_structure_3.h`)

A shallow embedding of `Spatial_grid_lock_data_structure_base_3` and of its three
derived classes (`Tag_non_blocking`, `Tag_priority_blocking`,
`Tag_non_blocking_with_mutexes`), followed by theorems about them.

Conventions of the embedding.

* C++ `int` is `Int`.  The flat index that `get_grid_index` and `try_lock(point)`
  compute from the three clamped indices is evaluated in 32-bit two's complement
  arithmetic (`wrap_int`, `int_mul`, `int_add`): for `N³ > 2³¹` it wraps.  The other
  `int` expressions are exact; they agree with the source as long as their values
  fit in an `int`.  `unsigned int` is `Nat` reduced modulo `2 ^ 32` where it can wrap.
* Raw arrays (`bool *`, `tbb::atomic<..> *`, `tbb::recursive_mutex *`) are total
  tables `Int → _`; the behaviour on indices in `[0, N³)` is the one of the source.
* Thread-local storage (`tbb::enumerable_thread_specific`) is a table indexed by the
  calling thread, which every operation receives as an explicit argument.
* Every member function runs as one atomic step.  The only loop that may not
  terminate, the spin loop of the priority-blocking back-end, takes a bound `fuel`
  on its number of iterations and returns `none` when the bound is exhausted, that
  is, when the call is still yielding.
* `double` values are exact rationals.
-/

namespace CGAL

/-- Identity of a worker thread: the key of the thread-local storage. -/
abbrev Thread := Nat

/-- Modelled from the spec: `CGAL/Bbox_3.h` is not under `src/`; the bounding box
"provides six doubles `(xmin, xmax, ymin, ymax, zmin, zmax)`". -/
structure Bbox_3 where
  xmin : ℚ
  ymin : ℚ
  zmin : ℚ
  xmax : ℚ
  ymax : ℚ
  zmax : ℚ

/-- The point type `P3`: "must provide `.x()`, `.y()`, `.z()`". -/
structure P3 where
  x : ℚ
  y : ℚ
  z : ℚ

/-- Data members of `Spatial_grid_lock_data_structure_base_3` together with the
shared table `m_grid` of the derived class, whose slot type is `σ`. -/
structure Grid (σ : Type) where
  m_num_grid_cells_per_axis : Int
  m_xmin : ℚ
  m_ymin : ℚ
  m_zmin : ℚ
  m_resolution_x : ℚ
  m_resolution_y : ℚ
  m_resolution_z : ℚ
  /-- The table `m_tls_grids`: one `bool` array per thread. -/
  m_tls_grids : Thread → Int → Bool
  /-- The table `m_tls_locked_cells`: one `std::vector<int>` per thread. -/
  m_tls_locked_cells : Thread → List Int
  /-- The shared table of the derived class. -/
  m_grid : Int → σ

/-- The array returned by `get_thread_local_grid()` when `t` is the caller. -/
def Grid.get_thread_local_grid {σ : Type} (s : Grid σ) (t : Thread) : Int → Bool :=
  s.m_tls_grids t

/-- The assignment `get_thread_local_grid()[cell_index] = b` made by thread `t`. -/
def Grid.set_thread_local_grid {σ : Type} (s : Grid σ) (t : Thread) (cell_index : Int)
    (b : Bool) : Grid σ :=
  { s with m_tls_grids :=
      Function.update s.m_tls_grids t (Function.update (s.m_tls_grids t) cell_index b) }

/-- The call `m_tls_locked_cells.local().push_back(cell_index)` made by thread `t`. -/
def Grid.push_back {σ : Type} (s : Grid σ) (t : Thread) (cell_index : Int) : Grid σ :=
  { s with m_tls_locked_cells :=
      Function.update s.m_tls_locked_cells t (s.m_tls_locked_cells t ++ [cell_index]) }

/-- The call `tls_locked_cells.clear()` made by thread `t`. -/
def Grid.clear {σ : Type} (s : Grid σ) (t : Thread) : Grid σ :=
  { s with m_tls_locked_cells := Function.update s.m_tls_locked_cells t [] }

/-- Modelled from the spec: `tbb::atomic` is not under `src/`.  The call
`m_grid[cell_index].compare_and_swap(new_value, comparand)` is the "atomic CAS":
it stores `new_value` when the slot equals `comparand`, and returns the old value
of the slot in both cases. -/
def compare_and_swap {σ : Type} [DecidableEq σ] (m_grid : Int → σ) (cell_index : Int)
    (new_value comparand : σ) : σ × (Int → σ) :=
  (m_grid cell_index,
    if m_grid cell_index = comparand then Function.update m_grid cell_index new_value
    else m_grid)

/-- Modelled from the spec: `tbb::recursive_mutex` is not under `src/`; it is "a
re-entrant mutex": either free, or held by the thread `owner`, which has locked it
once and then `nested` more times. -/
inductive recursive_mutex where
  | free
  | held (owner : Thread) (nested : Nat)
deriving DecidableEq

/-- Modelled from the spec: `tbb::recursive_mutex::try_lock()` called by thread `t`:
it succeeds on a free mutex and on a mutex that `t` already holds. -/
def recursive_mutex.try_lock (m : recursive_mutex) (t : Thread) : Bool × recursive_mutex :=
  match m with
  | .free => (true, .held t 0)
  | .held u n => if u = t then (true, .held t (n + 1)) else (false, m)

/-- Modelled from the spec: `tbb::recursive_mutex::unlock()` called by thread `t`:
it undoes one acquisition of `t` and frees the mutex with the last one.  A call by
a thread that does not hold the mutex is a misuse and leaves it as it is. -/
def recursive_mutex.unlock (m : recursive_mutex) (t : Thread) : recursive_mutex :=
  match m with
  | .free => m
  | .held u n =>
    if u = t then
      (match n with
       | 0 => .free
       | k + 1 => .held t k)
    else m

/-- The three member functions a derived class provides to the base class through
the curiously recurring template pattern, with the value `init` its constructor
stores in every slot.  `try_lock_cell_impl no_spin fuel` returns `none` when the
call has not returned after `fuel` iterations of its loop. -/
structure Derived (σ : Type) where
  init : σ
  is_cell_locked_impl : Grid σ → Thread → Int → Bool × Grid σ
  try_lock_cell_impl : Bool → Nat → Grid σ → Thread → Int → Option (Bool × Grid σ)
  unlock_cell_impl : Grid σ → Thread → Int → Grid σ

/-! ## `Spatial_grid_lock_data_structure_3<Tag_non_blocking>` -/

namespace non_blocking

/-- The member `is_cell_locked_impl` of the non-blocking class. -/
def is_cell_locked_impl (s : Grid Bool) (_t : Thread) (cell_index : Int) : Bool × Grid Bool :=
  (s.m_grid cell_index == true, s)

/-- The member `try_lock_cell_impl<no_spin>` of the non-blocking class. -/
def try_lock_cell_impl (_no_spin : Bool) (_fuel : Nat) (s : Grid Bool) (t : Thread)
    (cell_index : Int) : Option (Bool × Grid Bool) :=
  let cas := compare_and_swap s.m_grid cell_index true false
  let old_value := cas.1
  let s1 : Grid Bool := { s with m_grid := cas.2 }
  if old_value = false then
    some (true, (s1.set_thread_local_grid t cell_index true).push_back t cell_index)
  else
    some (false, s1)

/-- The member `unlock_cell_impl` of the non-blocking class. -/
def unlock_cell_impl (s : Grid Bool) (_t : Thread) (cell_index : Int) : Grid Bool :=
  { s with m_grid := Function.update s.m_grid cell_index false }

end non_blocking

/-- The class `Spatial_grid_lock_data_structure_3<Tag_non_blocking>`. -/
def non_blocking.derived : Derived Bool where
  init := false
  is_cell_locked_impl := non_blocking.is_cell_locked_impl
  try_lock_cell_impl := non_blocking.try_lock_cell_impl
  unlock_cell_impl := non_blocking.unlock_cell_impl

/-! ## `Spatial_grid_lock_data_structure_3<Tag_priority_blocking>` -/

/-- The constant `std::numeric_limits<unsigned int>::max()`. -/
def UINT_MAX : Nat := 2 ^ 32 - 1

namespace priority_blocking

/-- The static member `init_TLS_thread_ids`, run when the static counter `last_id`
holds the value `last_id`: the new value of the counter and the returned token,
both in 32-bit unsigned arithmetic. -/
def init_TLS_thread_ids (last_id : Nat) : Nat × Nat :=
  let id := (last_id + 1) % 2 ^ 32
  (id, (1 + id % UINT_MAX) % 2 ^ 32)

/-- The value `m_tls_thread_ids.local()` of thread `t`: the token returned by
`init_TLS_thread_ids` on the first use by `t`, when the counter held `last_id t`. -/
def m_tls_thread_ids (last_id : Thread → Nat) (t : Thread) : Nat :=
  (init_TLS_thread_ids (last_id t)).2

/-- The member `is_cell_locked_impl` of the priority-blocking class. -/
def is_cell_locked_impl (s : Grid Nat) (_t : Thread) (cell_index : Int) : Bool × Grid Nat :=
  (s.m_grid cell_index != 0, s)

/-- The `for(;;)` loop of `try_lock_cell_impl<false>`, bounded by `fuel` iterations;
the recursive call is the iteration that follows `std::this_thread::yield()`. -/
def spin (this_thread_id : Nat) (t : Thread) (cell_index : Int) :
    Nat → Grid Nat → Option (Bool × Grid Nat)
  | 0, _ => none
  | fuel + 1, s =>
    let cas := compare_and_swap s.m_grid cell_index this_thread_id 0
    let old_value := cas.1
    let s1 : Grid Nat := { s with m_grid := cas.2 }
    if old_value = 0 then
      some (true, (s1.set_thread_local_grid t cell_index true).push_back t cell_index)
    else if old_value > this_thread_id then
      some (false, s1)
    else
      spin this_thread_id t cell_index fuel s1

/-- The member `try_lock_cell_impl<no_spin>` of the priority-blocking class. -/
def try_lock_cell_impl (last_id : Thread → Nat) (no_spin : Bool) (fuel : Nat) (s : Grid Nat)
    (t : Thread) (cell_index : Int) : Option (Bool × Grid Nat) :=
  let this_thread_id := m_tls_thread_ids last_id t
  if no_spin then
    let cas := compare_and_swap s.m_grid cell_index this_thread_id 0
    let old_value := cas.1
    let s1 : Grid Nat := { s with m_grid := cas.2 }
    if old_value = 0 then
      some (true, (s1.set_thread_local_grid t cell_index true).push_back t cell_index)
    else
      some (false, s1)
  else
    spin this_thread_id t cell_index fuel s

/-- The member `unlock_cell_impl` of the priority-blocking class. -/
def unlock_cell_impl (s : Grid Nat) (_t : Thread) (cell_index : Int) : Grid Nat :=
  { s with m_grid := Function.update s.m_grid cell_index 0 }

end priority_blocking

/-- The class `Spatial_grid_lock_data_structure_3<Tag_priority_blocking>`, in a
process where thread `t` finds the counter at `last_id t` on its first use. -/
def priority_blocking.derived (last_id : Thread → Nat) : Derived Nat where
  init := 0
  is_cell_locked_impl := priority_blocking.is_cell_locked_impl
  try_lock_cell_impl := priority_blocking.try_lock_cell_impl last_id
  unlock_cell_impl := priority_blocking.unlock_cell_impl

/-! ## `Spatial_grid_lock_data_structure_3<Tag_non_blocking_with_mutexes>` -/

namespace non_blocking_with_mutexes

/-- The member `is_cell_locked_impl` of the mutex class. -/
def is_cell_locked_impl (s : Grid recursive_mutex) (t : Thread) (cell_index : Int) :
    Bool × Grid recursive_mutex :=
  let r := (s.m_grid cell_index).try_lock t
  let locked := r.1
  let s1 : Grid recursive_mutex := { s with m_grid := Function.update s.m_grid cell_index r.2 }
  let s2 : Grid recursive_mutex :=
    if locked then
      { s1 with m_grid := Function.update s1.m_grid cell_index ((s1.m_grid cell_index).unlock t) }
    else s1
  (!locked, s2)

/-- The member `try_lock_cell_impl<no_spin>` of the mutex class. -/
def try_lock_cell_impl (_no_spin : Bool) (_fuel : Nat) (s : Grid recursive_mutex) (t : Thread)
    (cell_index : Int) : Option (Bool × Grid recursive_mutex) :=
  let r := (s.m_grid cell_index).try_lock t
  let success := r.1
  let s1 : Grid recursive_mutex := { s with m_grid := Function.update s.m_grid cell_index r.2 }
  if success then
    some (success, (s1.set_thread_local_grid t cell_index true).push_back t cell_index)
  else
    some (success, s1)

/-- The member `unlock_cell_impl` of the mutex class. -/
def unlock_cell_impl (s : Grid recursive_mutex) (t : Thread) (cell_index : Int) :
    Grid recursive_mutex :=
  { s with m_grid := Function.update s.m_grid cell_index ((s.m_grid cell_index).unlock t) }

end non_blocking_with_mutexes

/-- The class `Spatial_grid_lock_data_structure_3<Tag_non_blocking_with_mutexes>`;
a default-constructed mutex is free. -/
def non_blocking_with_mutexes.derived : Derived recursive_mutex where
  init := .free
  is_cell_locked_impl := non_blocking_with_mutexes.is_cell_locked_impl
  try_lock_cell_impl := non_blocking_with_mutexes.try_lock_cell_impl
  unlock_cell_impl := non_blocking_with_mutexes.unlock_cell_impl

/-! ## `Spatial_grid_lock_data_structure_base_3` -/

section base

variable {σ : Type}

/-- The member `is_cell_locked`: static dispatch to the derived class. -/
def is_cell_locked (D : Derived σ) (s : Grid σ) (t : Thread) (cell_index : Int) :
    Bool × Grid σ :=
  D.is_cell_locked_impl s t cell_index

/-- The member `try_lock_cell<no_spin>`: static dispatch to the derived class. -/
def try_lock_cell (D : Derived σ) (no_spin : Bool) (fuel : Nat) (s : Grid σ) (t : Thread)
    (cell_index : Int) : Option (Bool × Grid σ) :=
  D.try_lock_cell_impl no_spin fuel s t cell_index

/-- The member `unlock_cell`: static dispatch to the derived class. -/
def unlock_cell (D : Derived σ) (s : Grid σ) (t : Thread) (cell_index : Int) : Grid σ :=
  D.unlock_cell_impl s t cell_index

/-- The member `set_bbox`. -/
def set_bbox (s : Grid σ) (bbox : Bbox_3) : Grid σ :=
  let n : ℚ := (s.m_num_grid_cells_per_axis : ℚ)
  { s with
    m_xmin := bbox.xmin
    m_ymin := bbox.ymin
    m_zmin := bbox.zmin
    m_resolution_x := n / (bbox.xmax - bbox.xmin)
    m_resolution_y := n / (bbox.ymax - bbox.ymin)
    m_resolution_z := n / (bbox.zmax - bbox.zmin) }

/-- The constructor of a derived class: the base constructor (with `init_TLS_grid`
giving every thread an all-false array and an empty vector on first use), then the
initialisation of every slot of the shared table. -/
def Derived.construct (D : Derived σ) (bbox : Bbox_3) (num_grid_cells_per_axis : Int) :
    Grid σ :=
  set_bbox
    { m_num_grid_cells_per_axis := num_grid_cells_per_axis
      m_xmin := 0
      m_ymin := 0
      m_zmin := 0
      m_resolution_x := 0
      m_resolution_y := 0
      m_resolution_z := 0
      m_tls_grids := fun _ _ => false
      m_tls_locked_cells := fun _ => []
      m_grid := fun _ => D.init }
    bbox

/-- The member `is_locked_by_this_thread(int cell_index)`. -/
def is_locked_by_this_thread (s : Grid σ) (t : Thread) (cell_index : Int) : Bool :=
  s.get_thread_local_grid t cell_index

/-- The member `try_lock<no_spin>(int cell_index)`; the `||` of the source evaluates
its right operand only when the left one is false. -/
def try_lock (D : Derived σ) (no_spin : Bool) (fuel : Nat) (s : Grid σ) (t : Thread)
    (cell_index : Int) : Option (Bool × Grid σ) :=
  if s.get_thread_local_grid t cell_index then some (true, s)
  else try_lock_cell D no_spin fuel s t cell_index

/-- The member `unlock(int cell_index)`. -/
def unlock (D : Derived σ) (s : Grid σ) (t : Thread) (cell_index : Int) : Grid σ :=
  (unlock_cell D s t cell_index).set_thread_local_grid t cell_index false

/-- The integers `lo, lo + 1, ..., hi` visited by a loop `for (v = lo; v <= hi; ++v)`. -/
def for_range (lo hi : Int) : List Int :=
  (List.range (hi + 1 - lo).toNat).map fun (d : Nat) => lo + (d : Int)

/-- The values of `index_to_lock` in the order in which the three nested loops of
`try_lock<no_spin>(int, int, int, int)` reach them: `i` outermost, `k` innermost. -/
def region_cells (N index_x index_y index_z lock_radius : Int) : List Int :=
  (for_range (max 0 (index_x - lock_radius)) (min (N - 1) (index_x + lock_radius))).flatMap
    fun i =>
  (for_range (max 0 (index_y - lock_radius)) (min (N - 1) (index_y + lock_radius))).flatMap
    fun j =>
  (for_range (max 0 (index_z - lock_radius)) (min (N - 1) (index_z + lock_radius))).map
    fun k => k * N * N + j * N + i

/-- The rollback loop of the region call: `unlock(*it)` for every recorded cell. -/
def unlock_cells (D : Derived σ) (t : Thread) (locked_cells_tmp : List Int) (s : Grid σ) :
    Grid σ :=
  locked_cells_tmp.foldl (fun a c => unlock D a t c) s

/-- The body of the nested loops of `try_lock<no_spin>(int, int, int, int)` run over
the cells still to visit, `locked_cells_tmp` being the local vector of the call. -/
def try_lock_cells (D : Derived σ) (no_spin : Bool) (fuel : Nat) (t : Thread) :
    List Int → List Int → Grid σ → Option (Bool × Grid σ)
  | [], _, s => some (true, s)
  | index_to_lock :: rest, locked_cells_tmp, s =>
    match try_lock D no_spin fuel s t index_to_lock with
    | none => none
    | some (true, s1) =>
      try_lock_cells D no_spin fuel t rest (locked_cells_tmp ++ [index_to_lock]) s1
    | some (false, s1) => some (false, unlock_cells D t locked_cells_tmp s1)

/-- The member `try_lock<no_spin>(int index_x, int index_y, int index_z,
int lock_radius)`. -/
def try_lock_region (D : Derived σ) (no_spin : Bool) (fuel : Nat) (s : Grid σ) (t : Thread)
    (index_x index_y index_z lock_radius : Int) : Option (Bool × Grid σ) :=
  if lock_radius = 0 then
    let index_to_lock :=
      index_z * s.m_num_grid_cells_per_axis * s.m_num_grid_cells_per_axis
        + index_y * s.m_num_grid_cells_per_axis + index_x
    try_lock D no_spin fuel s t index_to_lock
  else
    try_lock_cells D no_spin fuel t
      (region_cells s.m_num_grid_cells_per_axis index_x index_y index_z lock_radius) [] s

/-- The member `try_lock<no_spin>(int cell_index, int lock_radius)`; `/` on `int`
truncates toward zero. -/
def try_lock_index (D : Derived σ) (no_spin : Bool) (fuel : Nat) (s : Grid σ) (t : Thread)
    (cell_index lock_radius : Int) : Option (Bool × Grid σ) :=
  if lock_radius = 0 then
    try_lock D no_spin fuel s t cell_index
  else
    let index_z :=
      Int.tdiv cell_index (s.m_num_grid_cells_per_axis * s.m_num_grid_cells_per_axis)
    let cell_index1 :=
      cell_index - index_z * s.m_num_grid_cells_per_axis * s.m_num_grid_cells_per_axis
    let index_y := Int.tdiv cell_index1 s.m_num_grid_cells_per_axis
    let cell_index2 := cell_index1 - index_y * s.m_num_grid_cells_per_axis
    let index_x := cell_index2
    try_lock_region D no_spin fuel s t index_x index_y index_z lock_radius

/-- The value of type `int` (32 bits, two's complement) to which an arithmetic
result `x` wraps. -/
def wrap_int (x : Int) : Int :=
  (x + 2 ^ 31) % 2 ^ 32 - 2 ^ 31

/-- The product `a * b` of two `int` values, computed in `int`. -/
def int_mul (a b : Int) : Int :=
  wrap_int (a * b)

/-- The sum `a + b` of two `int` values, computed in `int`. -/
def int_add (a b : Int) : Int :=
  wrap_int (a + b)

/-- The conversion `static_cast<int>` of a `double`: truncation toward zero. -/
def static_cast_int (q : ℚ) : Int :=
  Int.tdiv q.num (q.den : Int)

/-- The clamping expression
`(index < 0 ? 0 : (index >= N ? N - 1 : index))` of the source. -/
def clamp_index (N index : Int) : Int :=
  if index < 0 then 0 else if index ≥ N then N - 1 else index

/-- The member `get_grid_index`; the returned expression
`index_z*N*N + index_y*N + index_x` is evaluated in `int`, from left to right. -/
def get_grid_index (s : Grid σ) (point : P3) : Int :=
  let index_x :=
    clamp_index s.m_num_grid_cells_per_axis
      (static_cast_int ((point.x - s.m_xmin) * s.m_resolution_x))
  let index_y :=
    clamp_index s.m_num_grid_cells_per_axis
      (static_cast_int ((point.y - s.m_ymin) * s.m_resolution_y))
  let index_z :=
    clamp_index s.m_num_grid_cells_per_axis
      (static_cast_int ((point.z - s.m_zmin) * s.m_resolution_z))
  int_add
    (int_add
      (int_mul (int_mul index_z s.m_num_grid_cells_per_axis) s.m_num_grid_cells_per_axis)
      (int_mul index_y s.m_num_grid_cells_per_axis))
    index_x

/-- The member `try_lock<no_spin, P3>(const P3 &point, int lock_radius)`. -/
def try_lock_point (D : Derived σ) (no_spin : Bool) (fuel : Nat) (s : Grid σ) (t : Thread)
    (point : P3) (lock_radius : Int) : Option (Bool × Grid σ) :=
  let index_x :=
    clamp_index s.m_num_grid_cells_per_axis
      (static_cast_int ((point.x - s.m_xmin) * s.m_resolution_x))
  let index_y :=
    clamp_index s.m_num_grid_cells_per_axis
      (static_cast_int ((point.y - s.m_ymin) * s.m_resolution_y))
  let index_z :=
    clamp_index s.m_num_grid_cells_per_axis
      (static_cast_int ((point.z - s.m_zmin) * s.m_resolution_z))
  if lock_radius = 0 then
    let index :=
      int_add
        (int_add
          (int_mul (int_mul index_z s.m_num_grid_cells_per_axis) s.m_num_grid_cells_per_axis)
          (int_mul index_y s.m_num_grid_cells_per_axis))
        index_x
    try_lock D no_spin fuel s t index
  else
    try_lock_region D no_spin fuel s t index_x index_y index_z lock_radius

/-- The member `is_locked(const P3 &point)`. -/
def is_locked (D : Derived σ) (s : Grid σ) (t : Thread) (point : P3) : Bool × Grid σ :=
  is_cell_locked D s t (get_grid_index s point)

/-- The loop of `unlock_all_points_locked_by_this_thread` over the thread's vector. -/
def unlock_walk (D : Derived σ) (t : Thread) (tls_locked_cells : List Int) (s : Grid σ) :
    Grid σ :=
  tls_locked_cells.foldl
    (fun a cell_index =>
      if a.get_thread_local_grid t cell_index = true then unlock D a t cell_index else a)
    s

/-- The member `unlock_all_points_locked_by_this_thread`. -/
def unlock_all_points_locked_by_this_thread (D : Derived σ) (s : Grid σ) (t : Thread) :
    Grid σ :=
  (unlock_walk D t (s.m_tls_locked_cells t) s).clear t

/-- The loop of `unlock_all_tls_locked_cells_but_one` over the thread's vector; the
loop state `a` is the state of the grid with the flag `cell_to_keep_found`. -/
def unlock_walk_but_one (D : Derived σ) (t : Thread) (cell_index_to_keep_locked : Int)
    (tls_locked_cells : List Int) (a : Grid σ × Bool) : Grid σ × Bool :=
  tls_locked_cells.foldl
    (fun (a : Grid σ × Bool) cell_index =>
      if a.1.get_thread_local_grid t cell_index = true then
        (if cell_index = cell_index_to_keep_locked then (a.1, true)
         else (unlock D a.1 t cell_index, a.2))
      else a)
    a

/-- The member `unlock_all_tls_locked_cells_but_one`. -/
def unlock_all_tls_locked_cells_but_one (D : Derived σ) (s : Grid σ) (t : Thread)
    (cell_index_to_keep_locked : Int) : Grid σ :=
  let r := unlock_walk_but_one D t cell_index_to_keep_locked (s.m_tls_locked_cells t) (s, false)
  let cell_to_keep_found := r.2
  let s1 := r.1.clear t
  if cell_to_keep_found then s1.push_back t cell_index_to_keep_locked else s1

/-- The member `unlock_all_tls_locked_locations_but_one_point`. -/
def unlock_all_tls_locked_locations_but_one_point (D : Derived σ) (s : Grid σ) (t : Thread)
    (point : P3) : Grid σ :=
  unlock_all_tls_locked_cells_but_one D s t (get_grid_index s point)

/-- The member `check_if_all_cells_are_unlocked`. -/
def check_if_all_cells_are_unlocked (D : Derived σ) (s : Grid σ) (t : Thread) :
    Bool × Grid σ :=
  let num_cells :=
    s.m_num_grid_cells_per_axis * s.m_num_grid_cells_per_axis * s.m_num_grid_cells_per_axis
  (List.range num_cells.toNat).foldl
    (fun (a : Bool × Grid σ) (i : Nat) =>
      if a.1 then
        let r := is_cell_locked D a.2 t (i : Int)
        (!r.1, r.2)
      else a)
    (true, s)

/-- The member `check_if_all_tls_cells_are_unlocked`. -/
def check_if_all_tls_cells_are_unlocked (s : Grid σ) (t : Thread) : Bool :=
  let num_cells :=
    s.m_num_grid_cells_per_axis * s.m_num_grid_cells_per_axis * s.m_num_grid_cells_per_axis
  (List.range num_cells.toNat).foldl
    (fun (unlocked : Bool) (i : Nat) =>
      if unlocked then s.get_thread_local_grid t (i : Int) == false else unlocked)
    true

end base

/-! ## The three back-ends under one name -/

/-- The tags for which the header defines `Spatial_grid_lock_data_structure_3`. -/
inductive Grid_lock_tag where
  | Tag_non_blocking
  | Tag_priority_blocking
  | Tag_non_blocking_with_mutexes
deriving DecidableEq

/-- The type of one slot of `m_grid` in the class selected by the tag. -/
def Grid_lock_tag.Slot : Grid_lock_tag → Type
  | .Tag_non_blocking => Bool
  | .Tag_priority_blocking => Nat
  | .Tag_non_blocking_with_mutexes => recursive_mutex

/-- The class template `Spatial_grid_lock_data_structure_3<Grid_lock_tag>`. -/
def Spatial_grid_lock_data_structure_3 (last_id : Thread → Nat) :
    (tag : Grid_lock_tag) → Derived tag.Slot
  | .Tag_non_blocking => non_blocking.derived
  | .Tag_priority_blocking => priority_blocking.derived last_id
  | .Tag_non_blocking_with_mutexes => non_blocking_with_mutexes.derived

/-- The value of a shared slot that records thread `t` as its holder: `true` in the
non-blocking class, the token of `t` in the priority-blocking class, the mutex held
once by `t` in the mutex class. -/
def held_by (last_id : Thread → Nat) : (tag : Grid_lock_tag) → Thread → tag.Slot
  | .Tag_non_blocking, _ => true
  | .Tag_priority_blocking, t => priority_blocking.m_tls_thread_ids last_id t
  | .Tag_non_blocking_with_mutexes, t => recursive_mutex.held t 0

/-- The state in which thread `t` has released the cells selected by `p`: their
shared slots hold `free` and their entries in the array of `t` are false. -/
def Grid.release {σ : Type} (free : σ) (s : Grid σ) (t : Thread) (p : Int → Bool) : Grid σ :=
  { s with
    m_grid := fun i => if p i = true then free else s.m_grid i
    m_tls_grids :=
      Function.update s.m_tls_grids t (fun i => if p i = true then false else s.m_tls_grids t i) }

/-- The state in which thread `t` has acquired cell `i`, the shared slot holding `v`:
the effect of a successful `try_lock_cell_impl`. -/
def Grid.acquire {σ : Type} (s : Grid σ) (t : Thread) (i : Int) (v : σ) : Grid σ :=
  (({ s with m_grid := Function.update s.m_grid i v } : Grid σ).set_thread_local_grid
    t i true).push_back t i

/-! ## Executions -/

/-- A call of a public member function, with its arguments. -/
inductive Op where
  | try_lock (no_spin : Bool) (cell_index : Int)
  | try_lock_region (no_spin : Bool) (index_x index_y index_z lock_radius : Int)
  | try_lock_index (no_spin : Bool) (cell_index lock_radius : Int)
  | try_lock_point (no_spin : Bool) (point : P3) (lock_radius : Int)
  | unlock (cell_index : Int)
  | unlock_all_points_locked_by_this_thread
  | unlock_all_tls_locked_cells_but_one (cell_index_to_keep_locked : Int)
  | unlock_all_tls_locked_locations_but_one_point (point : P3)
  | set_bbox (bbox : Bbox_3)
  | is_locked (point : P3)
  | check_if_all_cells_are_unlocked

/-- The state after thread `t` has run the call `op` in state `s` as one atomic
step; `none` when the call has not returned within `fuel` spin iterations. -/
def run {σ : Type} (D : Derived σ) (fuel : Nat) (s : Grid σ) (t : Thread) : Op → Option (Grid σ)
  | .try_lock no_spin cell_index => (try_lock D no_spin fuel s t cell_index).map Prod.snd
  | .try_lock_region no_spin index_x index_y index_z lock_radius =>
    (try_lock_region D no_spin fuel s t index_x index_y index_z lock_radius).map Prod.snd
  | .try_lock_index no_spin cell_index lock_radius =>
    (try_lock_index D no_spin fuel s t cell_index lock_radius).map Prod.snd
  | .try_lock_point no_spin point lock_radius =>
    (try_lock_point D no_spin fuel s t point lock_radius).map Prod.snd
  | .unlock cell_index => some (unlock D s t cell_index)
  | .unlock_all_points_locked_by_this_thread =>
    some (unlock_all_points_locked_by_this_thread D s t)
  | .unlock_all_tls_locked_cells_but_one cell_index_to_keep_locked =>
    some (unlock_all_tls_locked_cells_but_one D s t cell_index_to_keep_locked)
  | .unlock_all_tls_locked_locations_but_one_point point =>
    some (unlock_all_tls_locked_locations_but_one_point D s t point)
  | .set_bbox bbox => some (set_bbox s bbox)
  | .is_locked point => some (is_locked D s t point).2
  | .check_if_all_cells_are_unlocked => some (check_if_all_cells_are_unlocked D s t).2

/-- The calls that are not a misuse: `unlock(i)` is only made by a thread whose
`owned[i]` is true (unlocking a cell the thread does not own is undefined). -/
def Op.allowed {σ : Type} (s : Grid σ) (t : Thread) : Op → Prop
  | .unlock cell_index => s.get_thread_local_grid t cell_index = true
  | _ => True

/-- The states reachable from a freshly constructed grid by atomic steps, each one
an allowed call of a public member function by some thread. -/
inductive Reachable {σ : Type} (D : Derived σ) (bbox : Bbox_3) (N : Int) : Grid σ → Prop where
  | fresh : Reachable D bbox N (D.construct bbox N)
  | step (s s1 : Grid σ) (t : Thread) (op : Op) (fuel : Nat) :
      Reachable D bbox N s → op.allowed s t → run D fuel s t op = some s1 →
      Reachable D bbox N s1

/-- What the proofs use of a back-end `D`, `free = D.init` being the value of a free
slot and `holder t` the value of a slot held by thread `t`. -/
structure Laws {σ : Type} (D : Derived σ) (holder : Thread → σ) : Prop where
  holder_ne : ∀ t, holder t ≠ D.init
  probe : ∀ s t i, (D.is_cell_locked_impl s t i).2 = s
  unlock_frame : ∀ s t i, ∃ v,
    D.unlock_cell_impl s t i = { s with m_grid := Function.update s.m_grid i v } ∧
      (s.m_grid i = holder t → v = D.init) ∧ (s.m_grid i = D.init → v = D.init)
  lock_false : ∀ no_spin fuel s t i s1,
    D.try_lock_cell_impl no_spin fuel s t i = some (false, s1) → s1 = s ∧ s.m_grid i ≠ D.init
  lock_true : ∀ no_spin fuel s t i s1,
    D.try_lock_cell_impl no_spin fuel s t i = some (true, s1) →
      ∃ v, s1 = (({ s with m_grid := Function.update s.m_grid i v } : Grid σ).set_thread_local_grid
            t i true).push_back t i ∧
        (s.m_grid i = D.init → v = holder t) ∧
        (s.m_grid i = D.init ∨ ∀ u, s.m_grid i = holder u → u = t)
  lock_free : ∀ no_spin fuel s t i, s.m_grid i = D.init →
    D.try_lock_cell_impl no_spin (fuel + 1) s t i =
      some (true, (({ s with m_grid := Function.update s.m_grid i (holder t) } :
        Grid σ).set_thread_local_grid t i true).push_back t i)

/-- The consistency of the shared table with the thread-local tables: an owned cell
has its owner recorded in the shared slot, has one owner only, occurs in the
owner's vector, and a slot that is not free has an owner. -/
structure Consistent {σ : Type} (free : σ) (holder : Thread → σ) (s : Grid σ) : Prop where
  slot : ∀ t i, s.m_tls_grids t i = true → s.m_grid i = holder t
  excl : ∀ t u i, s.m_tls_grids t i = true → s.m_tls_grids u i = true → t = u
  mem : ∀ t i, s.m_tls_grids t i = true → i ∈ s.m_tls_locked_cells t
  owner : ∀ i, s.m_grid i ≠ free → ∃ t, s.m_tls_grids t i = true

/-! ## The region call, loop by loop -/

/-- The data the three nested loops of `try_lock<no_spin>(int, int, int, int)` work
on: the local vector `locked_cells_tmp` and the grid, with a record `attempts` of
the calls `try_lock<no_spin>(index_to_lock)` made so far and of what they returned. -/
structure Loop_state (σ : Type) where
  locked_cells_tmp : List Int
  grid : Grid σ
  attempts : List (Int × Bool)

/-- How a loop of the region call ends: its condition has become false, or its body
has executed `return false` (after the rollback), or a call made in its body has
not returned. -/
inductive Loop_exit (σ : Type) where
  | completed (a : Loop_state σ)
  | returned_false (a : Loop_state σ)
  | spinning

/-- The body of the innermost loop, run for the values of `index_to_lock` of the
list, in that order. -/
def try_lock_cells_traced {σ : Type} (D : Derived σ) (no_spin : Bool) (fuel : Nat)
    (t : Thread) : List Int → Loop_state σ → Loop_exit σ
  | [], a => .completed a
  | index_to_lock :: rest, a =>
    match try_lock D no_spin fuel a.grid t index_to_lock with
    | none => .spinning
    | some (true, s1) =>
      try_lock_cells_traced D no_spin fuel t rest
        ⟨a.locked_cells_tmp ++ [index_to_lock], s1, a.attempts ++ [(index_to_lock, true)]⟩
    | some (false, s1) =>
      .returned_false
        ⟨a.locked_cells_tmp, unlock_cells D t a.locked_cells_tmp s1,
          a.attempts ++ [(index_to_lock, false)]⟩

/-- The innermost loop `for (int k = ...)` of the region call, for fixed `i` and `j`,
over the values of `k` still to visit. -/
def loop_k {σ : Type} (D : Derived σ) (no_spin : Bool) (fuel : Nat) (t : Thread)
    (N i j : Int) : List Int → Loop_state σ → Loop_exit σ
  | [], a => .completed a
  | k :: ks, a =>
    let index_to_lock := k * N * N + j * N + i
    match try_lock D no_spin fuel a.grid t index_to_lock with
    | none => .spinning
    | some (true, s1) =>
      loop_k D no_spin fuel t N i j ks
        ⟨a.locked_cells_tmp ++ [index_to_lock], s1, a.attempts ++ [(index_to_lock, true)]⟩
    | some (false, s1) =>
      .returned_false
        ⟨a.locked_cells_tmp, unlock_cells D t a.locked_cells_tmp s1,
          a.attempts ++ [(index_to_lock, false)]⟩

/-- The middle loop `for (int j = ...)` of the region call, for fixed `i`. -/
def loop_j {σ : Type} (D : Derived σ) (no_spin : Bool) (fuel : Nat) (t : Thread)
    (N i : Int) (k_range : List Int) : List Int → Loop_state σ → Loop_exit σ
  | [], a => .completed a
  | j :: js, a =>
    match loop_k D no_spin fuel t N i j k_range a with
    | .completed a1 => loop_j D no_spin fuel t N i k_range js a1
    | e => e

/-- The outer loop `for (int i = ...)` of the region call. -/
def loop_i {σ : Type} (D : Derived σ) (no_spin : Bool) (fuel : Nat) (t : Thread)
    (N : Int) (j_range k_range : List Int) : List Int → Loop_state σ → Loop_exit σ
  | [], a => .completed a
  | i :: is, a =>
    match loop_j D no_spin fuel t N i k_range j_range a with
    | .completed a1 => loop_i D no_spin fuel t N j_range k_range is a1
    | e => e

/-- What the region call returns when its loops end in the given way (`return true`
follows the loops): the returned value, the state and the record of attempts;
`none` when the call has not returned. -/
def Loop_exit.result {σ : Type} : Loop_exit σ → Option (Bool × Grid σ × List (Int × Bool))
  | .completed a => some (true, a.grid, a.attempts)
  | .returned_false a => some (false, a.grid, a.attempts)
  | .spinning => none

/-- The `else` branch (`lock_radius != 0`) of `try_lock<no_spin>(int, int, int, int)`
as the source writes it, with three nested loops: the returned value, the state
after the call, and the record of the calls `try_lock<no_spin>(index_to_lock)`. -/
def try_lock_region_loops {σ : Type} (D : Derived σ) (no_spin : Bool) (fuel : Nat) (s : Grid σ)
    (t : Thread) (index_x index_y index_z lock_radius : Int) :
    Option (Bool × Grid σ × List (Int × Bool)) :=
  let N := s.m_num_grid_cells_per_axis
  (loop_i D no_spin fuel t N
    (for_range (max 0 (index_y - lock_radius)) (min (N - 1) (index_y + lock_radius)))
    (for_range (max 0 (index_z - lock_radius)) (min (N - 1) (index_z + lock_radius)))
    (for_range (max 0 (index_x - lock_radius)) (min (N - 1) (index_x + lock_radius)))
    ⟨[], s, []⟩).result

/-- The triples `(i, j, k)` of the clipped ranges of a region, `i` varying slowest
and `k` fastest. -/
def region_triples (N index_x index_y index_z lock_radius : Int) : List (Int × Int × Int) :=
  (for_range (max 0 (index_x - lock_radius)) (min (N - 1) (index_x + lock_radius))).flatMap
    fun i =>
  (for_range (max 0 (index_y - lock_radius)) (min (N - 1) (index_y + lock_radius))).flatMap
    fun j =>
  (for_range (max 0 (index_z - lock_radius)) (min (N - 1) (index_z + lock_radius))).map
    fun k => (i, j, k)

/-- The lexicographic order on triples `(i, j, k)`: first `i`, then `j`, then `k`. -/
def lex_lt (a b : Int × Int × Int) : Prop :=
  a.1 < b.1 ∨ (a.1 = b.1 ∧ (a.2.1 < b.2.1 ∨ (a.2.1 = b.2.1 ∧ a.2.2 < b.2.2)))

instance lex_lt_decidable : DecidableRel lex_lt := fun a b => by
  unfold lex_lt
  exact inferInstance

/-! ## Further members and the words of the specification -/

/-- The member `is_locked_by_this_thread(const P3 &point)`. -/
def is_locked_by_this_thread_point {σ : Type} (s : Grid σ) (t : Thread) (point : P3) : Bool :=
  s.get_thread_local_grid t (get_grid_index s point)

/-- The value of the static counter `last_id` of `init_TLS_thread_ids` after `n`
increments; a static `tbb::atomic<unsigned int>` starts at zero. -/
def last_id_after : Nat → Nat
  | 0 => 0
  | n + 1 => (priority_blocking.init_TLS_thread_ids (last_id_after n)).1

/-- The token returned by the `n`-th call of `init_TLS_thread_ids` in the process,
`n = 1` being the first call. -/
def token_of_increment (n : Nat) : Nat :=
  (priority_blocking.init_TLS_thread_ids (last_id_after (n - 1))).2

/-- The state after the threads of the list have called
`unlock_all_points_locked_by_this_thread()` one after the other. -/
def bulk_release_by {σ : Type} (D : Derived σ) (threads : List Thread) (s : Grid σ) : Grid σ :=
  threads.foldl (fun a t => unlock_all_points_locked_by_this_thread D a t) s

/-- Thread `t` is in the yield-and-retry branch of `try_lock_cell` on cell `c`: its
spinning call `try_lock(c)` has not returned after one iteration of the loop. -/
def yields_on (last_id : Thread → Nat) (s : Grid Nat) (t : Thread) (c : Int) : Prop :=
  (try_lock (priority_blocking.derived last_id) false 1 s t c).isNone = true

/-- A spin-wait edge from `t` to `u`: thread `t` is in the yield-and-retry branch
on a cell whose slot holds the token of thread `u`. -/
def waits_for (last_id : Thread → Nat) (s : Grid Nat) (t u : Thread) : Prop :=
  ∃ c, yields_on last_id s t c ∧ s.m_grid c = priority_blocking.m_tls_thread_ids last_id u

/-- The coordinates `(index_x, index_y, index_z)` that
`try_lock<no_spin>(int cell_index, int lock_radius)` computes from the flat index in
its `else` branch; `/` on `int` truncates toward zero. -/
def index_coordinates (N cell_index : Int) : Int × Int × Int :=
  let index_z := Int.tdiv cell_index (N * N)
  let cell_index1 := cell_index - index_z * N * N
  let index_y := Int.tdiv cell_index1 N
  let cell_index2 := cell_index1 - index_y * N
  let index_x := cell_index2
  (index_x, index_y, index_z)

/-- The loop of `unlock_all_points_locked_by_this_thread` with a record of the calls
`unlock(cell_index)`, each of which makes one call `unlock_cell(cell_index)`; the
loop state is the grid with the cells of the calls made so far. -/
def unlock_walk_traced {σ : Type} (D : Derived σ) (t : Thread) (tls_locked_cells : List Int)
    (a : Grid σ × List Int) : Grid σ × List Int :=
  tls_locked_cells.foldl
    (fun (a : Grid σ × List Int) cell_index =>
      if a.1.get_thread_local_grid t cell_index = true then
        (unlock D a.1 t cell_index, a.2 ++ [cell_index])
      else a)
    a

/-- The states reachable from a freshly constructed grid by atomic steps, each one a
call of a public member function by some thread, the calls of `unlock(i)` by a
thread that does not own cell `i` included. -/
inductive Reachable_unchecked {σ : Type} (D : Derived σ) (bbox : Bbox_3) (N : Int) :
    Grid σ → Prop where
  | fresh : Reachable_unchecked D bbox N (D.construct bbox N)
  | step (s s1 : Grid σ) (t : Thread) (op : Op) (fuel : Nat) :
      Reachable_unchecked D bbox N s → run D fuel s t op = some s1 →
      Reachable_unchecked D bbox N s1

/-- Every cell a thread owns occurs in the `held` list of that thread. -/
def Held_covers_owned {σ : Type} (s : Grid σ) : Prop :=
  ∀ t i, s.m_tls_grids t i = true → i ∈ s.m_tls_locked_cells t

/-! ## Concrete grids -/

/-- The bounding box `(0,1,0,1,0,1)` of the end-to-end scenarios. -/
def unit_bbox : Bbox_3 := ⟨0, 0, 0, 1, 1, 1⟩

/-- A process in which every thread finds the counter at zero. -/
def zero_ids : Thread → Nat := fun _ => 0

/-- The non-blocking grid with `N = 4` in which thread `0` has locked cell `3`. -/
def grid_cell_3_locked : Grid Bool :=
  (non_blocking.derived.construct unit_bbox 4).acquire 0 3 true

/-- The non-blocking grid with `N = 2` in which thread `1` has locked cell `0` and
then thread `0` has locked cell `2`. -/
def grid_two_owners : Grid Bool :=
  ((non_blocking.derived.construct unit_bbox 2).acquire 1 0 true).acquire 0 2 true

/-- The non-blocking grid with `N = 2` in which thread `0` has locked cell `2`. -/
def grid_cell_2_locked : Grid Bool :=
  (non_blocking.derived.construct unit_bbox 2).acquire 0 2 true

/-- The state in which thread `1` has locked cells `0` and `4` of `grid_cell_2_locked`
and then unlocked them. -/
def grid_cell_2_locked_after : Grid Bool :=
  unlock_cells non_blocking.derived 1 [0, 4]
    ((grid_cell_2_locked.acquire 1 0 true).acquire 1 4 true)

/-- The state after thread `0` has locked the region of radius `1` around the cell
`(1, 1, 1)` of a fresh non-blocking grid with `N = 4`. -/
def grid_region_locked : Grid Bool :=
  ((try_lock_region non_blocking.derived true 0
    (non_blocking.derived.construct unit_bbox 4) 0 1 1 1 1).map Prod.snd).getD
    (non_blocking.derived.construct unit_bbox 4)

/-- A process in which thread `0` finds the counter at `15` and obtains the token
`17`, and every other thread finds it at `3` and obtains the token `5`. -/
def ids_17_5 : Thread → Nat := fun t => if t = 0 then 15 else 3

/-- The priority-blocking grid with `N = 4` in which thread `1`, whose token is `5`,
has locked cell `7`. -/
def grid_held_by_5 : Grid Nat :=
  ((priority_blocking.derived ids_17_5).construct unit_bbox 4).acquire 1 7 5

/-- The priority-blocking grid with `N = 4` in which thread `0`, whose token is `17`,
has locked cell `7`. -/
def grid_held_by_17 : Grid Nat :=
  ((priority_blocking.derived ids_17_5).construct unit_bbox 4).acquire 0 7 17

/-- The non-blocking grid with `N = 4` in which thread `0` has locked the cells `0`,
`1` and `2` one by one. -/
def grid_cells_012_locked : Grid Bool :=
  (((non_blocking.derived.construct unit_bbox 4).acquire 0 0 true).acquire 0 1 true).acquire
    0 2 true

/-- The mutex grid with `N = 2` in which thread `0` has locked cell `3`. -/
def mutex_grid_cell_3_locked : Grid recursive_mutex :=
  (non_blocking_with_mutexes.derived.construct unit_bbox 2).acquire 0 3 (.held 0 0)

/-- The non-blocking grid with `N = 4` after thread `0` has called `try_lock(3)`,
`try_lock(5)`, `unlock(3)`, `try_lock(3)` and `unlock(5)`: it owns cell `3` only and
its `held` list is `[3, 5, 3]`. -/
def grid_held_3_5_3 : Grid Bool :=
  unlock non_blocking.derived
    ((unlock non_blocking.derived
      (((non_blocking.derived.construct unit_bbox 4).acquire 0 3 true).acquire 0 5 true)
      0 3).acquire 0 3 true)
    0 5

/-- The state after thread `0` has locked the region of radius `1` around the cell
`(0, 0, 0)` of a fresh non-blocking grid with `N = 2`: the eight cells of the grid,
acquired in the order of the traversal. -/
def grid_first_region : Grid Bool :=
  ((((((((non_blocking.derived.construct unit_bbox 2).acquire 0 0 true).acquire 0 4 true).acquire
    0 2 true).acquire 0 6 true).acquire 0 1 true).acquire 0 5 true).acquire 0 3 true).acquire
    0 7 true

/-- The state after thread `1`, which does not own cell `3`, has called `unlock(3)`
while thread `0` holds the cell. -/
def grid_cell_3_unlocked_by_other : Grid Bool :=
  unlock non_blocking.derived grid_cell_3_locked 1 3

/-! ## The back-ends satisfy the laws -/

theorem Grid.ext_fields {σ : Type} (a b : Grid σ)
    (h1 : a.m_num_grid_cells_per_axis = b.m_num_grid_cells_per_axis)
    (h2 : a.m_xmin = b.m_xmin) (h3 : a.m_ymin = b.m_ymin) (h4 : a.m_zmin = b.m_zmin)
    (h5 : a.m_resolution_x = b.m_resolution_x) (h6 : a.m_resolution_y = b.m_resolution_y)
    (h7 : a.m_resolution_z = b.m_resolution_z) (h8 : a.m_tls_grids = b.m_tls_grids)
    (h9 : a.m_tls_locked_cells = b.m_tls_locked_cells) (h10 : a.m_grid = b.m_grid) : a = b := by
  cases a; cases b; simp_all

theorem UINT_MAX_pos : 0 < UINT_MAX := by decide

theorem priority_blocking.m_tls_thread_ids_ne_zero (last_id : Thread → Nat) (t : Thread) :
    priority_blocking.m_tls_thread_ids last_id t ≠ 0 := by
  unfold priority_blocking.m_tls_thread_ids priority_blocking.init_TLS_thread_ids
  have h : ((last_id t + 1) % 2 ^ 32) % UINT_MAX < UINT_MAX := Nat.mod_lt _ UINT_MAX_pos
  have hu : UINT_MAX = 2 ^ 32 - 1 := rfl
  simp only
  omega

theorem non_blocking.flag_try_lock_free (no_spin : Bool) (fuel : Nat) (s : Grid Bool)
    (t : Thread) (i : Int) (hs : s.m_grid i = false) :
    non_blocking.try_lock_cell_impl no_spin fuel s t i =
      some (true, (({ s with m_grid := Function.update s.m_grid i true } :
        Grid Bool).set_thread_local_grid t i true).push_back t i) := by
  unfold non_blocking.try_lock_cell_impl compare_and_swap
  simp only [hs, if_true]

theorem non_blocking.flag_try_lock_held (no_spin : Bool) (fuel : Nat) (s : Grid Bool)
    (t : Thread) (i : Int) (hs : s.m_grid i = true) :
    non_blocking.try_lock_cell_impl no_spin fuel s t i = some (false, s) := by
  unfold non_blocking.try_lock_cell_impl compare_and_swap
  simp only [hs]
  rfl

theorem non_blocking.flag_laws : Laws non_blocking.derived (fun _ => true) where
  holder_ne := by intro t; simp [non_blocking.derived]
  probe := by intro s t i; rfl
  unlock_frame := by
    intro s t i
    exact ⟨false, rfl, fun _ => rfl, fun _ => rfl⟩
  lock_false := by
    intro no_spin fuel s t i s1 h
    change non_blocking.try_lock_cell_impl no_spin fuel s t i = _ at h
    cases hs : s.m_grid i with
    | false => rw [non_blocking.flag_try_lock_free _ _ _ _ _ hs] at h; simp at h
    | true =>
      rw [non_blocking.flag_try_lock_held _ _ _ _ _ hs] at h
      simp only [Option.some.injEq, Prod.mk.injEq, true_and] at h
      exact ⟨h.symm, by simp [non_blocking.derived]⟩
  lock_true := by
    intro no_spin fuel s t i s1 h
    change non_blocking.try_lock_cell_impl no_spin fuel s t i = _ at h
    cases hs : s.m_grid i with
    | false =>
      rw [non_blocking.flag_try_lock_free _ _ _ _ _ hs] at h
      simp only [Option.some.injEq, Prod.mk.injEq, true_and] at h
      exact ⟨true, h.symm, fun _ => rfl, Or.inl rfl⟩
    | true => rw [non_blocking.flag_try_lock_held _ _ _ _ _ hs] at h; simp at h
  lock_free := by
    intro no_spin fuel s t i hs
    exact non_blocking.flag_try_lock_free no_spin (fuel + 1) s t i hs

theorem priority_blocking.spin_free (tid : Nat) (t : Thread) (i : Int) (fuel : Nat)
    (s : Grid Nat) (hs : s.m_grid i = 0) :
    priority_blocking.spin tid t i (fuel + 1) s =
      some (true, (({ s with m_grid := Function.update s.m_grid i tid } :
        Grid Nat).set_thread_local_grid t i true).push_back t i) := by
  unfold priority_blocking.spin compare_and_swap
  simp only [hs, if_true]

theorem priority_blocking.spin_back_off (tid : Nat) (t : Thread) (i : Int) (fuel : Nat)
    (s : Grid Nat) (hs : s.m_grid i > tid) :
    priority_blocking.spin tid t i (fuel + 1) s = some (false, s) := by
  unfold priority_blocking.spin compare_and_swap
  have h0 : s.m_grid i ≠ 0 := by omega
  simp only [h0, if_false, hs, if_true]

theorem priority_blocking.spin_yield (tid : Nat) (t : Thread) (i : Int) (fuel : Nat)
    (s : Grid Nat) (h0 : s.m_grid i ≠ 0) (hs : s.m_grid i ≤ tid) :
    priority_blocking.spin tid t i (fuel + 1) s = priority_blocking.spin tid t i fuel s := by
  conv_lhs => unfold priority_blocking.spin compare_and_swap
  have h1 : ¬ s.m_grid i > tid := by omega
  simp only [h0, if_false, h1]

theorem priority_blocking.spin_never (tid : Nat) (t : Thread) (i : Int) (fuel : Nat)
    (s : Grid Nat) (h0 : s.m_grid i ≠ 0) (hs : s.m_grid i ≤ tid) :
    priority_blocking.spin tid t i fuel s = none := by
  induction fuel with
  | zero => rfl
  | succ n ih => rw [priority_blocking.spin_yield tid t i n s h0 hs, ih]

theorem priority_blocking.try_lock_cell_impl_no_spin_free (last_id : Thread → Nat) (fuel : Nat)
    (s : Grid Nat) (t : Thread) (i : Int) (hs : s.m_grid i = 0) :
    priority_blocking.try_lock_cell_impl last_id true fuel s t i =
      some (true, (({ s with
        m_grid := Function.update s.m_grid i (priority_blocking.m_tls_thread_ids last_id t) } :
        Grid Nat).set_thread_local_grid t i true).push_back t i) := by
  unfold priority_blocking.try_lock_cell_impl compare_and_swap
  simp only [hs, if_true]

theorem priority_blocking.try_lock_cell_impl_no_spin_held (last_id : Thread → Nat) (fuel : Nat)
    (s : Grid Nat) (t : Thread) (i : Int) (hs : s.m_grid i ≠ 0) :
    priority_blocking.try_lock_cell_impl last_id true fuel s t i = some (false, s) := by
  unfold priority_blocking.try_lock_cell_impl compare_and_swap
  simp only [hs, if_false, if_true]

theorem priority_blocking.try_lock_cell_impl_spin (last_id : Thread → Nat) (fuel : Nat)
    (s : Grid Nat) (t : Thread) (i : Int) :
    priority_blocking.try_lock_cell_impl last_id false fuel s t i =
      priority_blocking.spin (priority_blocking.m_tls_thread_ids last_id t) t i fuel s := by
  unfold priority_blocking.try_lock_cell_impl
  simp

theorem priority_blocking.priority_laws (last_id : Thread → Nat) :
    Laws (priority_blocking.derived last_id) (priority_blocking.m_tls_thread_ids last_id) where
  holder_ne := by
    intro t
    exact priority_blocking.m_tls_thread_ids_ne_zero last_id t
  probe := by intro s t i; rfl
  unlock_frame := by
    intro s t i
    exact ⟨0, rfl, fun _ => rfl, fun _ => rfl⟩
  lock_false := by
    intro no_spin fuel s t i s1 h
    change priority_blocking.try_lock_cell_impl last_id no_spin fuel s t i = _ at h
    change s1 = s ∧ s.m_grid i ≠ 0
    by_cases hs : s.m_grid i = 0
    · cases no_spin with
      | true =>
        rw [priority_blocking.try_lock_cell_impl_no_spin_free _ _ _ _ _ hs] at h; simp at h
      | false =>
        rw [priority_blocking.try_lock_cell_impl_spin] at h
        cases fuel with
        | zero => simp [priority_blocking.spin] at h
        | succ n => rw [priority_blocking.spin_free _ _ _ _ _ hs] at h; simp at h
    · refine ⟨?_, hs⟩
      cases no_spin with
      | true =>
        rw [priority_blocking.try_lock_cell_impl_no_spin_held _ _ _ _ _ hs] at h
        simp only [Option.some.injEq, Prod.mk.injEq, true_and] at h
        exact h.symm
      | false =>
        rw [priority_blocking.try_lock_cell_impl_spin] at h
        by_cases hle : s.m_grid i ≤ priority_blocking.m_tls_thread_ids last_id t
        · rw [priority_blocking.spin_never _ _ _ _ _ hs hle] at h; simp at h
        · cases fuel with
          | zero => simp [priority_blocking.spin] at h
          | succ n =>
            rw [priority_blocking.spin_back_off _ _ _ _ _ (by omega)] at h
            simp only [Option.some.injEq, Prod.mk.injEq, true_and] at h
            exact h.symm
  lock_true := by
    intro no_spin fuel s t i s1 h
    change priority_blocking.try_lock_cell_impl last_id no_spin fuel s t i = _ at h
    by_cases hs : s.m_grid i = 0
    · refine ⟨priority_blocking.m_tls_thread_ids last_id t, ?_, fun _ => rfl, Or.inl hs⟩
      cases no_spin with
      | true =>
        rw [priority_blocking.try_lock_cell_impl_no_spin_free _ _ _ _ _ hs] at h
        simp only [Option.some.injEq, Prod.mk.injEq, true_and] at h
        exact h.symm
      | false =>
        rw [priority_blocking.try_lock_cell_impl_spin] at h
        cases fuel with
        | zero => simp [priority_blocking.spin] at h
        | succ n =>
          rw [priority_blocking.spin_free _ _ _ _ _ hs] at h
          simp only [Option.some.injEq, Prod.mk.injEq, true_and] at h
          exact h.symm
    · exfalso
      cases no_spin with
      | true =>
        rw [priority_blocking.try_lock_cell_impl_no_spin_held _ _ _ _ _ hs] at h; simp at h
      | false =>
        rw [priority_blocking.try_lock_cell_impl_spin] at h
        by_cases hle : s.m_grid i ≤ priority_blocking.m_tls_thread_ids last_id t
        · rw [priority_blocking.spin_never _ _ _ _ _ hs hle] at h; simp at h
        · cases fuel with
          | zero => simp [priority_blocking.spin] at h
          | succ n =>
            rw [priority_blocking.spin_back_off _ _ _ _ _ (by omega)] at h; simp at h
  lock_free := by
    intro no_spin fuel s t i hs
    change priority_blocking.try_lock_cell_impl last_id no_spin (fuel + 1) s t i = _
    cases no_spin with
    | true => exact priority_blocking.try_lock_cell_impl_no_spin_free _ _ _ _ _ hs
    | false =>
      rw [priority_blocking.try_lock_cell_impl_spin]
      exact priority_blocking.spin_free _ _ _ _ _ hs

theorem non_blocking_with_mutexes.mutex_try_lock_free (no_spin : Bool) (fuel : Nat)
    (s : Grid recursive_mutex) (t : Thread) (i : Int) (hm : s.m_grid i = recursive_mutex.free) :
    non_blocking_with_mutexes.try_lock_cell_impl no_spin fuel s t i =
      some (true, (({ s with m_grid := Function.update s.m_grid i (recursive_mutex.held t 0) } :
        Grid recursive_mutex).set_thread_local_grid t i true).push_back t i) := by
  unfold non_blocking_with_mutexes.try_lock_cell_impl
  simp only [hm, recursive_mutex.try_lock, if_true]

theorem non_blocking_with_mutexes.mutex_try_lock_self (no_spin : Bool) (fuel : Nat)
    (s : Grid recursive_mutex) (t : Thread) (i : Int) (n : Nat)
    (hm : s.m_grid i = recursive_mutex.held t n) :
    non_blocking_with_mutexes.try_lock_cell_impl no_spin fuel s t i =
      some (true, (({ s with
        m_grid := Function.update s.m_grid i (recursive_mutex.held t (n + 1)) } :
        Grid recursive_mutex).set_thread_local_grid t i true).push_back t i) := by
  unfold non_blocking_with_mutexes.try_lock_cell_impl
  simp only [hm, recursive_mutex.try_lock, if_true]

theorem non_blocking_with_mutexes.mutex_try_lock_other (no_spin : Bool) (fuel : Nat)
    (s : Grid recursive_mutex) (t u : Thread) (i : Int) (n : Nat)
    (hm : s.m_grid i = recursive_mutex.held u n) (hu : u ≠ t) :
    non_blocking_with_mutexes.try_lock_cell_impl no_spin fuel s t i = some (false, s) := by
  unfold non_blocking_with_mutexes.try_lock_cell_impl
  simp only [hm, recursive_mutex.try_lock, hu, if_false]
  rw [← hm, Function.update_eq_self]
  simp

theorem non_blocking_with_mutexes.mutex_laws :
    Laws non_blocking_with_mutexes.derived (fun t => recursive_mutex.held t 0) where
  holder_ne := by intro t; simp [non_blocking_with_mutexes.derived]
  probe := by
    intro s t i
    change (non_blocking_with_mutexes.is_cell_locked_impl s t i).2 = s
    unfold non_blocking_with_mutexes.is_cell_locked_impl
    cases hm : s.m_grid i with
    | free =>
      simp only [recursive_mutex.try_lock, recursive_mutex.unlock, if_true,
        Function.update_same, Function.update_idem]
      rw [← hm, Function.update_eq_self]
    | held u n =>
      by_cases hu : u = t
      · subst hu
        simp only [recursive_mutex.try_lock, recursive_mutex.unlock, if_true,
          Function.update_same, Function.update_idem]
        rw [← hm, Function.update_eq_self]
      · simp only [recursive_mutex.try_lock, hu, if_false]
        rw [← hm, Function.update_eq_self]
        simp
  unlock_frame := by
    intro s t i
    refine ⟨(s.m_grid i).unlock t, rfl, ?_, ?_⟩
    · intro h; rw [h]; simp [recursive_mutex.unlock, non_blocking_with_mutexes.derived]
    · intro h; rw [h]; simp [recursive_mutex.unlock, non_blocking_with_mutexes.derived]
  lock_false := by
    intro no_spin fuel s t i s1 h
    change non_blocking_with_mutexes.try_lock_cell_impl no_spin fuel s t i = _ at h
    cases hm : s.m_grid i with
    | free => rw [non_blocking_with_mutexes.mutex_try_lock_free _ _ _ _ _ hm] at h; simp at h
    | held u n =>
      by_cases hu : u = t
      · subst hu
        rw [non_blocking_with_mutexes.mutex_try_lock_self _ _ _ _ _ _ hm] at h; simp at h
      · rw [non_blocking_with_mutexes.mutex_try_lock_other _ _ _ _ _ _ _ hm hu] at h
        simp only [Option.some.injEq, Prod.mk.injEq, true_and] at h
        exact ⟨h.symm, by simp [non_blocking_with_mutexes.derived]⟩
  lock_true := by
    intro no_spin fuel s t i s1 h
    change non_blocking_with_mutexes.try_lock_cell_impl no_spin fuel s t i = _ at h
    cases hm : s.m_grid i with
    | free =>
      rw [non_blocking_with_mutexes.mutex_try_lock_free _ _ _ _ _ hm] at h
      simp only [Option.some.injEq, Prod.mk.injEq, true_and] at h
      exact ⟨recursive_mutex.held t 0, h.symm, fun _ => rfl, Or.inl rfl⟩
    | held u n =>
      by_cases hu : u = t
      · subst hu
        rw [non_blocking_with_mutexes.mutex_try_lock_self _ _ _ _ _ _ hm] at h
        simp only [Option.some.injEq, Prod.mk.injEq, true_and] at h
        refine ⟨recursive_mutex.held u (n + 1), h.symm, ?_, Or.inr ?_⟩
        · intro h0; simp [non_blocking_with_mutexes.derived] at h0
        · intro w hw
          simp only [recursive_mutex.held.injEq] at hw
          exact hw.1.symm
      · rw [non_blocking_with_mutexes.mutex_try_lock_other _ _ _ _ _ _ _ hm hu] at h
        simp at h
  lock_free := by
    intro no_spin fuel s t i hs
    exact non_blocking_with_mutexes.mutex_try_lock_free no_spin (fuel + 1) s t i hs

theorem laws (last_id : Thread → Nat) (tag : Grid_lock_tag) :
    Laws (Spatial_grid_lock_data_structure_3 last_id tag) (held_by last_id tag) := by
  cases tag with
  | Tag_non_blocking => exact non_blocking.flag_laws
  | Tag_priority_blocking => exact priority_blocking.priority_laws last_id
  | Tag_non_blocking_with_mutexes => exact non_blocking_with_mutexes.mutex_laws

/-! ## Single cells -/

section generic

variable {σ : Type} {D : Derived σ} {holder : Thread → σ}

theorem try_lock_owned (D : Derived σ) (no_spin : Bool) (fuel : Nat) (s : Grid σ) (t : Thread)
    (i : Int) (h : s.m_tls_grids t i = true) :
    try_lock D no_spin fuel s t i = some (true, s) := by
  unfold try_lock Grid.get_thread_local_grid
  simp [h]

theorem try_lock_not_owned (D : Derived σ) (no_spin : Bool) (fuel : Nat) (s : Grid σ)
    (t : Thread) (i : Int) (h : s.m_tls_grids t i = false) :
    try_lock D no_spin fuel s t i = D.try_lock_cell_impl no_spin fuel s t i := by
  unfold try_lock Grid.get_thread_local_grid try_lock_cell
  simp [h]

theorem try_lock_false (L : Laws D holder) {no_spin : Bool} {fuel : Nat} {s s1 : Grid σ}
    {t : Thread} {i : Int} (h : try_lock D no_spin fuel s t i = some (false, s1)) :
    s1 = s ∧ s.m_grid i ≠ D.init ∧ s.m_tls_grids t i = false := by
  cases ho : s.m_tls_grids t i with
  | true => rw [try_lock_owned D no_spin fuel s t i ho] at h; simp at h
  | false =>
    rw [try_lock_not_owned D no_spin fuel s t i ho] at h
    have := L.lock_false no_spin fuel s t i s1 h
    exact ⟨this.1, this.2, rfl⟩

theorem try_lock_true (L : Laws D holder) {no_spin : Bool} {fuel : Nat} {s s1 : Grid σ}
    {t : Thread} {i : Int} (h : try_lock D no_spin fuel s t i = some (true, s1)) :
    (s.m_tls_grids t i = true ∧ s1 = s) ∨
      (s.m_tls_grids t i = false ∧ ∃ v, s1 = s.acquire t i v ∧
        (s.m_grid i = D.init → v = holder t) ∧
        (s.m_grid i = D.init ∨ ∀ u, s.m_grid i = holder u → u = t)) := by
  cases ho : s.m_tls_grids t i with
  | true =>
    rw [try_lock_owned D no_spin fuel s t i ho] at h
    simp only [Option.some.injEq, Prod.mk.injEq, true_and] at h
    exact Or.inl ⟨rfl, h.symm⟩
  | false =>
    rw [try_lock_not_owned D no_spin fuel s t i ho] at h
    exact Or.inr ⟨rfl, L.lock_true no_spin fuel s t i s1 h⟩

@[simp] theorem Grid.acquire_m_grid (s : Grid σ) (t : Thread) (i : Int) (v : σ) :
    (s.acquire t i v).m_grid = Function.update s.m_grid i v := rfl

@[simp] theorem Grid.acquire_m_tls_grids (s : Grid σ) (t : Thread) (i : Int) (v : σ) :
    (s.acquire t i v).m_tls_grids =
      Function.update s.m_tls_grids t (Function.update (s.m_tls_grids t) i true) := rfl

@[simp] theorem Grid.acquire_m_tls_locked_cells (s : Grid σ) (t : Thread) (i : Int) (v : σ) :
    (s.acquire t i v).m_tls_locked_cells =
      Function.update s.m_tls_locked_cells t (s.m_tls_locked_cells t ++ [i]) := rfl

@[simp] theorem Grid.acquire_N (s : Grid σ) (t : Thread) (i : Int) (v : σ) :
    (s.acquire t i v).m_num_grid_cells_per_axis = s.m_num_grid_cells_per_axis := rfl

theorem Grid.acquire_owned (s : Grid σ) (t u : Thread) (i j : Int) (v : σ) :
    (s.acquire t i v).m_tls_grids u j = true ↔
      (u = t ∧ j = i) ∨ s.m_tls_grids u j = true := by
  simp only [Grid.acquire_m_tls_grids, Function.update_apply]
  by_cases hu : u = t
  · subst hu
    by_cases hj : j = i
    · subst hj; simp
    · simp [hj]
  · simp [hu]

@[simp] theorem Grid.release_m_grid (free : σ) (s : Grid σ) (t : Thread) (p : Int → Bool) :
    (s.release free t p).m_grid = fun i => if p i = true then free else s.m_grid i := rfl

@[simp] theorem Grid.release_m_tls_grids (free : σ) (s : Grid σ) (t : Thread) (p : Int → Bool) :
    (s.release free t p).m_tls_grids =
      Function.update s.m_tls_grids t
        (fun i => if p i = true then false else s.m_tls_grids t i) := rfl

@[simp] theorem Grid.release_m_tls_locked_cells (free : σ) (s : Grid σ) (t : Thread)
    (p : Int → Bool) : (s.release free t p).m_tls_locked_cells = s.m_tls_locked_cells := rfl

@[simp] theorem Grid.release_N (free : σ) (s : Grid σ) (t : Thread) (p : Int → Bool) :
    (s.release free t p).m_num_grid_cells_per_axis = s.m_num_grid_cells_per_axis := rfl

theorem Grid.release_owned (free : σ) (s : Grid σ) (t u : Thread) (p : Int → Bool) (j : Int) :
    (s.release free t p).m_tls_grids u j = true ↔
      s.m_tls_grids u j = true ∧ ¬ (u = t ∧ p j = true) := by
  simp only [Grid.release_m_tls_grids, Function.update_apply]
  by_cases hu : u = t
  · subst hu
    by_cases hp : p j = true
    · simp [hp]
    · simp [hp]
  · simp [hu]

theorem Grid.release_congr (free : σ) (s : Grid σ) (t : Thread) (p q : Int → Bool)
    (h : ∀ i, p i = q i) : s.release free t p = s.release free t q := by
  have : p = q := funext h
  rw [this]

theorem Grid.release_release (free : σ) (s : Grid σ) (t : Thread) (p q : Int → Bool) :
    (s.release free t p).release free t q = s.release free t (fun i => p i || q i) := by
  apply Grid.ext_fields <;> try rfl
  · simp only [Grid.release_m_tls_grids, Function.update_same, Function.update_idem]
    refine congrArg (Function.update s.m_tls_grids t) ?_
    funext i
    cases p i <;> cases q i <;> simp
  · simp only [Grid.release_m_grid]
    funext i
    cases p i <;> cases q i <;> simp

theorem Grid.release_none (free : σ) (s : Grid σ) (t : Thread) (p : Int → Bool)
    (h : ∀ i, p i = true → s.m_grid i = free ∧ s.m_tls_grids t i = false) :
    s.release free t p = s := by
  apply Grid.ext_fields <;> try rfl
  · simp only [Grid.release_m_tls_grids]
    have : (fun i => if p i = true then false else s.m_tls_grids t i) = s.m_tls_grids t := by
      funext i
      by_cases hp : p i = true
      · simp [hp, (h i hp).2]
      · simp [hp]
    rw [this, Function.update_eq_self]
  · simp only [Grid.release_m_grid]
    funext i
    by_cases hp : p i = true
    · simp [hp, (h i hp).1]
    · simp [hp]

theorem unlock_eq_release (L : Laws D holder) (s : Grid σ) (t : Thread) (c : Int)
    (h : s.m_grid c = holder t ∨ s.m_grid c = D.init) :
    unlock D s t c = s.release D.init t (fun i => decide (i = c)) := by
  obtain ⟨v, hv, h1, h2⟩ := L.unlock_frame s t c
  have hv0 : v = D.init := h.elim h1 h2
  subst hv0
  unfold unlock unlock_cell
  rw [hv]
  apply Grid.ext_fields <;> try rfl
  · simp only [Grid.set_thread_local_grid, Grid.release_m_tls_grids]
    refine congrArg (Function.update s.m_tls_grids t) ?_
    funext i
    by_cases hi : i = c
    · subst hi; simp
    · simp [hi, Function.update_noteq hi]
  · simp only [Grid.set_thread_local_grid, Grid.release_m_grid]
    funext i
    by_cases hi : i = c
    · subst hi; simp
    · simp [hi, Function.update_noteq hi]

/-! ## Consistency is preserved -/

theorem Consistent.acquire {free : σ} (hne : ∀ t, holder t ≠ free) {s : Grid σ}
    (C : Consistent free holder s) (t : Thread) (i : Int) (hfree : s.m_grid i = free) :
    Consistent free holder (s.acquire t i (holder t)) := by
  have hnone : ∀ u, s.m_tls_grids u i = true → False := fun u hu =>
    hne u ((C.slot u i hu).symm.trans hfree)
  constructor
  · intro u j hu
    rw [Grid.acquire_owned] at hu
    simp only [Grid.acquire_m_grid, Function.update_apply]
    rcases hu with ⟨hut, hji⟩ | hu
    · simp [hji, hut]
    · by_cases hji : j = i
      · subst hji; exact (hnone u hu).elim
      · simp [hji, C.slot u j hu]
  · intro u w j hu hw
    rw [Grid.acquire_owned] at hu hw
    rcases hu with ⟨hut, hji⟩ | hu
    · rcases hw with ⟨hwt, _⟩ | hw
      · rw [hut, hwt]
      · subst hji; exact (hnone w hw).elim
    · rcases hw with ⟨_, hji⟩ | hw
      · subst hji; exact (hnone u hu).elim
      · exact C.excl u w j hu hw
  · intro u j hu
    rw [Grid.acquire_owned] at hu
    simp only [Grid.acquire_m_tls_locked_cells, Function.update_apply]
    rcases hu with ⟨hut, hji⟩ | hu
    · simp [hut, hji]
    · by_cases hut : u = t
      · subst hut; simp [C.mem u j hu]
      · simp [hut, C.mem u j hu]
  · intro j hj
    simp only [Grid.acquire_m_grid, Function.update_apply] at hj
    by_cases hji : j = i
    · exact ⟨t, (Grid.acquire_owned s t t i j _).2 (Or.inl ⟨rfl, hji⟩)⟩
    · simp only [hji, if_false] at hj
      obtain ⟨u, hu⟩ := C.owner j hj
      exact ⟨u, (Grid.acquire_owned s t u i j _).2 (Or.inr hu)⟩

theorem Consistent.free_of_lock {s : Grid σ}
    (C : Consistent D.init holder s) {t : Thread} {i : Int} (ho : s.m_tls_grids t i = false)
    (h : s.m_grid i = D.init ∨ ∀ u, s.m_grid i = holder u → u = t) : s.m_grid i = D.init := by
  rcases h with h | h
  · exact h
  · by_contra hne
    obtain ⟨u, hu⟩ := C.owner i hne
    have := h u (C.slot u i hu)
    subst this
    rw [ho] at hu
    exact Bool.noConfusion hu

theorem Consistent.try_lock (L : Laws D holder) {s s1 : Grid σ}
    (C : Consistent D.init holder s) {no_spin : Bool} {fuel : Nat} {t : Thread} {i : Int}
    {b : Bool} (h : try_lock D no_spin fuel s t i = some (b, s1)) :
    Consistent D.init holder s1 := by
  cases b with
  | false => rw [(try_lock_false L h).1]; exact C
  | true =>
    rcases try_lock_true L h with ⟨_, h1⟩ | ⟨ho, v, h1, hv, hs⟩
    · rw [h1]; exact C
    · have hfree := C.free_of_lock ho hs
      rw [h1, hv hfree]
      exact C.acquire L.holder_ne t i hfree

theorem Consistent.release {free : σ} (hne : ∀ t, holder t ≠ free) {s : Grid σ}
    (C : Consistent free holder s) (t : Thread) (p : Int → Bool)
    (hp : ∀ i, p i = true → s.m_tls_grids t i = true ∨ s.m_grid i = free) :
    Consistent free holder (s.release free t p) := by
  constructor
  · intro u j hu
    rw [Grid.release_owned] at hu
    simp only [Grid.release_m_grid]
    by_cases hpj : p j = true
    · exfalso
      rcases hp j hpj with h | h
      · exact hu.2 ⟨C.excl u t j hu.1 h, hpj⟩
      · exact hne u ((C.slot u j hu.1).symm.trans h)
    · simp [hpj, C.slot u j hu.1]
  · intro u w j hu hw
    rw [Grid.release_owned] at hu hw
    exact C.excl u w j hu.1 hw.1
  · intro u j hu
    rw [Grid.release_owned] at hu
    exact C.mem u j hu.1
  · intro j hj
    simp only [Grid.release_m_grid] at hj
    by_cases hpj : p j = true
    · simp [hpj] at hj
    · simp only [hpj, if_false] at hj
      obtain ⟨u, hu⟩ := C.owner j hj
      exact ⟨u, (Grid.release_owned free s t u p j).2 ⟨hu, fun h => hpj h.2⟩⟩

theorem Consistent.of_fields {free : σ} {s s1 : Grid σ} (C : Consistent free holder s)
    (h1 : s1.m_grid = s.m_grid) (h2 : s1.m_tls_grids = s.m_tls_grids)
    (h3 : s1.m_tls_locked_cells = s.m_tls_locked_cells) : Consistent free holder s1 := by
  constructor
  · intro t i h; rw [h1]; rw [h2] at h; exact C.slot t i h
  · intro t u i h h0; rw [h2] at h h0; exact C.excl t u i h h0
  · intro t i h; rw [h3]; rw [h2] at h; exact C.mem t i h
  · intro i h; rw [h1] at h; rw [h2]; exact C.owner i h

theorem Consistent.unlock (L : Laws D holder) {s : Grid σ}
    (C : Consistent D.init holder s) (t : Thread) (i : Int) (h : s.m_tls_grids t i = true) :
    Consistent D.init holder (unlock D s t i) := by
  rw [unlock_eq_release L s t i (Or.inl (C.slot t i h))]
  apply C.release L.holder_ne
  intro j hj
  have : j = i := by simpa using hj
  subst this
  exact Or.inl h

/-! ## The loops -/

theorem unlock_cells_eq_release (L : Laws D holder) (t : Thread) (tmp : List Int) (s : Grid σ)
    (h : ∀ c ∈ tmp, s.m_grid c = holder t ∨ s.m_grid c = D.init) :
    unlock_cells D t tmp s = s.release D.init t (fun i => decide (i ∈ tmp)) := by
  induction tmp generalizing s with
  | nil =>
    rw [Grid.release_none]
    · rfl
    · intro i hi; simp at hi
  | cons c l ih =>
    have hc := h c (List.mem_cons_self c l)
    have step : unlock_cells D t (c :: l) s = unlock_cells D t l (unlock D s t c) := rfl
    rw [step, unlock_eq_release L s t c hc, ih, Grid.release_release]
    · apply Grid.release_congr
      intro i
      simp [List.mem_cons]
    · intro x hx
      simp only [Grid.release_m_grid]
      by_cases hxc : x = c
      · simp [hxc]
      · simp [hxc, h x (List.mem_cons_of_mem c hx)]

theorem unlock_walk_eq_release (L : Laws D holder) (t : Thread) (l : List Int) (s : Grid σ)
    (h : ∀ c, s.m_tls_grids t c = true → s.m_grid c = holder t) :
    unlock_walk D t l s =
      s.release D.init t (fun i => decide (i ∈ l) && s.m_tls_grids t i) := by
  induction l generalizing s with
  | nil =>
    rw [Grid.release_none]
    · rfl
    · intro i hi; simp at hi
  | cons c l ih =>
    cases ho : s.m_tls_grids t c with
    | false =>
      have step : unlock_walk D t (c :: l) s = unlock_walk D t l s := by
        simp [unlock_walk, Grid.get_thread_local_grid, ho]
      rw [step, ih s h]
      apply Grid.release_congr
      intro i
      by_cases hic : i = c
      · subst hic; simp [ho]
      · simp [hic]
    | true =>
      have step : unlock_walk D t (c :: l) s = unlock_walk D t l (unlock D s t c) := by
        simp [unlock_walk, Grid.get_thread_local_grid, ho]
      rw [step, unlock_eq_release L s t c (Or.inl (h c ho)), ih, Grid.release_release]
      · apply Grid.release_congr
        intro i
        by_cases hic : i = c
        · subst hic; simp [ho]
        · simp [hic, Function.update_same]
      · intro x hx
        have hx1 := (Grid.release_owned D.init s t t _ x).1 hx
        have hxc : x ≠ c := by
          intro e; exact hx1.2 ⟨rfl, by simp [e]⟩
        simp [hxc, h x hx1.1]

theorem unlock_walk_but_one_eq (L : Laws D holder) (t : Thread) (k : Int) (l : List Int)
    (s : Grid σ) (b : Bool) (h : ∀ c, s.m_tls_grids t c = true → s.m_grid c = holder t) :
    unlock_walk_but_one D t k l (s, b) =
      (s.release D.init t (fun i => decide (i ∈ l) && s.m_tls_grids t i && !decide (i = k)),
        b || (decide (k ∈ l) && s.m_tls_grids t k)) := by
  induction l generalizing s b with
  | nil =>
    rw [Grid.release_none]
    · simp [unlock_walk_but_one]
    · intro i hi; simp at hi
  | cons c l ih =>
    cases ho : s.m_tls_grids t c with
    | false =>
      have step : unlock_walk_but_one D t k (c :: l) (s, b) =
          unlock_walk_but_one D t k l (s, b) := by
        simp [unlock_walk_but_one, Grid.get_thread_local_grid, ho]
      rw [step, ih s b h]
      refine Prod.ext ?_ ?_
      · apply Grid.release_congr
        intro i
        by_cases hic : i = c
        · subst hic; simp [ho]
        · simp [hic]
      · by_cases hkc : k = c
        · subst hkc; simp [ho]
        · simp [hkc]
    | true =>
      by_cases hck : c = k
      · have step : unlock_walk_but_one D t k (c :: l) (s, b) =
            unlock_walk_but_one D t k l (s, true) := by
          have hk : s.m_tls_grids t k = true := hck ▸ ho
          simp [unlock_walk_but_one, Grid.get_thread_local_grid, hk, hck]
        rw [step, ih s true h]
        refine Prod.ext ?_ ?_
        · apply Grid.release_congr
          intro i
          by_cases hic : i = c
          · subst hic; simp [hck]
          · simp [hic]
        · subst hck; simp [ho]
      · have step : unlock_walk_but_one D t k (c :: l) (s, b) =
            unlock_walk_but_one D t k l (unlock D s t c, b) := by
          simp [unlock_walk_but_one, Grid.get_thread_local_grid, ho, hck]
        rw [step, unlock_eq_release L s t c (Or.inl (h c ho)), ih, Grid.release_release]
        · have hkc : k ≠ c := fun e => hck e.symm
          refine Prod.ext ?_ ?_
          · apply Grid.release_congr
            intro i
            by_cases hic : i = c
            · subst hic; simp [ho, hck]
            · simp [hic, Function.update_same]
          · simp [hkc, Function.update_same]
        · intro x hx
          have hx1 := (Grid.release_owned D.init s t t _ x).1 hx
          have hxc : x ≠ c := by
            intro e; exact hx1.2 ⟨rfl, by simp [e]⟩
          simp [hxc, h x hx1.1]

theorem try_lock_cells_cons_true {no_spin : Bool} {fuel : Nat} {t : Thread} {c : Int}
    {s s1 : Grid σ} (h : try_lock D no_spin fuel s t c = some (true, s1)) (rest tmp : List Int) :
    try_lock_cells D no_spin fuel t (c :: rest) tmp s =
      try_lock_cells D no_spin fuel t rest (tmp ++ [c]) s1 := by
  simp only [try_lock_cells, h]

theorem try_lock_cells_cons_false {no_spin : Bool} {fuel : Nat} {t : Thread} {c : Int}
    {s s1 : Grid σ} (h : try_lock D no_spin fuel s t c = some (false, s1)) (rest tmp : List Int) :
    try_lock_cells D no_spin fuel t (c :: rest) tmp s = some (false, unlock_cells D t tmp s1) := by
  simp only [try_lock_cells, h]

theorem try_lock_cells_cons_none {no_spin : Bool} {fuel : Nat} {t : Thread} {c : Int}
    {s : Grid σ} (h : try_lock D no_spin fuel s t c = none) (rest tmp : List Int) :
    try_lock_cells D no_spin fuel t (c :: rest) tmp s = none := by
  simp only [try_lock_cells, h]

theorem try_lock_mono (L : Laws D holder) {no_spin : Bool} {fuel : Nat} {s s1 : Grid σ}
    {t : Thread} {i : Int} (h : try_lock D no_spin fuel s t i = some (true, s1)) :
    s1.m_tls_grids t i = true ∧ ∀ u x, s.m_tls_grids u x = true → s1.m_tls_grids u x = true := by
  rcases try_lock_true L h with ⟨ho, h1⟩ | ⟨_, v, h1, _, _⟩
  · subst h1; exact ⟨ho, fun _ _ hx => hx⟩
  · subst h1
    exact ⟨(Grid.acquire_owned s t t i i v).2 (Or.inl ⟨rfl, rfl⟩),
      fun u x hx => (Grid.acquire_owned s t u i x v).2 (Or.inr hx)⟩

theorem try_lock_cells_true (L : Laws D holder) (no_spin : Bool) (fuel : Nat) (t : Thread)
    (cells tmp : List Int) (s s1 : Grid σ)
    (h : try_lock_cells D no_spin fuel t cells tmp s = some (true, s1)) :
    (∀ u x, s.m_tls_grids u x = true → s1.m_tls_grids u x = true) ∧
      ∀ c ∈ cells, s1.m_tls_grids t c = true := by
  induction cells generalizing tmp s with
  | nil =>
    simp only [try_lock_cells, Option.some.injEq, Prod.mk.injEq, true_and] at h
    subst h
    exact ⟨fun _ _ hx => hx, fun c hc => by simp at hc⟩
  | cons c rest ih =>
    cases hc : try_lock D no_spin fuel s t c with
    | none => rw [try_lock_cells_cons_none hc] at h; simp at h
    | some r =>
      obtain ⟨b, s2⟩ := r
      cases b with
      | false => rw [try_lock_cells_cons_false hc] at h; simp at h
      | true =>
        rw [try_lock_cells_cons_true hc] at h
        obtain ⟨hm, hall⟩ := ih _ _ h
        obtain ⟨hcc, hmono⟩ := try_lock_mono L hc
        refine ⟨fun u x hx => hm u x (hmono u x hx), ?_⟩
        intro x hx
        rcases List.mem_cons.1 hx with e | e
        · rw [e]; exact hm t c hcc
        · exact hall x e

theorem try_lock_cells_consistent (L : Laws D holder) (no_spin : Bool) (fuel : Nat) (t : Thread)
    (cells tmp : List Int) (s s1 : Grid σ) (b : Bool) (C : Consistent D.init holder s)
    (htmp : ∀ x ∈ tmp, s.m_tls_grids t x = true)
    (h : try_lock_cells D no_spin fuel t cells tmp s = some (b, s1)) :
    Consistent D.init holder s1 := by
  induction cells generalizing tmp s with
  | nil =>
    simp only [try_lock_cells, Option.some.injEq, Prod.mk.injEq] at h
    rw [← h.2]; exact C
  | cons c rest ih =>
    cases hc : try_lock D no_spin fuel s t c with
    | none => rw [try_lock_cells_cons_none hc] at h; simp at h
    | some r =>
      obtain ⟨b1, s2⟩ := r
      cases b1 with
      | false =>
        rw [try_lock_cells_cons_false hc] at h
        simp only [Option.some.injEq, Prod.mk.injEq] at h
        have hs2 := (try_lock_false L hc).1
        subst hs2
        rw [← h.2, unlock_cells_eq_release L t tmp s2
          (fun x hx => Or.inl (C.slot t x (htmp x hx)))]
        apply C.release L.holder_ne
        intro i hi
        exact Or.inl (htmp i (by simpa using hi))
      | true =>
        rw [try_lock_cells_cons_true hc] at h
        obtain ⟨hcc, hmono⟩ := try_lock_mono L hc
        refine ih _ _ (C.try_lock L hc) ?_ h
        intro x hx
        rcases List.mem_append.1 hx with e | e
        · exact hmono t x (htmp x e)
        · have : x = c := by simpa using e
          rw [this]; exact hcc

theorem try_lock_cells_false (L : Laws D holder) (no_spin : Bool) (fuel : Nat) (t : Thread)
    (cells tmp : List Int) (s s1 : Grid σ) (C : Consistent D.init holder s)
    (htmp : ∀ x ∈ tmp, s.m_tls_grids t x = true)
    (h : try_lock_cells D no_spin fuel t cells tmp s = some (false, s1)) :
    ∃ pre c rest, cells = pre ++ c :: rest ∧
      (∀ x ∈ pre, s.m_tls_grids t x = true ∨ s.m_grid x = D.init) ∧
      s.m_grid c ≠ D.init ∧ s.m_tls_grids t c = false ∧
      (∀ i, s1.m_grid i = if i ∈ tmp ∨ i ∈ pre then D.init else s.m_grid i) ∧
      (∀ i, s1.m_tls_grids t i = if i ∈ tmp ∨ i ∈ pre then false else s.m_tls_grids t i) ∧
      (∀ u, u ≠ t → s1.m_tls_grids u = s.m_tls_grids u ∧
        s1.m_tls_locked_cells u = s.m_tls_locked_cells u) ∧
      s1.m_num_grid_cells_per_axis = s.m_num_grid_cells_per_axis := by
  induction cells generalizing tmp s with
  | nil => simp [try_lock_cells] at h
  | cons c0 rest0 ih =>
    cases hc : try_lock D no_spin fuel s t c0 with
    | none => rw [try_lock_cells_cons_none hc] at h; simp at h
    | some r =>
      obtain ⟨b1, s2⟩ := r
      cases b1 with
      | false =>
        rw [try_lock_cells_cons_false hc] at h
        simp only [Option.some.injEq, Prod.mk.injEq, true_and] at h
        obtain ⟨hs2, hne, hown⟩ := try_lock_false L hc
        subst hs2
        rw [unlock_cells_eq_release L t tmp s2
          (fun x hx => Or.inl (C.slot t x (htmp x hx)))] at h
        subst h
        refine ⟨[], c0, rest0, rfl, ?_, hne, hown, ?_, ?_, ?_, rfl⟩
        · intro x hx; simp at hx
        · intro i; simp
        · intro i; simp
        · intro u hu
          exact ⟨by simp [Function.update_noteq hu], rfl⟩
      | true =>
        rw [try_lock_cells_cons_true hc] at h
        obtain ⟨hcc, hmono⟩ := try_lock_mono L hc
        have htmp2 : ∀ x ∈ tmp ++ [c0], s2.m_tls_grids t x = true := by
          intro x hx
          rcases List.mem_append.1 hx with e | e
          · exact hmono t x (htmp x e)
          · have : x = c0 := by simpa using e
            rw [this]; exact hcc
        obtain ⟨pre, c, rest, hsplit, hpre, hcne, hcown, hg, ho, hoth, hN⟩ :=
          ih _ _ (C.try_lock L hc) htmp2 h
        have hmem : ∀ i, (i ∈ tmp ++ [c0] ∨ i ∈ pre) ↔ (i ∈ tmp ∨ i ∈ c0 :: pre) := by
          intro i
          simp only [List.mem_append, List.mem_singleton, List.mem_cons]
          tauto
        rcases try_lock_true L hc with ⟨hown0, h2⟩ | ⟨hown0, v, h2, hv, hs⟩
        · subst h2
          refine ⟨c0 :: pre, c, rest, by simp [hsplit], ?_, hcne, hcown, ?_, ?_, hoth, hN⟩
          · intro x hx
            rcases List.mem_cons.1 hx with e | e
            · rw [e]; exact Or.inl hown0
            · exact hpre x e
          · intro i; rw [hg i]; simp only [hmem i]
          · intro i; rw [ho i]; simp only [hmem i]
        · have hfree := C.free_of_lock hown0 hs
          have hcc0 : c ≠ c0 := by
            intro e
            rw [e, hcc] at hcown
            exact Bool.noConfusion hcown
          subst h2
          refine ⟨c0 :: pre, c, rest, by simp [hsplit], ?_, ?_, ?_, ?_, ?_, ?_, hN⟩
          · intro x hx
            rcases List.mem_cons.1 hx with e | e
            · rw [e]; exact Or.inr hfree
            · by_cases hx0 : x = c0
              · rw [hx0]; exact Or.inr hfree
              · rcases hpre x e with h3 | h3
                · rcases (Grid.acquire_owned s t t c0 x v).1 h3 with ⟨_, h4⟩ | h4
                  · exact (hx0 h4).elim
                  · exact Or.inl h4
                · simp only [Grid.acquire_m_grid, Function.update_noteq hx0] at h3
                  exact Or.inr h3
          · simpa [Function.update_noteq hcc0] using hcne
          · simpa [Function.update_noteq hcc0] using hcown
          · intro i
            rw [hg i]
            by_cases hi0 : i = c0
            · subst hi0; simp
            · simp only [hmem i, Grid.acquire_m_grid, Function.update_noteq hi0]
          · intro i
            rw [ho i]
            by_cases hi0 : i = c0
            · subst hi0; simp
            · simp only [hmem i, Grid.acquire_m_tls_grids, Function.update_same,
                Function.update_noteq hi0]
          · intro u hu
            obtain ⟨h5, h6⟩ := hoth u hu
            exact ⟨by rw [h5]; simp [Function.update_noteq hu],
              by rw [h6]; simp [Function.update_noteq hu]⟩

/-! ## Bulk release -/

theorem unlock_all_eq (L : Laws D holder) {s : Grid σ} (C : Consistent D.init holder s)
    (t : Thread) :
    unlock_all_points_locked_by_this_thread D s t =
      (s.release D.init t (s.m_tls_grids t)).clear t := by
  unfold unlock_all_points_locked_by_this_thread
  rw [unlock_walk_eq_release L t _ s (C.slot t)]
  congr 1
  apply Grid.release_congr
  intro i
  cases hi : s.m_tls_grids t i with
  | false => simp
  | true => simp [C.mem t i hi]

theorem unlock_all_but_one_eq (L : Laws D holder) {s : Grid σ}
    (C : Consistent D.init holder s) (t : Thread) (k : Int) :
    unlock_all_tls_locked_cells_but_one D s t k =
      if s.m_tls_grids t k = true then
        ((s.release D.init t (fun i => s.m_tls_grids t i && !decide (i = k))).clear t).push_back
          t k
      else (s.release D.init t (fun i => s.m_tls_grids t i && !decide (i = k))).clear t := by
  unfold unlock_all_tls_locked_cells_but_one
  rw [unlock_walk_but_one_eq L t k _ s false (C.slot t)]
  have hp : (fun i => decide (i ∈ s.m_tls_locked_cells t) && s.m_tls_grids t i &&
      !decide (i = k)) = (fun i => s.m_tls_grids t i && !decide (i = k)) := by
    funext i
    cases hi : s.m_tls_grids t i with
    | false => simp
    | true => simp [C.mem t i hi]
  simp only [hp]
  cases hk : s.m_tls_grids t k with
  | false => simp
  | true => simp [C.mem t k hk]

theorem Consistent.unlock_all (L : Laws D holder) {s : Grid σ}
    (C : Consistent D.init holder s) (t : Thread) :
    Consistent D.init holder (unlock_all_points_locked_by_this_thread D s t) := by
  rw [unlock_all_eq L C]
  have C1 : Consistent D.init holder (s.release D.init t (s.m_tls_grids t)) :=
    C.release L.holder_ne t _ (fun i hi => Or.inl hi)
  constructor
  · exact C1.slot
  · exact C1.excl
  · intro u i hu
    by_cases hut : u = t
    · subst hut
      have := (Grid.release_owned D.init s u u (s.m_tls_grids u) i).1 hu
      exact (this.2 ⟨rfl, this.1⟩).elim
    · have := C1.mem u i hu
      simpa [Grid.clear, Function.update_noteq hut] using this
  · exact C1.owner

theorem Consistent.unlock_all_but_one (L : Laws D holder) {s : Grid σ}
    (C : Consistent D.init holder s) (t : Thread) (k : Int) :
    Consistent D.init holder (unlock_all_tls_locked_cells_but_one D s t k) := by
  rw [unlock_all_but_one_eq L C]
  have C1 : Consistent D.init holder
      (s.release D.init t (fun i => s.m_tls_grids t i && !decide (i = k))) :=
    C.release L.holder_ne t _ (fun i hi => Or.inl (by
      simp only [Bool.and_eq_true] at hi; exact hi.1))
  have hown : ∀ u i, (s.release D.init t
      (fun i => s.m_tls_grids t i && !decide (i = k))).m_tls_grids u i = true →
      u = t → i = k := by
    intro u i hu hut
    have := (Grid.release_owned D.init s t u _ i).1 hu
    by_contra hik
    subst hut
    exact this.2 ⟨rfl, by simp [this.1, hik]⟩
  by_cases hk : s.m_tls_grids t k = true
  · rw [if_pos hk]
    constructor
    · exact C1.slot
    · exact C1.excl
    · intro u i hu
      by_cases hut : u = t
      · have hik := hown u i hu hut
        subst hut
        simp [Grid.push_back, Grid.clear, hik]
      · have := C1.mem u i hu
        simpa [Grid.push_back, Grid.clear, Function.update_noteq hut] using this
    · exact C1.owner
  · rw [if_neg hk]
    constructor
    · exact C1.slot
    · exact C1.excl
    · intro u i hu
      by_cases hut : u = t
      · have hik := hown u i hu hut
        have := (Grid.release_owned D.init s t u _ i).1 hu
        subst hut
        subst hik
        exact (hk this.1).elim
      · have := C1.mem u i hu
        simpa [Grid.clear, Function.update_noteq hut] using this
    · exact C1.owner

/-! ## Reachable states are consistent -/

theorem Consistent.construct (D : Derived σ) (holder : Thread → σ) (bbox : Bbox_3) (N : Int) :
    Consistent D.init holder (D.construct bbox N) := by
  constructor
  · intro t i h; exact Bool.noConfusion h
  · intro t u i h; exact Bool.noConfusion h
  · intro t i h; exact Bool.noConfusion h
  · intro i h; exact (h rfl).elim

theorem Consistent.try_lock_region (L : Laws D holder) {s s1 : Grid σ}
    (C : Consistent D.init holder s) {no_spin : Bool} {fuel : Nat} {t : Thread}
    {ix iy iz r : Int} {b : Bool}
    (h : try_lock_region D no_spin fuel s t ix iy iz r = some (b, s1)) :
    Consistent D.init holder s1 := by
  unfold CGAL.try_lock_region at h
  by_cases hr : r = 0
  · simp only [hr, if_true] at h
    exact C.try_lock L h
  · simp only [hr, if_false] at h
    exact try_lock_cells_consistent L no_spin fuel t _ [] s s1 b C
      (fun x hx => by simp at hx) h

theorem Consistent.try_lock_index (L : Laws D holder) {s s1 : Grid σ}
    (C : Consistent D.init holder s) {no_spin : Bool} {fuel : Nat} {t : Thread}
    {c r : Int} {b : Bool}
    (h : try_lock_index D no_spin fuel s t c r = some (b, s1)) :
    Consistent D.init holder s1 := by
  unfold CGAL.try_lock_index at h
  by_cases hr : r = 0
  · simp only [hr, if_true] at h
    exact C.try_lock L h
  · simp only [hr, if_false] at h
    exact C.try_lock_region L h

theorem Consistent.try_lock_point (L : Laws D holder) {s s1 : Grid σ}
    (C : Consistent D.init holder s) {no_spin : Bool} {fuel : Nat} {t : Thread}
    {point : P3} {r : Int} {b : Bool}
    (h : try_lock_point D no_spin fuel s t point r = some (b, s1)) :
    Consistent D.init holder s1 := by
  unfold CGAL.try_lock_point at h
  by_cases hr : r = 0
  · simp only [hr, if_true] at h
    exact C.try_lock L h
  · simp only [hr, if_false] at h
    exact C.try_lock_region L h

theorem check_if_all_cells_are_unlocked_state (L : Laws D holder) (s : Grid σ) (t : Thread) :
    (check_if_all_cells_are_unlocked D s t).2 = s := by
  have key : ∀ (l : List Nat) (b : Bool), (l.foldl
      (fun (a : Bool × Grid σ) (i : Nat) =>
        if a.1 then
          let r := is_cell_locked D a.2 t (i : Int)
          (!r.1, r.2)
        else a) (b, s)).2 = s := by
    intro l
    induction l with
    | nil => intro b; rfl
    | cons x l ih =>
      intro b
      rw [List.foldl_cons]
      cases b with
      | false => exact ih false
      | true =>
        have hp : (is_cell_locked D s t (x : Int)).2 = s := L.probe s t x
        show (List.foldl _ (!(is_cell_locked D s t (x : Int)).1,
          (is_cell_locked D s t (x : Int)).2) l).2 = s
        rw [hp]
        exact ih _
  exact key _ true

theorem Consistent.run (L : Laws D holder) {s s1 : Grid σ} (C : Consistent D.init holder s)
    {fuel : Nat} {t : Thread} {op : Op} (ha : op.allowed s t)
    (h : run D fuel s t op = some s1) : Consistent D.init holder s1 := by
  cases op with
  | try_lock no_spin c =>
    simp only [CGAL.run, Option.map_eq_some', Prod.exists, exists_eq_right] at h
    obtain ⟨b, hb⟩ := h
    exact C.try_lock L hb
  | try_lock_region no_spin ix iy iz r =>
    simp only [CGAL.run, Option.map_eq_some', Prod.exists, exists_eq_right] at h
    obtain ⟨b, hb⟩ := h
    exact C.try_lock_region L hb
  | try_lock_index no_spin c r =>
    simp only [CGAL.run, Option.map_eq_some', Prod.exists, exists_eq_right] at h
    obtain ⟨b, hb⟩ := h
    exact C.try_lock_index L hb
  | try_lock_point no_spin point r =>
    simp only [CGAL.run, Option.map_eq_some', Prod.exists, exists_eq_right] at h
    obtain ⟨b, hb⟩ := h
    exact C.try_lock_point L hb
  | unlock c =>
    simp only [CGAL.run, Option.some.injEq] at h
    subst h
    exact C.unlock L t c ha
  | unlock_all_points_locked_by_this_thread =>
    simp only [CGAL.run, Option.some.injEq] at h
    subst h
    exact C.unlock_all L t
  | unlock_all_tls_locked_cells_but_one k =>
    simp only [CGAL.run, Option.some.injEq] at h
    subst h
    exact C.unlock_all_but_one L t k
  | unlock_all_tls_locked_locations_but_one_point point =>
    simp only [CGAL.run, Option.some.injEq] at h
    subst h
    exact C.unlock_all_but_one L t _
  | set_bbox bbox =>
    simp only [CGAL.run, Option.some.injEq] at h
    subst h
    exact C.of_fields rfl rfl rfl
  | is_locked point =>
    simp only [CGAL.run, Option.some.injEq, is_locked, is_cell_locked, L.probe] at h
    subst h
    exact C
  | check_if_all_cells_are_unlocked =>
    simp only [CGAL.run, Option.some.injEq, check_if_all_cells_are_unlocked_state L] at h
    subst h
    exact C

theorem Reachable.consistent (L : Laws D holder) {bbox : Bbox_3} {N : Int} {s : Grid σ}
    (h : Reachable D bbox N s) : Consistent D.init holder s := by
  induction h with
  | fresh => exact Consistent.construct D holder bbox N
  | step s s1 t op fuel _ ha hrun ih => exact ih.run L ha hrun

end generic

/-! ## Exclusivity -/

/-- C1. In every state reachable from a freshly constructed grid by atomic calls of
the public member functions (with `unlock(i)` only called by a thread whose
`owned[i]` is true), a cell `i` owned by thread `t` has `t` recorded as holder in
shared slot `i`, and every thread that owns `i` is `t`. -/
theorem exclusivity (tag : Grid_lock_tag) (last_id : Thread → Nat) (bbox : Bbox_3) (N : Int)
    (s : Grid tag.Slot)
    (hs : Reachable (Spatial_grid_lock_data_structure_3 last_id tag) bbox N s)
    (i : Int) (t : Thread) (ht : s.m_tls_grids t i = true) :
    s.m_grid i = held_by last_id tag t ∧ ∀ u, s.m_tls_grids u i = true → u = t := by
  have C := hs.consistent (laws last_id tag)
  exact ⟨C.slot t i ht, fun u hu => C.excl u t i hu ht⟩

theorem grid_cell_3_locked_reachable :
    Reachable (Spatial_grid_lock_data_structure_3 zero_ids .Tag_non_blocking) unit_bbox 4
      grid_cell_3_locked :=
  Reachable.step _ _ 0 (.try_lock false 3) 0 Reachable.fresh trivial rfl

/-- Witness of C1: thread `0` owns cell `3` after locking it in a fresh grid. -/
theorem exclusivity_witness :
    Reachable (Spatial_grid_lock_data_structure_3 zero_ids .Tag_non_blocking) unit_bbox 4
        grid_cell_3_locked ∧
      grid_cell_3_locked.m_tls_grids 0 3 = true ∧
      (grid_cell_3_locked.m_grid 3 = true ∧
        ∀ u, grid_cell_3_locked.m_tls_grids u 3 = true → u = 0) :=
  ⟨grid_cell_3_locked_reachable, rfl,
    exclusivity .Tag_non_blocking zero_ids unit_bbox 4 grid_cell_3_locked
      grid_cell_3_locked_reachable 3 0 rfl⟩

/-! ## Regions -/

theorem mem_for_range (lo hi x : Int) : x ∈ for_range lo hi ↔ lo ≤ x ∧ x ≤ hi := by
  unfold for_range
  simp only [List.mem_map, List.mem_range]
  constructor
  · rintro ⟨d, hd, rfl⟩
    omega
  · intro h
    exact ⟨(x - lo).toNat, by omega, by omega⟩

theorem mem_region_cells (N ix iy iz r i j k : Int)
    (hi : max 0 (ix - r) ≤ i ∧ i ≤ min (N - 1) (ix + r))
    (hj : max 0 (iy - r) ≤ j ∧ j ≤ min (N - 1) (iy + r))
    (hk : max 0 (iz - r) ≤ k ∧ k ≤ min (N - 1) (iz + r)) :
    k * N * N + j * N + i ∈ region_cells N ix iy iz r := by
  unfold region_cells
  simp only [List.mem_flatMap, List.mem_map]
  exact ⟨i, (mem_for_range _ _ _).2 hi, j, (mem_for_range _ _ _).2 hj, k,
    (mem_for_range _ _ _).2 hk, rfl⟩

/-- C2, evaluated where it fails.  Thread `1` owns cell `0` and thread `0` owns cell
`2` of a grid with `N = 2`; the call `try_lock(0, 0, 0, 1)` of thread `1` visits the
cells `0, 4, 2`, fails on cell `2` and returns false, and its rollback has released
cell `0`, which thread `1` owned before the call: `owned[0]` and shared slot `0`
were true before the call and are false after it. -/
theorem failed_region_call_releases_owned_cell :
    Reachable (Spatial_grid_lock_data_structure_3 zero_ids .Tag_non_blocking) unit_bbox 2
        grid_two_owners ∧
      (region_cells 2 0 0 0 1).take 3 = [0, 4, 2] ∧
      grid_two_owners.m_tls_grids 1 0 = true ∧ grid_two_owners.m_grid 0 = true ∧
      ∃ s1, try_lock_region non_blocking.derived true 0 grid_two_owners 1 0 0 0 1 =
          some (false, s1) ∧
        s1.m_tls_grids 1 0 = false ∧ s1.m_grid 0 = false := by
  refine ⟨?_, by decide, rfl, rfl, _, rfl, rfl, rfl⟩
  exact Reachable.step _ _ 0 (.try_lock false 2) 0
    (Reachable.step _ _ 1 (.try_lock false 0) 0 Reachable.fresh trivial rfl) trivial rfl

/-- C3. In a reachable state, a call `try_lock(ix, iy, iz, r)` with `r > 0` that
returns false, made by a thread `t` that owned no cell before the call, leaves `t`
owning no cell; the cells `pre` visited before the first failing cell `c` were free
before the call (so the call acquired them) and are free again after it; every
shared slot has the value it had before the call, and the tables of the other
threads are unchanged. -/
theorem rollback_from_clean_start (tag : Grid_lock_tag) (last_id : Thread → Nat)
    (bbox : Bbox_3) (N : Int) (s s1 : Grid tag.Slot)
    (hs : Reachable (Spatial_grid_lock_data_structure_3 last_id tag) bbox N s)
    (t : Thread) (no_spin : Bool) (fuel : Nat) (ix iy iz r : Int) (hr : 0 < r)
    (hclean : ∀ i, s.m_tls_grids t i = false)
    (hcall : try_lock_region (Spatial_grid_lock_data_structure_3 last_id tag) no_spin fuel
      s t ix iy iz r = some (false, s1)) :
    (∀ i, s1.m_tls_grids t i = false) ∧
      (∃ pre c rest,
        region_cells s.m_num_grid_cells_per_axis ix iy iz r = pre ++ c :: rest ∧
        (∀ x ∈ pre, s.m_grid x = (Spatial_grid_lock_data_structure_3 last_id tag).init ∧
          s1.m_grid x = (Spatial_grid_lock_data_structure_3 last_id tag).init) ∧
        s.m_grid c ≠ (Spatial_grid_lock_data_structure_3 last_id tag).init) ∧
      (∀ i, s1.m_grid i = s.m_grid i) ∧
      ∀ u, u ≠ t → s1.m_tls_grids u = s.m_tls_grids u ∧
        s1.m_tls_locked_cells u = s.m_tls_locked_cells u := by
  have C := hs.consistent (laws last_id tag)
  unfold try_lock_region at hcall
  have hr0 : r ≠ 0 := by omega
  simp only [hr0, if_false] at hcall
  obtain ⟨pre, c, rest, hsplit, hpre, hcne, _, hg, ho, hoth, _⟩ :=
    try_lock_cells_false (laws last_id tag) no_spin fuel t _ [] s s1 C
      (fun x hx => by simp at hx) hcall
  have hfree : ∀ x ∈ pre,
      s.m_grid x = (Spatial_grid_lock_data_structure_3 last_id tag).init := by
    intro x hx
    rcases hpre x hx with h | h
    · rw [hclean x] at h; exact Bool.noConfusion h
    · exact h
  refine ⟨?_, ⟨pre, c, rest, hsplit, ?_, hcne⟩, ?_, hoth⟩
  · intro i
    rw [ho i, hclean i]
    simp
  · intro x hx
    refine ⟨hfree x hx, ?_⟩
    rw [hg x]
    simp [hx]
  · intro i
    rw [hg i]
    by_cases hi : i ∈ pre
    · simp [hi, hfree i hi]
    · simp [hi]

theorem grid_cell_2_locked_reachable :
    Reachable (Spatial_grid_lock_data_structure_3 zero_ids .Tag_non_blocking) unit_bbox 2
      grid_cell_2_locked :=
  Reachable.step _ _ 0 (.try_lock false 2) 0 Reachable.fresh trivial rfl

/-- Witness of C3: thread `0` holds cell `2` of a grid with `N = 2`, and thread `1`,
which owns nothing, calls `try_lock(0, 0, 0, 1)`: it acquires cells `0` and `4`,
fails on cell `2` and rolls back. -/
theorem rollback_from_clean_start_witness :
    (0 : Int) < 1 ∧ (∀ i, grid_cell_2_locked.m_tls_grids 1 i = false) ∧
      try_lock_region (Spatial_grid_lock_data_structure_3 zero_ids .Tag_non_blocking) true 0
        grid_cell_2_locked 1 0 0 0 1 = some (false, grid_cell_2_locked_after) ∧
      ((∀ i, grid_cell_2_locked_after.m_tls_grids 1 i = false) ∧
      (∃ pre c rest,
        region_cells grid_cell_2_locked.m_num_grid_cells_per_axis 0 0 0 1 = pre ++ c :: rest ∧
        (∀ x ∈ pre, grid_cell_2_locked.m_grid x = false ∧
          grid_cell_2_locked_after.m_grid x = false) ∧
        grid_cell_2_locked.m_grid c ≠ false) ∧
      (∀ i, grid_cell_2_locked_after.m_grid i = grid_cell_2_locked.m_grid i) ∧
      ∀ u, u ≠ 1 → grid_cell_2_locked_after.m_tls_grids u = grid_cell_2_locked.m_tls_grids u ∧
        grid_cell_2_locked_after.m_tls_locked_cells u =
          grid_cell_2_locked.m_tls_locked_cells u) :=
  ⟨by decide, fun _ => rfl, rfl,
    rollback_from_clean_start .Tag_non_blocking zero_ids unit_bbox 2 grid_cell_2_locked
      grid_cell_2_locked_after grid_cell_2_locked_reachable 1 true 0 0 0 0 1 (by decide)
      (fun _ => rfl) rfl⟩

/-- C4. If `try_lock(ix, iy, iz, r)` returns true, the calling thread afterwards has
`owned[k*N*N + j*N + i] = true` for every `(i, j, k)` of the clipped ranges
`[max(0, ix-r), min(N-1, ix+r)]`, likewise `j` and `k` (for every `N`, centre and
`r`, in particular for `N ≥ 1`, a centre inside the grid and `r ≥ 1`); for `N = 4`,
centre `(1, 1, 1)` and `r = 1` the region has 27 distinct cells. -/
theorem region_success (tag : Grid_lock_tag) (last_id : Thread → Nat) (s s1 : Grid tag.Slot)
    (t : Thread) (no_spin : Bool) (fuel : Nat) (ix iy iz r : Int)
    (hcall : try_lock_region (Spatial_grid_lock_data_structure_3 last_id tag) no_spin fuel
      s t ix iy iz r = some (true, s1)) :
    (∀ i j k : Int,
      max 0 (ix - r) ≤ i ∧ i ≤ min (s.m_num_grid_cells_per_axis - 1) (ix + r) →
      max 0 (iy - r) ≤ j ∧ j ≤ min (s.m_num_grid_cells_per_axis - 1) (iy + r) →
      max 0 (iz - r) ≤ k ∧ k ≤ min (s.m_num_grid_cells_per_axis - 1) (iz + r) →
      s1.m_tls_grids t
        (k * s.m_num_grid_cells_per_axis * s.m_num_grid_cells_per_axis
          + j * s.m_num_grid_cells_per_axis + i) = true) ∧
      (region_cells 4 1 1 1 1).length = 27 ∧ (region_cells 4 1 1 1 1).Nodup := by
  refine ⟨?_, by decide, by decide⟩
  intro i j k hi hj hk
  unfold try_lock_region at hcall
  by_cases hr : r = 0
  · simp only [hr, if_true] at hcall
    subst hr
    have e1 : i = ix := by omega
    have e2 : j = iy := by omega
    have e3 : k = iz := by omega
    rw [e1, e2, e3]
    exact (try_lock_mono (laws last_id tag) hcall).1
  · simp only [hr, if_false] at hcall
    exact (try_lock_cells_true (laws last_id tag) no_spin fuel t _ [] s s1 hcall).2 _
      (mem_region_cells _ ix iy iz r i j k hi hj hk)

/-- Witness of C4: the call `try_lock(1, 1, 1, 1)` of thread `0` on a fresh grid with
`N = 4` returns true. -/
theorem region_success_witness :
    try_lock_region (Spatial_grid_lock_data_structure_3 zero_ids .Tag_non_blocking) true 0
        (non_blocking.derived.construct unit_bbox 4) 0 1 1 1 1 =
        some (true, grid_region_locked) ∧
      ((∀ i j k : Int,
        max 0 (1 - 1) ≤ i ∧
          i ≤ min ((non_blocking.derived.construct unit_bbox 4).m_num_grid_cells_per_axis - 1)
            (1 + 1) →
        max 0 (1 - 1) ≤ j ∧
          j ≤ min ((non_blocking.derived.construct unit_bbox 4).m_num_grid_cells_per_axis - 1)
            (1 + 1) →
        max 0 (1 - 1) ≤ k ∧
          k ≤ min ((non_blocking.derived.construct unit_bbox 4).m_num_grid_cells_per_axis - 1)
            (1 + 1) →
        grid_region_locked.m_tls_grids 0
          (k * (non_blocking.derived.construct unit_bbox 4).m_num_grid_cells_per_axis
              * (non_blocking.derived.construct unit_bbox 4).m_num_grid_cells_per_axis
            + j * (non_blocking.derived.construct unit_bbox 4).m_num_grid_cells_per_axis + i)
          = true) ∧
      (region_cells 4 1 1 1 1).length = 27 ∧ (region_cells 4 1 1 1 1).Nodup) :=
  ⟨rfl, region_success .Tag_non_blocking zero_ids (non_blocking.derived.construct unit_bbox 4)
    grid_region_locked 0 true 0 1 1 1 1 rfl⟩

/-! ## Single-cell calls -/

/-- C5. If shared slot `i` records another thread `u` as holder and the caller `t`
does not own `i`, then `try_lock(i)` returns false and leaves the whole state (the
shared table, the caller's `owned` array and `held` list) unchanged; this holds for
the non-blocking class with both values of `no_spin`, for the priority-blocking
class with `no_spin = true` (and for the mutex class), and for every bound on the
number of spin iterations, zero included: the call makes its one compare-and-swap
and never enters the spin loop. -/
theorem contention_failure (tag : Grid_lock_tag) (last_id : Thread → Nat) (s : Grid tag.Slot)
    (t u : Thread) (i : Int) (no_spin : Bool) (fuel : Nat)
    (hns : tag = .Tag_priority_blocking → no_spin = true) (hu : u ≠ t)
    (hslot : s.m_grid i = held_by last_id tag u) (hown : s.m_tls_grids t i = false) :
    try_lock (Spatial_grid_lock_data_structure_3 last_id tag) no_spin fuel s t i =
      some (false, s) := by
  rw [try_lock_not_owned _ no_spin fuel s t i hown]
  cases tag with
  | Tag_non_blocking => exact non_blocking.flag_try_lock_held no_spin fuel s t i hslot
  | Tag_priority_blocking =>
    rw [hns rfl]
    refine priority_blocking.try_lock_cell_impl_no_spin_held last_id fuel s t i ?_
    rw [hslot]
    exact priority_blocking.m_tls_thread_ids_ne_zero last_id u
  | Tag_non_blocking_with_mutexes =>
    exact non_blocking_with_mutexes.mutex_try_lock_other no_spin fuel s t u i 0 hslot hu

/-- Witness of C5: thread `0` makes the non-spinning call on cell `7` of the
priority-blocking grid in which thread `1` holds that cell. -/
theorem contention_failure_witness :
    (Grid_lock_tag.Tag_priority_blocking = .Tag_priority_blocking → true = true) ∧
      (1 : Thread) ≠ 0 ∧
      grid_held_by_5.m_grid 7 = priority_blocking.m_tls_thread_ids ids_17_5 1 ∧
      grid_held_by_5.m_tls_grids 0 7 = false ∧
      try_lock (Spatial_grid_lock_data_structure_3 ids_17_5 .Tag_priority_blocking) true 0
        grid_held_by_5 0 7 = some (false, grid_held_by_5) :=
  ⟨fun _ => rfl, by decide, rfl, rfl,
    contention_failure .Tag_priority_blocking ids_17_5 grid_held_by_5 0 1 7 true 0
      (fun _ => rfl) (by decide) rfl rfl⟩

/-- C6. For every back-end, if the caller `t` does not own cell `i` and shared slot
`i` is free, then `try_lock(i)` returns true (the spinning call of the
priority-blocking class in its first iteration, so with any bound `fuel > 0`), and
the state after the call is the state before it with shared slot `i` recording `t`
as holder, `owned[i]` true for `t` and `i` appended to the `held` list of `t`;
nothing else is changed. -/
theorem single_cell_acquisition (tag : Grid_lock_tag) (last_id : Thread → Nat)
    (s : Grid tag.Slot) (t : Thread) (i : Int) (no_spin : Bool) (fuel : Nat)
    (hfuel : tag = .Tag_priority_blocking → no_spin = false → 0 < fuel)
    (hown : s.m_tls_grids t i = false)
    (hfree : s.m_grid i = (Spatial_grid_lock_data_structure_3 last_id tag).init) :
    try_lock (Spatial_grid_lock_data_structure_3 last_id tag) no_spin fuel s t i =
      some (true,
        { s with
          m_grid := Function.update s.m_grid i (held_by last_id tag t)
          m_tls_grids := Function.update s.m_tls_grids t (Function.update (s.m_tls_grids t) i true)
          m_tls_locked_cells :=
            Function.update s.m_tls_locked_cells t (s.m_tls_locked_cells t ++ [i]) }) := by
  rw [try_lock_not_owned _ no_spin fuel s t i hown]
  cases tag with
  | Tag_non_blocking => exact non_blocking.flag_try_lock_free no_spin fuel s t i hfree
  | Tag_priority_blocking =>
    cases no_spin with
    | true => exact priority_blocking.try_lock_cell_impl_no_spin_free last_id fuel s t i hfree
    | false =>
      obtain ⟨n, rfl⟩ : ∃ n, fuel = n + 1 := ⟨fuel - 1, by have := hfuel rfl rfl; omega⟩
      exact (priority_blocking.try_lock_cell_impl_spin last_id (n + 1) s t i).trans
        (priority_blocking.spin_free _ t i n s hfree)
  | Tag_non_blocking_with_mutexes =>
    exact non_blocking_with_mutexes.mutex_try_lock_free no_spin fuel s t i hfree

/-- Witness of C6: the spinning call of thread `0`, whose token is `17`, on the free
cell `7` of a fresh priority-blocking grid. -/
theorem single_cell_acquisition_witness :
    (Grid_lock_tag.Tag_priority_blocking = .Tag_priority_blocking → false = false → 0 < 1) ∧
      ((priority_blocking.derived ids_17_5).construct unit_bbox 4).m_tls_grids 0 7 = false ∧
      ((priority_blocking.derived ids_17_5).construct unit_bbox 4).m_grid 7 = 0 ∧
      try_lock (Spatial_grid_lock_data_structure_3 ids_17_5 .Tag_priority_blocking) false 1
        ((priority_blocking.derived ids_17_5).construct unit_bbox 4) 0 7 =
        some (true, grid_held_by_17) :=
  ⟨fun _ _ => by decide, rfl, rfl,
    single_cell_acquisition .Tag_priority_blocking ids_17_5
      ((priority_blocking.derived ids_17_5).construct unit_bbox 4) 0 7 false 1
      (fun _ _ => by decide) rfl rfl⟩

/-- C7. For every back-end `D`, both values of `no_spin` and every bound on the spin
iterations, `try_lock(i)` called by a thread that owns `i` returns true and leaves
the whole state unchanged: the shared slot, `owned` and `held` are as before. -/
theorem re_entrance {σ : Type} (D : Derived σ) (no_spin : Bool) (fuel : Nat) (s : Grid σ)
    (t : Thread) (i : Int) (hown : s.m_tls_grids t i = true) :
    try_lock D no_spin fuel s t i = some (true, s) :=
  try_lock_owned D no_spin fuel s t i hown

/-- Witness of C7: thread `0` locks cell `3` again. -/
theorem re_entrance_witness :
    grid_cell_3_locked.m_tls_grids 0 3 = true ∧
      try_lock non_blocking.derived false 0 grid_cell_3_locked 0 3 =
        some (true, grid_cell_3_locked) :=
  ⟨rfl, re_entrance non_blocking.derived false 0 grid_cell_3_locked 0 3 rfl⟩

/-! ## The back-off rule of the priority-blocking class -/

/-- C8 as stated fails.  Thread `0` has token `17`, thread `1` has token `5` and
holds cell `7`.  The spinning `try_lock_cell` of thread `0` on cell `7` does not
return false: after one iteration, and after three, it has not returned (it has
yielded and retries).  Conversely, when thread `0` holds the cell, the spinning call
of thread `1`, whose token `5` is the smaller one, returns false in its first
iteration. -/
theorem back_off_rule_counterexample :
    priority_blocking.m_tls_thread_ids ids_17_5 0 = 17 ∧
      priority_blocking.m_tls_thread_ids ids_17_5 1 = 5 ∧
      Reachable (priority_blocking.derived ids_17_5) unit_bbox 4 grid_held_by_5 ∧
      grid_held_by_5.m_grid 7 = 5 ∧
      try_lock_cell (priority_blocking.derived ids_17_5) false 1 grid_held_by_5 0 7 = none ∧
      try_lock_cell (priority_blocking.derived ids_17_5) false 3 grid_held_by_5 0 7 = none ∧
      try_lock_cell (priority_blocking.derived ids_17_5) false 1 grid_held_by_5 0 7 ≠
        some (false, grid_held_by_5) ∧
      grid_held_by_17.m_grid 7 = 17 ∧
      try_lock_cell (priority_blocking.derived ids_17_5) false 1 grid_held_by_17 1 7 =
        some (false, grid_held_by_17) := by
  refine ⟨rfl, rfl, ?_, rfl, rfl, rfl, ?_, rfl, rfl⟩
  · exact Reachable.step _ _ 1 (.try_lock false 7) 1 Reachable.fresh trivial rfl
  · intro h
    have h1 : try_lock_cell (priority_blocking.derived ids_17_5) false 1 grid_held_by_5 0 7
        = none := rfl
    rw [h1] at h
    exact Option.noConfusion h

/-- C8, amended.  In the spinning `try_lock_cell` of the priority-blocking class
(`no_spin = false`), when the compare-and-swap fails because the slot holds a token
`h ≠ 0`: if `h` is numerically greater than the caller's token the call returns
false at once and leaves the state unchanged; otherwise (`h` at most the caller's
token) the iteration yields and the call retries on the same state, so that it does
not return as long as the slot keeps that value.  Higher numeric tokens are the
more prioritary ones. -/
theorem back_off_rule (last_id : Thread → Nat) (s : Grid Nat) (t : Thread) (i : Int)
    (fuel : Nat) (h : s.m_grid i ≠ 0) :
    (s.m_grid i > priority_blocking.m_tls_thread_ids last_id t →
      try_lock_cell (priority_blocking.derived last_id) false (fuel + 1) s t i =
        some (false, s)) ∧
    (s.m_grid i ≤ priority_blocking.m_tls_thread_ids last_id t →
      try_lock_cell (priority_blocking.derived last_id) false (fuel + 1) s t i =
        try_lock_cell (priority_blocking.derived last_id) false fuel s t i ∧
      try_lock_cell (priority_blocking.derived last_id) false fuel s t i = none) := by
  have e : ∀ n, try_lock_cell (priority_blocking.derived last_id) false n s t i =
      priority_blocking.spin (priority_blocking.m_tls_thread_ids last_id t) t i n s :=
    fun n => priority_blocking.try_lock_cell_impl_spin last_id n s t i
  constructor
  · intro hgt
    rw [e]
    exact priority_blocking.spin_back_off _ t i fuel s hgt
  · intro hle
    rw [e, e]
    exact ⟨priority_blocking.spin_yield _ t i fuel s h hle,
      priority_blocking.spin_never _ t i fuel s h hle⟩

/-- Witness of C8 amended: thread `0`, with token `17`, on cell `7` held by token `5`. -/
theorem back_off_rule_witness :
    grid_held_by_5.m_grid 7 ≠ 0 ∧
    ((grid_held_by_5.m_grid 7 > priority_blocking.m_tls_thread_ids ids_17_5 0 →
      try_lock_cell (priority_blocking.derived ids_17_5) false (0 + 1) grid_held_by_5 0 7 =
        some (false, grid_held_by_5)) ∧
    (grid_held_by_5.m_grid 7 ≤ priority_blocking.m_tls_thread_ids ids_17_5 0 →
      try_lock_cell (priority_blocking.derived ids_17_5) false (0 + 1) grid_held_by_5 0 7 =
        try_lock_cell (priority_blocking.derived ids_17_5) false 0 grid_held_by_5 0 7 ∧
      try_lock_cell (priority_blocking.derived ids_17_5) false 0 grid_held_by_5 0 7 = none)) :=
  ⟨by decide, back_off_rule ids_17_5 grid_held_by_5 0 7 0 (by decide)⟩

/-! ## Bulk release, the claims -/

/-- C9. In every reachable state, after thread `t` has called
`unlock_all_points_locked_by_this_thread()`, `owned[i]` is false for every cell `i`
of `t`, its `held` list is empty, every shared slot of a cell it owned is free,
every other shared slot (in particular every slot held by another thread) is
unchanged, and the tables of the other threads are unchanged. -/
theorem bulk_release (tag : Grid_lock_tag) (last_id : Thread → Nat) (bbox : Bbox_3) (N : Int)
    (s : Grid tag.Slot)
    (hs : Reachable (Spatial_grid_lock_data_structure_3 last_id tag) bbox N s) (t : Thread) :
    (∀ i, (unlock_all_points_locked_by_this_thread
        (Spatial_grid_lock_data_structure_3 last_id tag) s t).m_tls_grids t i = false) ∧
      (unlock_all_points_locked_by_this_thread
        (Spatial_grid_lock_data_structure_3 last_id tag) s t).m_tls_locked_cells t = [] ∧
      (∀ i, s.m_tls_grids t i = true →
        (unlock_all_points_locked_by_this_thread
          (Spatial_grid_lock_data_structure_3 last_id tag) s t).m_grid i =
          (Spatial_grid_lock_data_structure_3 last_id tag).init) ∧
      (∀ i, s.m_tls_grids t i = false →
        (unlock_all_points_locked_by_this_thread
          (Spatial_grid_lock_data_structure_3 last_id tag) s t).m_grid i = s.m_grid i) ∧
      (∀ u i, u ≠ t → s.m_tls_grids u i = true →
        (unlock_all_points_locked_by_this_thread
          (Spatial_grid_lock_data_structure_3 last_id tag) s t).m_grid i = s.m_grid i) ∧
      ∀ u, u ≠ t →
        (unlock_all_points_locked_by_this_thread
          (Spatial_grid_lock_data_structure_3 last_id tag) s t).m_tls_grids u =
          s.m_tls_grids u ∧
        (unlock_all_points_locked_by_this_thread
          (Spatial_grid_lock_data_structure_3 last_id tag) s t).m_tls_locked_cells u =
          s.m_tls_locked_cells u := by
  have C := hs.consistent (laws last_id tag)
  rw [unlock_all_eq (laws last_id tag) C t]
  have hfalse : ∀ i, s.m_tls_grids t i = false →
      ((s.release (Spatial_grid_lock_data_structure_3 last_id tag).init t
        (s.m_tls_grids t)).clear t).m_grid i = s.m_grid i := by
    intro i hi
    simp [Grid.clear, hi]
  refine ⟨?_, ?_, ?_, hfalse, ?_, ?_⟩
  · intro i
    cases hi : s.m_tls_grids t i <;> simp [Grid.clear, hi]
  · simp [Grid.clear]
  · intro i hi
    simp [Grid.clear, hi]
  · intro u i hu hi
    apply hfalse
    cases ht : s.m_tls_grids t i with
    | false => rfl
    | true => exact (hu (C.excl u t i hi ht)).elim
  · intro u hu
    exact ⟨by simp [Grid.clear, Function.update_noteq hu],
      by simp [Grid.clear, Function.update_noteq hu]⟩

/-- Witness of C9: thread `0` releases everything in the grid where it holds cell `3`. -/
theorem bulk_release_witness :
    Reachable (Spatial_grid_lock_data_structure_3 zero_ids .Tag_non_blocking) unit_bbox 4
        grid_cell_3_locked ∧
      (unlock_all_points_locked_by_this_thread non_blocking.derived
        grid_cell_3_locked 0).m_tls_locked_cells 0 = [] ∧
      (unlock_all_points_locked_by_this_thread non_blocking.derived
        grid_cell_3_locked 0).m_grid 3 = false :=
  ⟨grid_cell_3_locked_reachable,
    (bulk_release .Tag_non_blocking zero_ids unit_bbox 4 grid_cell_3_locked
      grid_cell_3_locked_reachable 0).2.1,
    (bulk_release .Tag_non_blocking zero_ids unit_bbox 4 grid_cell_3_locked
      grid_cell_3_locked_reachable 0).2.2.1 3 rfl⟩

/-- C10. In every reachable state and for every cell index `k`, after thread `t` has
called `unlock_all_tls_locked_cells_but_one(k)`: `owned[i]` is false for all
`i ≠ k`, `owned[k]` has the value it had on entry, the shared slot of every released
cell (a cell `i ≠ k` that `t` owned) is free, every other shared slot is unchanged,
and `held` is `[k]` if `owned[k]` was true on entry and empty otherwise. -/
theorem keep_one_release (tag : Grid_lock_tag) (last_id : Thread → Nat) (bbox : Bbox_3)
    (N : Int) (s : Grid tag.Slot)
    (hs : Reachable (Spatial_grid_lock_data_structure_3 last_id tag) bbox N s) (t : Thread)
    (k : Int) :
    (∀ i, i ≠ k → (unlock_all_tls_locked_cells_but_one
        (Spatial_grid_lock_data_structure_3 last_id tag) s t k).m_tls_grids t i = false) ∧
      (unlock_all_tls_locked_cells_but_one
        (Spatial_grid_lock_data_structure_3 last_id tag) s t k).m_tls_grids t k =
        s.m_tls_grids t k ∧
      (∀ i, i ≠ k → s.m_tls_grids t i = true →
        (unlock_all_tls_locked_cells_but_one
          (Spatial_grid_lock_data_structure_3 last_id tag) s t k).m_grid i =
          (Spatial_grid_lock_data_structure_3 last_id tag).init) ∧
      (∀ i, i = k ∨ s.m_tls_grids t i = false →
        (unlock_all_tls_locked_cells_but_one
          (Spatial_grid_lock_data_structure_3 last_id tag) s t k).m_grid i = s.m_grid i) ∧
      (unlock_all_tls_locked_cells_but_one
        (Spatial_grid_lock_data_structure_3 last_id tag) s t k).m_tls_locked_cells t =
        (if s.m_tls_grids t k = true then [k] else []) := by
  have C := hs.consistent (laws last_id tag)
  rw [unlock_all_but_one_eq (laws last_id tag) C t k]
  by_cases hk : s.m_tls_grids t k = true
  · simp only [hk, if_true]
    refine ⟨?_, ?_, ?_, ?_, ?_⟩
    · intro i hi
      cases h : s.m_tls_grids t i <;> simp [Grid.clear, Grid.push_back, h, hi]
    · simp [Grid.clear, Grid.push_back, hk]
    · intro i hi h
      simp [Grid.clear, Grid.push_back, h, hi]
    · intro i hi
      rcases hi with hi | hi
      · simp [Grid.clear, Grid.push_back, hi]
      · simp [Grid.clear, Grid.push_back, hi]
    · simp [Grid.clear, Grid.push_back]
  · simp only [hk, if_false]
    have hk0 : s.m_tls_grids t k = false := by simpa using hk
    refine ⟨?_, ?_, ?_, ?_, ?_⟩
    · intro i hi
      cases h : s.m_tls_grids t i <;> simp [Grid.clear, h, hi]
    · simp [Grid.clear, hk0]
    · intro i hi h
      simp [Grid.clear, h, hi]
    · intro i hi
      rcases hi with hi | hi
      · simp [Grid.clear, hi]
      · simp [Grid.clear, hi]
    · simp [Grid.clear]

theorem grid_cells_012_locked_reachable :
    Reachable (Spatial_grid_lock_data_structure_3 zero_ids .Tag_non_blocking) unit_bbox 4
      grid_cells_012_locked :=
  Reachable.step _ _ 0 (.try_lock false 2) 0
    (Reachable.step _ _ 0 (.try_lock false 1) 0
      (Reachable.step _ _ 0 (.try_lock false 0) 0 Reachable.fresh trivial rfl) trivial rfl)
    trivial rfl

/-- Witness of C10, scenario S4: thread `0` has locked the cells `0`, `1`, `2` one by
one and keeps cell `1`; afterwards it owns cell `1` only, `held = [1]`, and the
shared slots `0` and `2` are free. -/
theorem keep_one_release_witness :
    Reachable (Spatial_grid_lock_data_structure_3 zero_ids .Tag_non_blocking) unit_bbox 4
        grid_cells_012_locked ∧
      (∀ i, i ≠ 1 → (unlock_all_tls_locked_cells_but_one non_blocking.derived
        grid_cells_012_locked 0 1).m_tls_grids 0 i = false) ∧
      (unlock_all_tls_locked_cells_but_one non_blocking.derived
        grid_cells_012_locked 0 1).m_tls_grids 0 1 = true ∧
      (unlock_all_tls_locked_cells_but_one non_blocking.derived
        grid_cells_012_locked 0 1).m_grid 0 = false ∧
      (unlock_all_tls_locked_cells_but_one non_blocking.derived
        grid_cells_012_locked 0 1).m_grid 2 = false ∧
      (unlock_all_tls_locked_cells_but_one non_blocking.derived
        grid_cells_012_locked 0 1).m_tls_locked_cells 0 = [1] :=
  ⟨grid_cells_012_locked_reachable,
    (keep_one_release .Tag_non_blocking zero_ids unit_bbox 4 grid_cells_012_locked
      grid_cells_012_locked_reachable 0 1).1,
    (keep_one_release .Tag_non_blocking zero_ids unit_bbox 4 grid_cells_012_locked
      grid_cells_012_locked_reachable 0 1).2.1,
    (keep_one_release .Tag_non_blocking zero_ids unit_bbox 4 grid_cells_012_locked
      grid_cells_012_locked_reachable 0 1).2.2.1 0 (by decide) rfl,
    (keep_one_release .Tag_non_blocking zero_ids unit_bbox 4 grid_cells_012_locked
      grid_cells_012_locked_reachable 0 1).2.2.1 2 (by decide) rfl,
    (keep_one_release .Tag_non_blocking zero_ids unit_bbox 4 grid_cells_012_locked
      grid_cells_012_locked_reachable 0 1).2.2.2.2⟩

/-! ## Single-cell unlock -/

/-- C11. In a reachable state, `unlock(i)` called by a thread `t` that owns cell `i`
gives the state in which shared slot `i` is free and `owned[i]` of `t` is false,
everything else being as before: the `held` list of `t` is left as it was (`i` is
not removed from it), and every other shared slot and `owned` entry is unchanged. -/
theorem unlock_frame_effect (tag : Grid_lock_tag) (last_id : Thread → Nat) (bbox : Bbox_3)
    (N : Int) (s : Grid tag.Slot)
    (hs : Reachable (Spatial_grid_lock_data_structure_3 last_id tag) bbox N s)
    (t : Thread) (i : Int) (hown : s.m_tls_grids t i = true) :
    unlock (Spatial_grid_lock_data_structure_3 last_id tag) s t i =
      { s with
        m_grid := Function.update s.m_grid i (Spatial_grid_lock_data_structure_3 last_id tag).init
        m_tls_grids :=
          Function.update s.m_tls_grids t (Function.update (s.m_tls_grids t) i false) } := by
  have C := hs.consistent (laws last_id tag)
  obtain ⟨v, hv, h1, _⟩ := (laws last_id tag).unlock_frame s t i
  have hv0 := h1 (C.slot t i hown)
  subst hv0
  unfold unlock unlock_cell
  rw [hv]
  rfl

/-- Witness of C11: thread `0` unlocks cell `3`, which it holds; cell `3` stays in
its `held` list. -/
theorem unlock_frame_effect_witness :
    Reachable (Spatial_grid_lock_data_structure_3 zero_ids .Tag_non_blocking) unit_bbox 4
        grid_cell_3_locked ∧
      grid_cell_3_locked.m_tls_grids 0 3 = true ∧
      unlock (Spatial_grid_lock_data_structure_3 zero_ids .Tag_non_blocking)
        grid_cell_3_locked 0 3 =
      { grid_cell_3_locked with
        m_grid := Function.update grid_cell_3_locked.m_grid 3 false
        m_tls_grids := Function.update grid_cell_3_locked.m_tls_grids 0
          (Function.update (grid_cell_3_locked.m_tls_grids 0) 3 false) } ∧
      (unlock (Spatial_grid_lock_data_structure_3 zero_ids .Tag_non_blocking)
        grid_cell_3_locked 0 3).m_tls_locked_cells 0 = [3] :=
  ⟨grid_cell_3_locked_reachable, rfl,
    unlock_frame_effect .Tag_non_blocking zero_ids unit_bbox 4 grid_cell_3_locked
      grid_cell_3_locked_reachable 0 3 rfl, rfl⟩

/-! ## Grid geometry -/

theorem clamp_index_range (N : Int) (hN : 1 ≤ N) (x : Int) :
    0 ≤ clamp_index N x ∧ clamp_index N x ≤ N - 1 := by
  unfold clamp_index
  split_ifs <;> omega

theorem flat_index_range (N ix iy iz : Int) (hx : 0 ≤ ix ∧ ix ≤ N - 1)
    (hy : 0 ≤ iy ∧ iy ≤ N - 1) (hz : 0 ≤ iz ∧ iz ≤ N - 1) :
    0 ≤ iz * N * N + iy * N + ix ∧ iz * N * N + iy * N + ix < N * N * N := by
  have hN : 0 ≤ N := by omega
  have hNN : 0 ≤ N * N := mul_nonneg hN hN
  have h1 : 0 ≤ iz * (N * N) := mul_nonneg hz.1 hNN
  have h2 : 0 ≤ iy * N := mul_nonneg hy.1 hN
  have h3 : iz * (N * N) ≤ (N - 1) * (N * N) := mul_le_mul_of_nonneg_right hz.2 hNN
  have h4 : iy * N ≤ (N - 1) * N := mul_le_mul_of_nonneg_right hy.2 hN
  constructor
  · nlinarith
  · nlinarith

theorem wrap_int_modEq (x : Int) : Int.ModEq (2 ^ 32) (wrap_int x) x := by
  unfold wrap_int Int.ModEq
  omega

theorem wrap_int_congr {a b : Int} (h : Int.ModEq (2 ^ 32) a b) : wrap_int a = wrap_int b := by
  unfold wrap_int
  have h1 : (a + 2 ^ 31) % 2 ^ 32 = (b + 2 ^ 31) % 2 ^ 32 := h.add_right _
  rw [h1]

theorem wrap_int_of_fits (x : Int) (h1 : -2 ^ 31 ≤ x) (h2 : x < 2 ^ 31) : wrap_int x = x := by
  unfold wrap_int
  omega

theorem int_flat_index_eq (N x y z : Int) :
    int_add (int_add (int_mul (int_mul z N) N) (int_mul y N)) x =
      wrap_int (z * N * N + y * N + x) := by
  unfold int_add int_mul
  apply wrap_int_congr
  exact ((wrap_int_modEq _).trans
    (((wrap_int_modEq _).trans ((wrap_int_modEq _).mul_right N)).add
      (wrap_int_modEq _))).add_right x

theorem int_flat_index_exact (N x y z : Int) (hx : 0 ≤ x ∧ x ≤ N - 1) (hy : 0 ≤ y ∧ y ≤ N - 1)
    (hz : 0 ≤ z ∧ z ≤ N - 1) (hfit : N * N * N ≤ 2 ^ 31) :
    int_add (int_add (int_mul (int_mul z N) N) (int_mul y N)) x = z * N * N + y * N + x := by
  rw [int_flat_index_eq]
  obtain ⟨h1, h2⟩ := flat_index_range N x y z hx hy hz
  exact wrap_int_of_fits _ (by omega) (by omega)

/-- C13 as stated fails.  In the grid with `N = 1626` over the box `(0,1)³` the centre
`(0.5, 0.5, 0.5)` has the clamped indices `(813, 813, 813)`; the flat index
`813*N*N + 813*N + 813 = 2150793939` exceeds the largest `int`, and the value that
`get_grid_index` returns is `-2144173357`, which is not in `[0, N³)`. -/
theorem get_grid_index_in_range_counterexample :
    1 ≤ (non_blocking.derived.construct unit_bbox 1626).m_num_grid_cells_per_axis ∧
      (2 : Int) ^ 31 ≤ 813 * 1626 * 1626 + 813 * 1626 + 813 ∧
      get_grid_index (non_blocking.derived.construct unit_bbox 1626) ⟨1 / 2, 1 / 2, 1 / 2⟩ =
        -2144173357 ∧
      ¬ (0 ≤ get_grid_index (non_blocking.derived.construct unit_bbox 1626)
        ⟨1 / 2, 1 / 2, 1 / 2⟩) := by
  have h : get_grid_index (non_blocking.derived.construct unit_bbox 1626)
      ⟨1 / 2, 1 / 2, 1 / 2⟩ = -2144173357 := by
    norm_num [get_grid_index, Derived.construct, set_bbox, unit_bbox, static_cast_int,
      clamp_index, int_add, int_mul, wrap_int]
  refine ⟨by decide, by norm_num, h, ?_⟩
  rw [h]
  decide

/-- C13, amended.  For `N ≥ 1` with `N³ ≤ 2³¹`, so that every cell index fits in an
`int`, and every point `p`, inside or outside the bounding box, `get_grid_index(p)`
lies in `[0, N³)`; it is the index at which `try_lock(p, 0)`, `is_locked(p)` and
`is_locked_by_this_thread(p)` access the tables.  The bound does not depend on what
the three conversions to `int` return: whatever integers `cx`, `cy`, `cz` are
clamped, the flat index of the clamped values, computed in `int`, lies in
`[0, N³)`. -/
theorem get_grid_index_in_range {σ : Type} (s : Grid σ) (p : P3)
    (hN : 1 ≤ s.m_num_grid_cells_per_axis)
    (hfit : s.m_num_grid_cells_per_axis * s.m_num_grid_cells_per_axis
      * s.m_num_grid_cells_per_axis ≤ 2 ^ 31) :
    (0 ≤ get_grid_index s p ∧
      get_grid_index s p <
        s.m_num_grid_cells_per_axis * s.m_num_grid_cells_per_axis
          * s.m_num_grid_cells_per_axis) ∧
      (∀ (D : Derived σ) (no_spin : Bool) (fuel : Nat) (t : Thread),
        try_lock_point D no_spin fuel s t p 0 = try_lock D no_spin fuel s t (get_grid_index s p) ∧
        is_locked D s t p = is_cell_locked D s t (get_grid_index s p)) ∧
      (∀ t, is_locked_by_this_thread_point s t p = s.m_tls_grids t (get_grid_index s p)) ∧
      ∀ cx cy cz : Int,
        0 ≤ int_add
            (int_add
              (int_mul
                (int_mul (clamp_index s.m_num_grid_cells_per_axis cz)
                  s.m_num_grid_cells_per_axis)
                s.m_num_grid_cells_per_axis)
              (int_mul (clamp_index s.m_num_grid_cells_per_axis cy)
                s.m_num_grid_cells_per_axis))
            (clamp_index s.m_num_grid_cells_per_axis cx) ∧
        int_add
            (int_add
              (int_mul
                (int_mul (clamp_index s.m_num_grid_cells_per_axis cz)
                  s.m_num_grid_cells_per_axis)
                s.m_num_grid_cells_per_axis)
              (int_mul (clamp_index s.m_num_grid_cells_per_axis cy)
                s.m_num_grid_cells_per_axis))
            (clamp_index s.m_num_grid_cells_per_axis cx) <
          s.m_num_grid_cells_per_axis * s.m_num_grid_cells_per_axis
            * s.m_num_grid_cells_per_axis := by
  have key : ∀ cx cy cz : Int,
      0 ≤ int_add
          (int_add
            (int_mul
              (int_mul (clamp_index s.m_num_grid_cells_per_axis cz)
                s.m_num_grid_cells_per_axis)
              s.m_num_grid_cells_per_axis)
            (int_mul (clamp_index s.m_num_grid_cells_per_axis cy)
              s.m_num_grid_cells_per_axis))
          (clamp_index s.m_num_grid_cells_per_axis cx) ∧
      int_add
          (int_add
            (int_mul
              (int_mul (clamp_index s.m_num_grid_cells_per_axis cz)
                s.m_num_grid_cells_per_axis)
              s.m_num_grid_cells_per_axis)
            (int_mul (clamp_index s.m_num_grid_cells_per_axis cy)
              s.m_num_grid_cells_per_axis))
          (clamp_index s.m_num_grid_cells_per_axis cx) <
        s.m_num_grid_cells_per_axis * s.m_num_grid_cells_per_axis
          * s.m_num_grid_cells_per_axis := by
    intro cx cy cz
    rw [int_flat_index_exact _ _ _ _ (clamp_index_range _ hN _) (clamp_index_range _ hN _)
      (clamp_index_range _ hN _) hfit]
    exact flat_index_range _ _ _ _ (clamp_index_range _ hN _) (clamp_index_range _ hN _)
      (clamp_index_range _ hN _)
  refine ⟨?_, fun D no_spin fuel t => ⟨?_, rfl⟩, fun t => rfl, key⟩
  · unfold get_grid_index
    exact key _ _ _
  · unfold try_lock_point get_grid_index
    simp

/-- Witness of C13 amended: a point far outside the box `(0,1)³`, with `N = 4`. -/
theorem get_grid_index_in_range_witness :
    1 ≤ (non_blocking.derived.construct unit_bbox 4).m_num_grid_cells_per_axis ∧
      (non_blocking.derived.construct unit_bbox 4).m_num_grid_cells_per_axis
          * (non_blocking.derived.construct unit_bbox 4).m_num_grid_cells_per_axis
          * (non_blocking.derived.construct unit_bbox 4).m_num_grid_cells_per_axis ≤ 2 ^ 31 ∧
      0 ≤ get_grid_index (non_blocking.derived.construct unit_bbox 4) ⟨-5, 7, 1 / 2⟩ ∧
      get_grid_index (non_blocking.derived.construct unit_bbox 4) ⟨-5, 7, 1 / 2⟩ <
        (non_blocking.derived.construct unit_bbox 4).m_num_grid_cells_per_axis
          * (non_blocking.derived.construct unit_bbox 4).m_num_grid_cells_per_axis
          * (non_blocking.derived.construct unit_bbox 4).m_num_grid_cells_per_axis :=
  ⟨by decide, by decide,
    (get_grid_index_in_range (non_blocking.derived.construct unit_bbox 4) ⟨-5, 7, 1 / 2⟩
      (by decide) (by decide)).1⟩

/-! ## Priority tokens -/

/-- C14. For every value of the 32-bit counter, the token computed by
`init_TLS_thread_ids` in 32-bit unsigned arithmetic is `1 + (id mod (2^32 - 1))`
without wrap-around, `id` being the counter after its increment (itself reduced
modulo `2^32`), and it lies in `[1, 2^32 - 1]`: no token of a thread is zero, the
value of a free slot. -/
theorem token_never_zero (last_id : Nat) (last_ids : Thread → Nat) (t : Thread) :
    (priority_blocking.init_TLS_thread_ids last_id).1 = (last_id + 1) % 2 ^ 32 ∧
      (priority_blocking.init_TLS_thread_ids last_id).2 =
        1 + (priority_blocking.init_TLS_thread_ids last_id).1 % (2 ^ 32 - 1) ∧
      1 ≤ (priority_blocking.init_TLS_thread_ids last_id).2 ∧
      (priority_blocking.init_TLS_thread_ids last_id).2 ≤ 2 ^ 32 - 1 ∧
      priority_blocking.m_tls_thread_ids last_ids t ≠ 0 := by
  refine ⟨rfl, ?_, ?_, ?_, priority_blocking.m_tls_thread_ids_ne_zero last_ids t⟩
  · simp only [priority_blocking.init_TLS_thread_ids, UINT_MAX]
    omega
  · simp only [priority_blocking.init_TLS_thread_ids, UINT_MAX]
    omega
  · simp only [priority_blocking.init_TLS_thread_ids, UINT_MAX]
    omega

theorem last_id_after_eq (n : Nat) : last_id_after n = n % 2 ^ 32 := by
  induction n with
  | zero => rfl
  | succ n ih =>
    simp only [last_id_after, priority_blocking.init_TLS_thread_ids, ih]
    omega

theorem token_of_increment_eq (n : Nat) (hn : 1 ≤ n) :
    token_of_increment n = 1 + (n % 2 ^ 32) % (2 ^ 32 - 1) := by
  simp only [token_of_increment, priority_blocking.init_TLS_thread_ids, last_id_after_eq,
    UINT_MAX]
  omega

/-- C15 as stated fails.  The counter wraps: the increment number `2^32 - 1` leaves
it at `2^32 - 1` and the increment number `2^32` leaves it at `0`, and both calls of
`init_TLS_thread_ids` return the token `1`. -/
theorem token_unique_counterexample :
    (2 ^ 32 - 1 : Nat) ≠ 2 ^ 32 ∧ last_id_after (2 ^ 32 - 1) = 2 ^ 32 - 1 ∧
      last_id_after (2 ^ 32) = 0 ∧
      token_of_increment (2 ^ 32 - 1) = 1 ∧ token_of_increment (2 ^ 32) = 1 ∧
      token_of_increment (2 ^ 32 - 1) = token_of_increment (2 ^ 32) := by
  have h1 : token_of_increment (2 ^ 32 - 1) = 1 := by
    rw [token_of_increment_eq _ (by norm_num)]
    norm_num
  have h2 : token_of_increment (2 ^ 32) = 1 := by
    rw [token_of_increment_eq _ (by norm_num)]
    norm_num
  refine ⟨by norm_num, ?_, ?_, h1, h2, h1.trans h2.symm⟩
  · rw [last_id_after_eq]
    norm_num
  · rw [last_id_after_eq]
    norm_num

/-- C15, amended.  Any two distinct increments among the first `2^32 - 1` increments
of the process-wide counter give different tokens. -/
theorem token_unique (m n : Nat) (hm : 1 ≤ m) (hm1 : m ≤ 2 ^ 32 - 1) (hn : 1 ≤ n)
    (hn1 : n ≤ 2 ^ 32 - 1) (hmn : m ≠ n) : token_of_increment m ≠ token_of_increment n := by
  rw [token_of_increment_eq m hm, token_of_increment_eq n hn]
  omega

/-- Witness of C15 amended: the first two increments give the tokens `2` and `3`. -/
theorem token_unique_witness :
    1 ≤ 1 ∧ 1 ≤ 2 ^ 32 - 1 ∧ 1 ≤ 2 ∧ 2 ≤ 2 ^ 32 - 1 ∧ 1 ≠ 2 ∧
      token_of_increment 1 ≠ token_of_increment 2 :=
  ⟨by decide, by decide, by decide, by decide, by decide,
    token_unique 1 2 (by decide) (by decide) (by decide) (by decide) (by decide)⟩

/-! ## Idempotence of the bulk release -/

theorem unlock_all_of_empty {σ : Type} (D : Derived σ) (a : Grid σ) (t : Thread)
    (h : a.m_tls_locked_cells t = []) : unlock_all_points_locked_by_this_thread D a t = a := by
  unfold unlock_all_points_locked_by_this_thread
  rw [h]
  apply Grid.ext_fields <;> try rfl
  show Function.update a.m_tls_locked_cells t [] = a.m_tls_locked_cells
  rw [← h, Function.update_eq_self]

/-- C18. For every state and every back-end, the state after two successive calls of
`unlock_all_points_locked_by_this_thread()` by the same thread is the state after
the first one; the second call walks an empty `held` list, so it unlocks nothing. -/
theorem bulk_release_idempotent {σ : Type} (D : Derived σ) (s : Grid σ) (t : Thread) :
    unlock_all_points_locked_by_this_thread D
        (unlock_all_points_locked_by_this_thread D s t) t =
      unlock_all_points_locked_by_this_thread D s t ∧
    (unlock_all_points_locked_by_this_thread D s t).m_tls_locked_cells t = [] ∧
    unlock_walk D t ((unlock_all_points_locked_by_this_thread D s t).m_tls_locked_cells t)
        (unlock_all_points_locked_by_this_thread D s t) =
      unlock_all_points_locked_by_this_thread D s t := by
  have h : (unlock_all_points_locked_by_this_thread D s t).m_tls_locked_cells t = [] := by
    simp [unlock_all_points_locked_by_this_thread, Grid.clear]
  refine ⟨unlock_all_of_empty D _ t h, h, ?_⟩
  rw [h]
  rfl

/-! ## The probe -/

theorem probe_free (last_id : Thread → Nat) (tag : Grid_lock_tag) (s : Grid tag.Slot)
    (u : Thread) (i : Int)
    (h : s.m_grid i = (Spatial_grid_lock_data_structure_3 last_id tag).init) :
    (is_cell_locked (Spatial_grid_lock_data_structure_3 last_id tag) s u i).1 = false := by
  cases tag with
  | Tag_non_blocking =>
    have h1 : s.m_grid i = false := h
    simp [is_cell_locked, Spatial_grid_lock_data_structure_3, non_blocking.derived,
      non_blocking.is_cell_locked_impl, h1]
  | Tag_priority_blocking =>
    have h1 : s.m_grid i = (0 : Nat) := h
    simp [is_cell_locked, Spatial_grid_lock_data_structure_3, priority_blocking.derived,
      priority_blocking.is_cell_locked_impl, h1]
  | Tag_non_blocking_with_mutexes =>
    have h1 : s.m_grid i = recursive_mutex.free := h
    simp [is_cell_locked, Spatial_grid_lock_data_structure_3, non_blocking_with_mutexes.derived,
      non_blocking_with_mutexes.is_cell_locked_impl, h1, recursive_mutex.try_lock]

theorem probe_held (last_id : Thread → Nat) (tag : Grid_lock_tag) (s : Grid tag.Slot)
    (u t : Thread) (i : Int) (h : s.m_grid i = held_by last_id tag t)
    (hu : tag = .Tag_non_blocking_with_mutexes → u ≠ t) :
    (is_cell_locked (Spatial_grid_lock_data_structure_3 last_id tag) s u i).1 = true := by
  cases tag with
  | Tag_non_blocking =>
    have h1 : s.m_grid i = true := h
    simp [is_cell_locked, Spatial_grid_lock_data_structure_3, non_blocking.derived,
      non_blocking.is_cell_locked_impl, h1]
  | Tag_priority_blocking =>
    have h1 : s.m_grid i = priority_blocking.m_tls_thread_ids last_id t := h
    simp [is_cell_locked, Spatial_grid_lock_data_structure_3, priority_blocking.derived,
      priority_blocking.is_cell_locked_impl, h1,
      priority_blocking.m_tls_thread_ids_ne_zero last_id t]
  | Tag_non_blocking_with_mutexes =>
    have h1 : s.m_grid i = recursive_mutex.held t 0 := h
    have h2 : t ≠ u := fun e => hu rfl e.symm
    simp [is_cell_locked, Spatial_grid_lock_data_structure_3, non_blocking_with_mutexes.derived,
      non_blocking_with_mutexes.is_cell_locked_impl, h1, recursive_mutex.try_lock, h2]

/-- The part of C16 that holds: in a reachable state, a cell owned by thread `t` is
reported locked by the probe of every thread `u`, except, in the mutex class, by the
probe of `t` itself. -/
theorem reflection_by_other_threads (tag : Grid_lock_tag) (last_id : Thread → Nat)
    (bbox : Bbox_3) (N : Int) (s : Grid tag.Slot)
    (hs : Reachable (Spatial_grid_lock_data_structure_3 last_id tag) bbox N s)
    (t u : Thread) (i : Int) (hown : s.m_tls_grids t i = true)
    (hu : tag = .Tag_non_blocking_with_mutexes → u ≠ t) :
    (is_cell_locked (Spatial_grid_lock_data_structure_3 last_id tag) s u i).1 = true :=
  probe_held last_id tag s u t i ((hs.consistent (laws last_id tag)).slot t i hown) hu

theorem mutex_grid_cell_3_locked_reachable :
    Reachable (Spatial_grid_lock_data_structure_3 zero_ids .Tag_non_blocking_with_mutexes)
      unit_bbox 2 mutex_grid_cell_3_locked :=
  Reachable.step _ _ 0 (.try_lock false 3) 0 Reachable.fresh trivial rfl

/-- C16, evaluated where it fails.  In the mutex class (`N = 2`) thread `0` has locked cell
`3`.  The probe `is_cell_locked(3)` made by thread `0` itself returns false, because
`try_lock` on the recursive mutex succeeds for its holder; the probe made by thread
`1` returns true.  So the probe of thread `0` reports the cell free although thread
`0` owns it, and `check_if_all_cells_are_unlocked()` called by thread `0` returns
true.  In the non-blocking class the probe of the owner returns true. -/
theorem owner_probe_reports_free :
    Reachable (Spatial_grid_lock_data_structure_3 zero_ids .Tag_non_blocking_with_mutexes)
        unit_bbox 2 mutex_grid_cell_3_locked ∧
      mutex_grid_cell_3_locked.m_tls_grids 0 3 = true ∧
      (is_cell_locked non_blocking_with_mutexes.derived mutex_grid_cell_3_locked 0 3).1 = false ∧
      (is_cell_locked non_blocking_with_mutexes.derived mutex_grid_cell_3_locked 1 3).1 = true ∧
      (check_if_all_cells_are_unlocked non_blocking_with_mutexes.derived
        mutex_grid_cell_3_locked 0).1 = true ∧
      (is_cell_locked non_blocking.derived grid_cell_3_locked 0 3).1 = true :=
  ⟨mutex_grid_cell_3_locked_reachable, rfl, rfl, rfl, rfl, rfl⟩

/-! ## No leaked locks -/

theorem check_all_free (last_id : Thread → Nat) (tag : Grid_lock_tag) (s : Grid tag.Slot)
    (u : Thread)
    (h : ∀ i, s.m_grid i = (Spatial_grid_lock_data_structure_3 last_id tag).init) :
    (check_if_all_cells_are_unlocked (Spatial_grid_lock_data_structure_3 last_id tag) s u).1
      = true := by
  have key : ∀ (l : List Nat), (l.foldl
      (fun (a : Bool × Grid tag.Slot) (i : Nat) =>
        if a.1 then
          let r := is_cell_locked (Spatial_grid_lock_data_structure_3 last_id tag) a.2 u (i : Int)
          (!r.1, r.2)
        else a) (true, s)).1 = true := by
    intro l
    induction l with
    | nil => rfl
    | cons x l ih =>
      rw [List.foldl_cons]
      have hp : (is_cell_locked (Spatial_grid_lock_data_structure_3 last_id tag) s u
          (x : Int)).2 = s := (laws last_id tag).probe s u x
      have hv := probe_free last_id tag s u (x : Int) (h x)
      show (List.foldl _ (!(is_cell_locked (Spatial_grid_lock_data_structure_3 last_id tag) s u
          (x : Int)).1, (is_cell_locked (Spatial_grid_lock_data_structure_3 last_id tag) s u
          (x : Int)).2) l).1 = true
      rw [hp, hv]
      exact ih
  exact key _

theorem bulk_release_by_consistent {σ : Type} {D : Derived σ} {holder : Thread → σ}
    (L : Laws D holder) (threads : List Thread) (s : Grid σ) (C : Consistent D.init holder s)
    (hth : ∀ t i, s.m_tls_grids t i = true → t ∈ threads) :
    Consistent D.init holder (bulk_release_by D threads s) ∧
      ∀ t i, (bulk_release_by D threads s).m_tls_grids t i = false := by
  induction threads generalizing s with
  | nil =>
    refine ⟨C, fun t i => ?_⟩
    cases h : s.m_tls_grids t i with
    | false => exact h
    | true => exact absurd (hth t i h) (List.not_mem_nil t)
  | cons t l ih =>
    have step : bulk_release_by D (t :: l) s =
        bulk_release_by D l (unlock_all_points_locked_by_this_thread D s t) := rfl
    rw [step]
    apply ih _ (C.unlock_all L t)
    intro u i hu
    rw [unlock_all_eq L C t] at hu
    have h1 : (s.release D.init t (s.m_tls_grids t)).m_tls_grids u i = true := hu
    rw [Grid.release_owned] at h1
    rcases List.mem_cons.1 (hth u i h1.1) with e | e
    · exact (h1.2 ⟨e, e ▸ h1.1⟩).elim
    · exact e

theorem bulk_release_by_reachable {σ : Type} (D : Derived σ) (bbox : Bbox_3) (N : Int)
    (threads : List Thread) (s : Grid σ) (hs : Reachable D bbox N s) :
    Reachable D bbox N (bulk_release_by D threads s) := by
  induction threads generalizing s with
  | nil => exact hs
  | cons t l ih =>
    exact ih _ (Reachable.step s _ t .unlock_all_points_locked_by_this_thread 0 hs trivial rfl)

/-- C17. In every reachable state a shared slot that is held (not free) has exactly
one thread with `owned[i] = true`.  Hence, once every thread that owns a cell (the
list `threads` contains them all) has called the bulk release, the state is again a
reachable one in which every shared slot is free, and
`check_if_all_cells_are_unlocked()` returns true for whichever thread calls it. -/
theorem no_leaked_locks (tag : Grid_lock_tag) (last_id : Thread → Nat) (bbox : Bbox_3)
    (N : Int) (s : Grid tag.Slot)
    (hs : Reachable (Spatial_grid_lock_data_structure_3 last_id tag) bbox N s)
    (threads : List Thread) (hth : ∀ t i, s.m_tls_grids t i = true → t ∈ threads) :
    (∀ i, s.m_grid i ≠ (Spatial_grid_lock_data_structure_3 last_id tag).init →
      ∃! t, s.m_tls_grids t i = true) ∧
    Reachable (Spatial_grid_lock_data_structure_3 last_id tag) bbox N
      (bulk_release_by (Spatial_grid_lock_data_structure_3 last_id tag) threads s) ∧
    (∀ i, (bulk_release_by (Spatial_grid_lock_data_structure_3 last_id tag) threads s).m_grid i
      = (Spatial_grid_lock_data_structure_3 last_id tag).init) ∧
    ∀ u, (check_if_all_cells_are_unlocked (Spatial_grid_lock_data_structure_3 last_id tag)
      (bulk_release_by (Spatial_grid_lock_data_structure_3 last_id tag) threads s) u).1
        = true := by
  have C := hs.consistent (laws last_id tag)
  obtain ⟨C1, hnone⟩ := bulk_release_by_consistent (laws last_id tag) threads s C hth
  have hfree : ∀ i,
      (bulk_release_by (Spatial_grid_lock_data_structure_3 last_id tag) threads s).m_grid i
        = (Spatial_grid_lock_data_structure_3 last_id tag).init := by
    intro i
    by_contra hne
    obtain ⟨t, ht⟩ := C1.owner i hne
    rw [hnone t i] at ht
    exact Bool.noConfusion ht
  refine ⟨?_, bulk_release_by_reachable _ bbox N threads s hs, hfree,
    fun u => check_all_free last_id tag _ u hfree⟩
  intro i hi
  obtain ⟨t, ht⟩ := C.owner i hi
  exact ⟨t, ht, fun u hu => C.excl u t i hu ht⟩

/-- Witness of C17: thread `0` holds cell `3`; after its bulk release every slot is
free. -/
theorem no_leaked_locks_witness :
    Reachable (Spatial_grid_lock_data_structure_3 zero_ids .Tag_non_blocking) unit_bbox 4
        grid_cell_3_locked ∧
      (∀ t i, grid_cell_3_locked.m_tls_grids t i = true → t ∈ [0]) ∧
      grid_cell_3_locked.m_grid 3 ≠ false ∧
      (∃! t, grid_cell_3_locked.m_tls_grids t 3 = true) ∧
      (∀ i, (bulk_release_by non_blocking.derived [0] grid_cell_3_locked).m_grid i = false) ∧
      (check_if_all_cells_are_unlocked non_blocking.derived
        (bulk_release_by non_blocking.derived [0] grid_cell_3_locked) 1).1 = true := by
  have hth : ∀ t i, grid_cell_3_locked.m_tls_grids t i = true → t ∈ [0] := by
    intro t i h
    have h1 := (Grid.acquire_owned (non_blocking.derived.construct unit_bbox 4) 0 t 3 i true).1 h
    rcases h1 with ⟨e, _⟩ | e
    · simp [e]
    · exact Bool.noConfusion e
  have hne : grid_cell_3_locked.m_grid 3 ≠ false := by
    intro h
    have h1 : grid_cell_3_locked.m_grid 3 = true := rfl
    rw [h1] at h
    exact Bool.noConfusion h
  have W := no_leaked_locks .Tag_non_blocking zero_ids unit_bbox 4 grid_cell_3_locked
    grid_cell_3_locked_reachable [0] hth
  exact ⟨grid_cell_3_locked_reachable, hth, hne, W.1 3 hne, W.2.2.1, W.2.2.2 1⟩

/-! ## Traversal order of the region call -/

section traversal

variable {σ : Type} (D : Derived σ) (no_spin : Bool) (fuel : Nat) (t : Thread)

theorem loop_k_eq_traced (N i j : Int) (ks : List Int) (a : Loop_state σ) :
    loop_k D no_spin fuel t N i j ks a =
      try_lock_cells_traced D no_spin fuel t (ks.map fun k => k * N * N + j * N + i) a := by
  induction ks generalizing a with
  | nil => rfl
  | cons k ks ih =>
    simp only [loop_k, List.map_cons, try_lock_cells_traced]
    cases try_lock D no_spin fuel a.grid t (k * N * N + j * N + i) with
    | none => rfl
    | some r =>
      obtain ⟨b, s1⟩ := r
      cases b with
      | false => rfl
      | true => exact ih _

theorem traced_append (l1 l2 : List Int) (a : Loop_state σ) :
    try_lock_cells_traced D no_spin fuel t (l1 ++ l2) a =
      match try_lock_cells_traced D no_spin fuel t l1 a with
      | .completed a1 => try_lock_cells_traced D no_spin fuel t l2 a1
      | e => e := by
  induction l1 generalizing a with
  | nil => rfl
  | cons c l1 ih =>
    simp only [List.cons_append, try_lock_cells_traced]
    cases try_lock D no_spin fuel a.grid t c with
    | none => rfl
    | some r =>
      obtain ⟨b, s1⟩ := r
      cases b with
      | false => rfl
      | true => exact ih _

theorem loop_j_eq_traced (N i : Int) (k_range js : List Int) (a : Loop_state σ) :
    loop_j D no_spin fuel t N i k_range js a =
      try_lock_cells_traced D no_spin fuel t
        (js.flatMap fun j => k_range.map fun k => k * N * N + j * N + i) a := by
  induction js generalizing a with
  | nil => rfl
  | cons j js ih =>
    simp only [loop_j, List.flatMap_cons, traced_append, loop_k_eq_traced]
    cases try_lock_cells_traced D no_spin fuel t
        (k_range.map fun k => k * N * N + j * N + i) a with
    | completed a1 => exact ih a1
    | returned_false a1 => rfl
    | spinning => rfl

theorem loop_i_eq_traced (N : Int) (j_range k_range is : List Int) (a : Loop_state σ) :
    loop_i D no_spin fuel t N j_range k_range is a =
      try_lock_cells_traced D no_spin fuel t
        (is.flatMap fun i => j_range.flatMap fun j =>
          k_range.map fun k => k * N * N + j * N + i) a := by
  induction is generalizing a with
  | nil => rfl
  | cons i is ih =>
    simp only [loop_i, List.flatMap_cons, traced_append, loop_j_eq_traced]
    cases try_lock_cells_traced D no_spin fuel t
        (j_range.flatMap fun j => k_range.map fun k => k * N * N + j * N + i) a with
    | completed a1 => exact ih a1
    | returned_false a1 => rfl
    | spinning => rfl

theorem traced_result (cells : List Int) (a : Loop_state σ) :
    (try_lock_cells_traced D no_spin fuel t cells a).result.map (fun x => (x.1, x.2.1)) =
      try_lock_cells D no_spin fuel t cells a.locked_cells_tmp a.grid := by
  induction cells generalizing a with
  | nil => rfl
  | cons c cells ih =>
    cases h : try_lock D no_spin fuel a.grid t c with
    | none => simp [try_lock_cells, try_lock_cells_traced, h, Loop_exit.result]
    | some r =>
      obtain ⟨b, s1⟩ := r
      cases b with
      | false => simp [try_lock_cells, try_lock_cells_traced, h, Loop_exit.result]
      | true =>
        simp only [try_lock_cells, try_lock_cells_traced, h]
        exact ih _

theorem traced_attempts (cells : List Int) (a : Loop_state σ) (b : Bool) (s1 : Grid σ)
    (tr : List (Int × Bool))
    (h : (try_lock_cells_traced D no_spin fuel t cells a).result = some (b, s1, tr)) :
    (b = true → tr = a.attempts ++ cells.map fun c => (c, true)) ∧
      (b = false → ∃ pre c rest, cells = pre ++ c :: rest ∧
        tr = a.attempts ++ (pre.map fun c => (c, true)) ++ [(c, false)]) := by
  induction cells generalizing a with
  | nil =>
    simp only [try_lock_cells_traced, Loop_exit.result, Option.some.injEq, Prod.mk.injEq] at h
    obtain ⟨hb, _, htr⟩ := h
    subst hb
    exact ⟨fun _ => by simp [htr], fun e => Bool.noConfusion e⟩
  | cons c cells ih =>
    cases hc : try_lock D no_spin fuel a.grid t c with
    | none => simp [try_lock_cells_traced, hc, Loop_exit.result] at h
    | some r =>
      obtain ⟨b1, s2⟩ := r
      cases b1 with
      | false =>
        simp only [try_lock_cells_traced, hc, Loop_exit.result, Option.some.injEq,
          Prod.mk.injEq] at h
        obtain ⟨hb, _, htr⟩ := h
        subst hb
        exact ⟨fun e => Bool.noConfusion e, fun _ => ⟨[], c, cells, rfl, by simp [htr]⟩⟩
      | true =>
        simp only [try_lock_cells_traced, hc] at h
        obtain ⟨h1, h2⟩ := ih _ h
        constructor
        · intro e
          rw [h1 e]
          simp
        · intro e
          obtain ⟨pre, c1, rest, hs, htr⟩ := h2 e
          exact ⟨c :: pre, c1, rest, by simp [hs], by simp [htr]⟩

end traversal

theorem for_range_pairwise (lo hi : Int) : (for_range lo hi).Pairwise (· < ·) := by
  unfold for_range
  rw [List.pairwise_map]
  exact (List.pairwise_lt_range _).imp (by intro a b h; omega)

theorem region_triples_pairwise (N ix iy iz r : Int) :
    (region_triples N ix iy iz r).Pairwise lex_lt := by
  unfold region_triples
  rw [List.pairwise_flatMap]
  constructor
  · intro i _
    rw [List.pairwise_flatMap]
    constructor
    · intro j _
      rw [List.pairwise_map]
      exact (for_range_pairwise _ _).imp (by
        intro a b h
        exact Or.inr ⟨rfl, Or.inr ⟨rfl, h⟩⟩)
    · refine (for_range_pairwise _ _).imp ?_
      intro j1 j2 h x hx y hy
      simp only [List.mem_map] at hx hy
      obtain ⟨k1, _, rfl⟩ := hx
      obtain ⟨k2, _, rfl⟩ := hy
      exact Or.inr ⟨rfl, Or.inl h⟩
  · refine (for_range_pairwise _ _).imp ?_
    intro i1 i2 h x hx y hy
    simp only [List.mem_flatMap, List.mem_map] at hx hy
    obtain ⟨j1, _, k1, _, rfl⟩ := hx
    obtain ⟨j2, _, k2, _, rfl⟩ := hy
    exact Or.inl h

theorem mem_region_triples (N ix iy iz r i j k : Int) :
    (i, j, k) ∈ region_triples N ix iy iz r ↔
      (max 0 (ix - r) ≤ i ∧ i ≤ min (N - 1) (ix + r)) ∧
      (max 0 (iy - r) ≤ j ∧ j ≤ min (N - 1) (iy + r)) ∧
      (max 0 (iz - r) ≤ k ∧ k ≤ min (N - 1) (iz + r)) := by
  unfold region_triples
  simp only [List.mem_flatMap, List.mem_map, mem_for_range, Prod.mk.injEq]
  constructor
  · rintro ⟨i1, hi, j1, hj, k1, hk, rfl, rfl, rfl⟩
    exact ⟨hi, hj, hk⟩
  · rintro ⟨hi, hj, hk⟩
    exact ⟨i, hi, j, hj, k, hk, rfl, rfl, rfl⟩

theorem region_cells_eq_map (N ix iy iz r : Int) :
    region_cells N ix iy iz r =
      (region_triples N ix iy iz r).map fun p => p.2.2 * N * N + p.2.1 * N + p.1 := by
  unfold region_cells region_triples
  simp [List.map_flatMap, List.map_map, Function.comp_def]

/-- C19. For `r > 0` the three nested loops of `try_lock(ix, iy, iz, r)` return the
value and the state of `try_lock_region`, and the record of their calls
`try_lock(index_to_lock)` is: every cell of the region, each with result true, when
the call returns true; and when it returns false, the cells `pre` before the first
failing cell `c`, each with result true, followed by `c` with result false, where
`pre ++ c :: rest` is the sequence of the region.  That sequence is the list of the
`k*N*N + j*N + i` for the triples `(i, j, k)` of the clipped ranges in strictly
increasing lexicographic order, `i` first and `k` last; it is not the order of
increasing flat index: for `N = 2`, centre `(0, 0, 0)` and `r = 1` it is
`0, 4, 2, 6, 1, 5, 3, 7`. -/
theorem traversal_order {σ : Type} (D : Derived σ) (no_spin : Bool) (fuel : Nat) (s : Grid σ)
    (t : Thread) (ix iy iz r : Int) (hr : 0 < r) :
    (try_lock_region_loops D no_spin fuel s t ix iy iz r).map (fun x => (x.1, x.2.1)) =
        try_lock_region D no_spin fuel s t ix iy iz r ∧
      (∀ s1 tr, try_lock_region_loops D no_spin fuel s t ix iy iz r = some (true, s1, tr) →
        tr = (region_cells s.m_num_grid_cells_per_axis ix iy iz r).map fun c => (c, true)) ∧
      (∀ s1 tr, try_lock_region_loops D no_spin fuel s t ix iy iz r = some (false, s1, tr) →
        ∃ pre c rest,
          region_cells s.m_num_grid_cells_per_axis ix iy iz r = pre ++ c :: rest ∧
          tr = (pre.map fun c => (c, true)) ++ [(c, false)]) ∧
      region_cells s.m_num_grid_cells_per_axis ix iy iz r =
        (region_triples s.m_num_grid_cells_per_axis ix iy iz r).map
          (fun p => p.2.2 * s.m_num_grid_cells_per_axis * s.m_num_grid_cells_per_axis
            + p.2.1 * s.m_num_grid_cells_per_axis + p.1) ∧
      (region_triples s.m_num_grid_cells_per_axis ix iy iz r).Pairwise lex_lt ∧
      (∀ i j k, (i, j, k) ∈ region_triples s.m_num_grid_cells_per_axis ix iy iz r ↔
        (max 0 (ix - r) ≤ i ∧ i ≤ min (s.m_num_grid_cells_per_axis - 1) (ix + r)) ∧
        (max 0 (iy - r) ≤ j ∧ j ≤ min (s.m_num_grid_cells_per_axis - 1) (iy + r)) ∧
        (max 0 (iz - r) ≤ k ∧ k ≤ min (s.m_num_grid_cells_per_axis - 1) (iz + r))) ∧
      region_cells 2 0 0 0 1 = [0, 4, 2, 6, 1, 5, 3, 7] := by
  have hr0 : r ≠ 0 := by omega
  have hloops : try_lock_region_loops D no_spin fuel s t ix iy iz r =
      (try_lock_cells_traced D no_spin fuel t
        (region_cells s.m_num_grid_cells_per_axis ix iy iz r) ⟨[], s, []⟩).result := by
    unfold try_lock_region_loops region_cells
    simp only [loop_i_eq_traced]
  refine ⟨?_, ?_, ?_, region_cells_eq_map _ _ _ _ _, region_triples_pairwise _ _ _ _ _,
    fun i j k => mem_region_triples _ _ _ _ _ i j k, by decide⟩
  · rw [hloops, traced_result]
    unfold try_lock_region
    simp only [hr0, if_false]
  · intro s1 tr h
    rw [hloops] at h
    simpa using (traced_attempts D no_spin fuel t _ _ true s1 tr h).1 rfl
  · intro s1 tr h
    rw [hloops] at h
    simpa using (traced_attempts D no_spin fuel t _ _ false s1 tr h).2 rfl

/-- Witness of C19: the failing call of thread `1` on the grid with `N = 2` in which
thread `0` holds cell `2`; the calls made are on the cells `0`, `4` and `2`. -/
theorem traversal_order_witness :
    (0 : Int) < 1 ∧
      try_lock_region_loops non_blocking.derived true 0 grid_cell_2_locked 1 0 0 0 1 =
        some (false, grid_cell_2_locked_after, [(0, true), (4, true), (2, false)]) ∧
      ∃ pre c rest,
        region_cells grid_cell_2_locked.m_num_grid_cells_per_axis 0 0 0 1 = pre ++ c :: rest ∧
        [((0 : Int), true), (4, true), (2, false)] = (pre.map fun c => (c, true)) ++ [(c, false)] :=
  ⟨by decide, rfl,
    (traversal_order non_blocking.derived true 0 grid_cell_2_locked 1 0 0 0 1 (by decide)).2.2.1
      grid_cell_2_locked_after [(0, true), (4, true), (2, false)] rfl⟩

/-! ## No cycle of spin-waits -/

theorem yields_on_iff (last_id : Thread → Nat) (s : Grid Nat) (t : Thread) (c : Int) :
    yields_on last_id s t c ↔
      s.m_tls_grids t c = false ∧ s.m_grid c ≠ 0 ∧
        s.m_grid c ≤ priority_blocking.m_tls_thread_ids last_id t := by
  unfold yields_on
  cases ho : s.m_tls_grids t c with
  | true => simp [try_lock_owned _ false 1 s t c ho]
  | false =>
    rw [try_lock_not_owned _ false 1 s t c ho]
    change (priority_blocking.try_lock_cell_impl last_id false 1 s t c).isNone = true ↔ _
    rw [priority_blocking.try_lock_cell_impl_spin]
    by_cases h0 : s.m_grid c = 0
    · simp [priority_blocking.spin_free _ t c 0 s h0, h0]
    · by_cases hle : s.m_grid c ≤ priority_blocking.m_tls_thread_ids last_id t
      · simp [priority_blocking.spin_never _ t c 1 s h0 hle, h0, hle]
      · have hb := priority_blocking.spin_back_off
          (priority_blocking.m_tls_thread_ids last_id t) t c 0 s (by omega)
        simp [hb, hle]

theorem descending_cycle (f : Nat → Nat) (n : Nat) (hn : 0 < n)
    (h : ∀ i, i < n → f ((i + 1) % n) < f i) : False := by
  have key : ∀ i, i < n → f i + i ≤ f 0 := by
    intro i
    induction i with
    | zero => intro _; omega
    | succ i ih =>
      intro hi
      have h1 := h i (by omega)
      rw [Nat.mod_eq_of_lt hi] at h1
      have h2 := ih (by omega)
      omega
  have h1 := h (n - 1) (by omega)
  have e : (n - 1 + 1) % n = 0 := by
    rw [Nat.sub_add_cancel hn, Nat.mod_self]
  rw [e] at h1
  have h2 := key (n - 1) (by omega)
  omega

/-- C20. In a reachable state of the priority-blocking class, let the threads that
take part (`P`, containing every thread that owns a cell) have pairwise distinct
tokens.  Then every spin-wait edge between two of them, a thread `t` in the
yield-and-retry branch on a cell whose slot holds the token of `u`, has the token
of `u` strictly below the token of `t`; hence for no `n ≥ 1` are there threads
`T 0, ..., T (n-1)` among them with each `T i` waiting for `T ((i+1) mod n)`. -/
theorem no_spin_wait_cycle (last_id : Thread → Nat) (bbox : Bbox_3) (N : Int) (s : Grid Nat)
    (hs : Reachable (priority_blocking.derived last_id) bbox N s) (P : Thread → Prop)
    (hown : ∀ t i, s.m_tls_grids t i = true → P t)
    (hinj : ∀ t u, P t → P u →
      priority_blocking.m_tls_thread_ids last_id t =
        priority_blocking.m_tls_thread_ids last_id u → t = u) :
    (∀ t u, P t → P u → waits_for last_id s t u →
      priority_blocking.m_tls_thread_ids last_id u <
        priority_blocking.m_tls_thread_ids last_id t) ∧
    ∀ (n : Nat) (T : Nat → Thread), 0 < n → (∀ i, P (T i)) →
      ¬ ∀ i, i < n → waits_for last_id s (T i) (T ((i + 1) % n)) := by
  have C := hs.consistent (priority_blocking.priority_laws last_id)
  have edge : ∀ t u, P t → P u → waits_for last_id s t u →
      priority_blocking.m_tls_thread_ids last_id u <
        priority_blocking.m_tls_thread_ids last_id t := by
    intro t u ht hu hw
    obtain ⟨c, hy, hc⟩ := hw
    rw [yields_on_iff] at hy
    obtain ⟨hnot, h0, hle⟩ := hy
    obtain ⟨w, hwown⟩ := C.owner c h0
    have hwu : w = u := hinj w u (hown w c hwown) hu ((C.slot w c hwown).symm.trans hc)
    subst hwu
    have htw : t ≠ w := by
      intro e
      rw [e, hwown] at hnot
      exact Bool.noConfusion hnot
    have hne : priority_blocking.m_tls_thread_ids last_id w ≠
        priority_blocking.m_tls_thread_ids last_id t := fun e => htw (hinj w t hu ht e).symm
    rw [hc] at hle
    omega
  refine ⟨edge, ?_⟩
  intro n T hn hP hcycle
  exact descending_cycle (fun i => priority_blocking.m_tls_thread_ids last_id (T i)) n hn
    (fun i hi => edge _ _ (hP i) (hP _) (hcycle i hi))

theorem grid_held_by_5_reachable :
    Reachable (priority_blocking.derived ids_17_5) unit_bbox 4 grid_held_by_5 :=
  Reachable.step _ _ 1 (.try_lock false 7) 1 Reachable.fresh trivial rfl

/-- Witness of C20: threads `0` (token `17`) and `1` (token `5`) take part, thread
`1` holds cell `7` and thread `0` spins on it; the edge goes from token `17` to
token `5`. -/
theorem no_spin_wait_cycle_witness :
    Reachable (priority_blocking.derived ids_17_5) unit_bbox 4 grid_held_by_5 ∧
      (∀ t i, grid_held_by_5.m_tls_grids t i = true → t < 2) ∧
      (∀ t u, t < 2 → u < 2 →
        priority_blocking.m_tls_thread_ids ids_17_5 t =
          priority_blocking.m_tls_thread_ids ids_17_5 u → t = u) ∧
      waits_for ids_17_5 grid_held_by_5 0 1 ∧
      priority_blocking.m_tls_thread_ids ids_17_5 1 <
        priority_blocking.m_tls_thread_ids ids_17_5 0 := by
  have hown : ∀ t i, grid_held_by_5.m_tls_grids t i = true → t < 2 := by
    intro t i h
    have h1 := (Grid.acquire_owned
      ((priority_blocking.derived ids_17_5).construct unit_bbox 4) 1 t 7 i 5).1 h
    rcases h1 with ⟨e, _⟩ | e
    · rw [e]; decide
    · exact Bool.noConfusion e
  have hinj : ∀ t u : Nat, t < 2 → u < 2 →
      priority_blocking.m_tls_thread_ids ids_17_5 t =
        priority_blocking.m_tls_thread_ids ids_17_5 u → t = u := by
    intro t u ht hu h
    have ht1 : t = 0 ∨ t = 1 := by omega
    have hu1 : u = 0 ∨ u = 1 := by omega
    have e0 : priority_blocking.m_tls_thread_ids ids_17_5 0 = 17 := rfl
    have e1 : priority_blocking.m_tls_thread_ids ids_17_5 1 = 5 := rfl
    rcases ht1 with ht0 | ht0 <;> rcases hu1 with hu0 | hu0
    · rw [ht0, hu0]
    · rw [ht0, hu0, e0, e1] at h; exact absurd h (by decide)
    · rw [ht0, hu0, e0, e1] at h; exact absurd h (by decide)
    · rw [ht0, hu0]
  have hw : waits_for ids_17_5 grid_held_by_5 0 1 := ⟨7, rfl, rfl⟩
  exact ⟨grid_held_by_5_reachable, hown, hinj, hw,
    (no_spin_wait_cycle ids_17_5 unit_bbox 4 grid_held_by_5 grid_held_by_5_reachable
      (fun t => t < 2) hown hinj).1 0 1 (by decide) (by decide) hw⟩

/-! ## The overloads agree -/

theorem index_coordinates_encode (N x y z : Int) (hx : 0 ≤ x ∧ x < N) (hy : 0 ≤ y ∧ y < N)
    (hz : 0 ≤ z ∧ z < N) : index_coordinates N (z * N * N + y * N + x) = (x, y, z) := by
  have hN0 : 0 < N := by omega
  have hM : 0 < N * N := mul_pos hN0 hN0
  have hyx0 : 0 ≤ y * N + x := by nlinarith
  have hyx1 : y * N + x < N * N := by nlinarith
  have hc0 : 0 ≤ z * N * N + y * N + x := by nlinarith [mul_nonneg hz.1 (le_of_lt hM)]
  have dz : (z * N * N + y * N + x) / (N * N) = z ∧ (z * N * N + y * N + x) % (N * N) = y * N + x :=
    (Int.ediv_emod_unique hM).2 ⟨by ring, hyx0, hyx1⟩
  have dy : (y * N + x) / N = y ∧ (y * N + x) % N = x :=
    (Int.ediv_emod_unique hN0).2 ⟨by ring, hx.1, hx.2⟩
  have ez : Int.tdiv (z * N * N + y * N + x) (N * N) = z := by
    rw [Int.tdiv_eq_ediv hc0 (le_of_lt hM)]; exact dz.1
  have e1 : z * N * N + y * N + x - z * N * N = y * N + x := by ring
  have ey : Int.tdiv (y * N + x) N = y := by
    rw [Int.tdiv_eq_ediv hyx0 (le_of_lt hN0)]; exact dy.1
  simp only [index_coordinates, ez, e1, ey]
  have e2 : y * N + x - y * N = x := by ring
  rw [e2]

/-- C22 as stated fails.  In the fresh grid with `N = 1626` over the box `(0,1)³`,
`get_grid_index` of the centre `(0.5, 0.5, 0.5)` is `-2144173357`, the flat index
of the cell `(813, 813, 813)` wrapped to an `int`.  From it `try_lock(c, 1)`
recovers the coordinates `(-1303, -1619, -810)`, whose neighbourhood is empty: the
call returns true and leaves the state unchanged.  `try_lock(p, 1)` works on the
neighbourhood of `(813, 813, 813)`: it does not return true with the state
unchanged. -/
theorem point_overload_agrees_counterexample :
    get_grid_index (non_blocking.derived.construct unit_bbox 1626) ⟨1 / 2, 1 / 2, 1 / 2⟩ =
        -2144173357 ∧
      index_coordinates 1626 (-2144173357) = (-1303, -1619, -810) ∧
      try_lock_index non_blocking.derived true 0 (non_blocking.derived.construct unit_bbox 1626) 0
          (get_grid_index (non_blocking.derived.construct unit_bbox 1626) ⟨1 / 2, 1 / 2, 1 / 2⟩)
          1 =
        some (true, non_blocking.derived.construct unit_bbox 1626) ∧
      try_lock_point non_blocking.derived true 0 (non_blocking.derived.construct unit_bbox 1626) 0
          ⟨1 / 2, 1 / 2, 1 / 2⟩ 1 =
        try_lock_region non_blocking.derived true 0
          (non_blocking.derived.construct unit_bbox 1626) 0 813 813 813 1 ∧
      try_lock_point non_blocking.derived true 0 (non_blocking.derived.construct unit_bbox 1626) 0
          ⟨1 / 2, 1 / 2, 1 / 2⟩ 1 ≠
        try_lock_index non_blocking.derived true 0 (non_blocking.derived.construct unit_bbox 1626)
          0 (get_grid_index (non_blocking.derived.construct unit_bbox 1626)
            ⟨1 / 2, 1 / 2, 1 / 2⟩) 1 := by
  have h : get_grid_index (non_blocking.derived.construct unit_bbox 1626)
      ⟨1 / 2, 1 / 2, 1 / 2⟩ = -2144173357 := by
    norm_num [get_grid_index, Derived.construct, set_bbox, unit_bbox, static_cast_int,
      clamp_index, int_add, int_mul, wrap_int]
  have hp : try_lock_point non_blocking.derived true 0
      (non_blocking.derived.construct unit_bbox 1626) 0 ⟨1 / 2, 1 / 2, 1 / 2⟩ 1 =
      try_lock_region non_blocking.derived true 0
        (non_blocking.derived.construct unit_bbox 1626) 0 813 813 813 1 := by
    norm_num [try_lock_point, Derived.construct, set_bbox, unit_bbox, static_cast_int,
      clamp_index]
  have hi : try_lock_index non_blocking.derived true 0
      (non_blocking.derived.construct unit_bbox 1626) 0 (-2144173357) 1 =
      some (true, non_blocking.derived.construct unit_bbox 1626) := rfl
  refine ⟨h, by decide, by rw [h]; exact hi, hp, ?_⟩
  rw [h, hi, hp]
  intro hq
  unfold try_lock_region at hq
  simp only [one_ne_zero, if_false] at hq
  have hown := (try_lock_cells_true non_blocking.flag_laws true 0 0 _ []
    (non_blocking.derived.construct unit_bbox 1626)
    (non_blocking.derived.construct unit_bbox 1626) hq).2
  have hm : (813 : Int) * 1626 * 1626 + 813 * 1626 + 813 ∈
      region_cells (non_blocking.derived.construct unit_bbox 1626).m_num_grid_cells_per_axis
        813 813 813 1 :=
    mem_region_cells _ 813 813 813 1 813 813 813 (by decide) (by decide) (by decide)
  exact Bool.noConfusion (hown _ hm)

/-- C22, amended.  For `N ≥ 1`, every point `p` and every radius `r`, if `r = 0` or
`N³ ≤ 2³¹`, then `try_lock(p, r)` returns the value and the state of
`try_lock(get_grid_index(p), r)`: the clamping code written out in
`try_lock(point)` computes the cell of `get_grid_index`, and when `N³ ≤ 2³¹` the
coordinates that the flat-index overload recovers from that cell are the clamped
indices of the point overload. -/
theorem point_overload_agrees {σ : Type} (D : Derived σ) (no_spin : Bool) (fuel : Nat)
    (s : Grid σ) (t : Thread) (p : P3) (r : Int) (hN : 1 ≤ s.m_num_grid_cells_per_axis)
    (hfit : r = 0 ∨ s.m_num_grid_cells_per_axis * s.m_num_grid_cells_per_axis
      * s.m_num_grid_cells_per_axis ≤ 2 ^ 31) :
    try_lock_point D no_spin fuel s t p r =
        try_lock_index D no_spin fuel s t (get_grid_index s p) r ∧
      (s.m_num_grid_cells_per_axis * s.m_num_grid_cells_per_axis
          * s.m_num_grid_cells_per_axis ≤ 2 ^ 31 →
        index_coordinates s.m_num_grid_cells_per_axis (get_grid_index s p) =
          (clamp_index s.m_num_grid_cells_per_axis
              (static_cast_int ((p.x - s.m_xmin) * s.m_resolution_x)),
            clamp_index s.m_num_grid_cells_per_axis
              (static_cast_int ((p.y - s.m_ymin) * s.m_resolution_y)),
            clamp_index s.m_num_grid_cells_per_axis
              (static_cast_int ((p.z - s.m_zmin) * s.m_resolution_z)))) := by
  have hx := clamp_index_range _ hN (static_cast_int ((p.x - s.m_xmin) * s.m_resolution_x))
  have hy := clamp_index_range _ hN (static_cast_int ((p.y - s.m_ymin) * s.m_resolution_y))
  have hz := clamp_index_range _ hN (static_cast_int ((p.z - s.m_zmin) * s.m_resolution_z))
  have henc : s.m_num_grid_cells_per_axis * s.m_num_grid_cells_per_axis
        * s.m_num_grid_cells_per_axis ≤ 2 ^ 31 →
      index_coordinates s.m_num_grid_cells_per_axis (get_grid_index s p) =
        (clamp_index s.m_num_grid_cells_per_axis
            (static_cast_int ((p.x - s.m_xmin) * s.m_resolution_x)),
          clamp_index s.m_num_grid_cells_per_axis
            (static_cast_int ((p.y - s.m_ymin) * s.m_resolution_y)),
          clamp_index s.m_num_grid_cells_per_axis
            (static_cast_int ((p.z - s.m_zmin) * s.m_resolution_z))) := by
    intro hf
    unfold get_grid_index
    simp only [int_flat_index_exact _ _ _ _ hx hy hz hf]
    exact index_coordinates_encode s.m_num_grid_cells_per_axis _ _ _
      ⟨hx.1, by omega⟩ ⟨hy.1, by omega⟩ ⟨hz.1, by omega⟩
  refine ⟨?_, henc⟩
  by_cases hr : r = 0
  · unfold try_lock_point try_lock_index get_grid_index
    simp only [hr, if_true]
  · have hf := hfit.resolve_left hr
    have e : try_lock_index D no_spin fuel s t (get_grid_index s p) r =
        try_lock_region D no_spin fuel s t
          (index_coordinates s.m_num_grid_cells_per_axis (get_grid_index s p)).1
          (index_coordinates s.m_num_grid_cells_per_axis (get_grid_index s p)).2.1
          (index_coordinates s.m_num_grid_cells_per_axis (get_grid_index s p)).2.2 r := by
      unfold try_lock_index
      simp only [hr, if_false]
      rfl
    rw [e, henc hf]
    unfold try_lock_point
    simp only [hr, if_false]

/-- Witness of C22 amended: the point `(0.3, 0.3, 0.3)` of the box `(0,1)³` with
`N = 4` and radius `1`. -/
theorem point_overload_agrees_witness :
    1 ≤ (non_blocking.derived.construct unit_bbox 4).m_num_grid_cells_per_axis ∧
      ((1 : Int) = 0 ∨
        (non_blocking.derived.construct unit_bbox 4).m_num_grid_cells_per_axis
          * (non_blocking.derived.construct unit_bbox 4).m_num_grid_cells_per_axis
          * (non_blocking.derived.construct unit_bbox 4).m_num_grid_cells_per_axis ≤ 2 ^ 31) ∧
      try_lock_point non_blocking.derived false 0 (non_blocking.derived.construct unit_bbox 4) 0
          ⟨3 / 10, 3 / 10, 3 / 10⟩ 1 =
        try_lock_index non_blocking.derived false 0 (non_blocking.derived.construct unit_bbox 4)
          0 (get_grid_index (non_blocking.derived.construct unit_bbox 4) ⟨3 / 10, 3 / 10, 3 / 10⟩)
          1 :=
  ⟨by decide, Or.inr (by decide),
    (point_overload_agrees non_blocking.derived false 0
      (non_blocking.derived.construct unit_bbox 4) 0 ⟨3 / 10, 3 / 10, 3 / 10⟩ 1 (by decide)
      (Or.inr (by decide))).1⟩

/-! ## Empty regions and the bounds of the attempted indices -/

theorem unlock_tls {σ : Type} {D : Derived σ} {holder : Thread → σ} (L : Laws D holder)
    (a : Grid σ) (t : Thread) (c : Int) :
    (unlock D a t c).m_tls_grids =
        Function.update a.m_tls_grids t (Function.update (a.m_tls_grids t) c false) ∧
      (unlock D a t c).m_tls_locked_cells = a.m_tls_locked_cells := by
  obtain ⟨v, hv, _, _⟩ := L.unlock_frame a t c
  unfold unlock unlock_cell
  rw [hv]
  exact ⟨rfl, rfl⟩

theorem unlock_owned {σ : Type} {D : Derived σ} {holder : Thread → σ} (L : Laws D holder)
    (a : Grid σ) (t u : Thread) (c x : Int) :
    (unlock D a t c).m_tls_grids u x = true ↔
      a.m_tls_grids u x = true ∧ ¬ (u = t ∧ x = c) := by
  rw [(unlock_tls L a t c).1]
  by_cases hu : u = t
  · subst hu
    by_cases hx : x = c
    · subst hx; simp
    · simp [hx]
  · simp [hu]

theorem unlock_walk_traced_spec {σ : Type} {D : Derived σ} {holder : Thread → σ}
    (L : Laws D holder) (t : Thread) (l : List Int) (a : Grid σ) (calls : List Int) :
    (unlock_walk_traced D t l (a, calls)).1 = unlock_walk D t l a ∧
      ∃ made, (unlock_walk_traced D t l (a, calls)).2 = calls ++ made ∧ made.Nodup ∧
        ∀ x, x ∈ made ↔ x ∈ l ∧ a.m_tls_grids t x = true := by
  induction l generalizing a calls with
  | nil => exact ⟨rfl, [], by simp [unlock_walk_traced], List.nodup_nil, by simp⟩
  | cons c l ih =>
    cases ho : a.m_tls_grids t c with
    | false =>
      have step : unlock_walk_traced D t (c :: l) (a, calls) =
          unlock_walk_traced D t l (a, calls) := by
        simp [unlock_walk_traced, Grid.get_thread_local_grid, ho]
      have step1 : unlock_walk D t (c :: l) a = unlock_walk D t l a := by
        simp [unlock_walk, Grid.get_thread_local_grid, ho]
      obtain ⟨h1, made, h2, h3, h4⟩ := ih a calls
      rw [step, step1]
      refine ⟨h1, made, h2, h3, fun x => ?_⟩
      rw [h4 x]
      constructor
      · rintro ⟨hx, hox⟩
        exact ⟨List.mem_cons_of_mem c hx, hox⟩
      · rintro ⟨hx, hox⟩
        rcases List.mem_cons.1 hx with e | e
        · rw [e, ho] at hox; exact Bool.noConfusion hox
        · exact ⟨e, hox⟩
    | true =>
      have step : unlock_walk_traced D t (c :: l) (a, calls) =
          unlock_walk_traced D t l (unlock D a t c, calls ++ [c]) := by
        simp [unlock_walk_traced, Grid.get_thread_local_grid, ho]
      have step1 : unlock_walk D t (c :: l) a = unlock_walk D t l (unlock D a t c) := by
        simp [unlock_walk, Grid.get_thread_local_grid, ho]
      obtain ⟨h1, made, h2, h3, h4⟩ := ih (unlock D a t c) (calls ++ [c])
      rw [step, step1]
      have hc : c ∉ made := by
        intro hm
        have := ((unlock_owned L a t t c c).1 ((h4 c).1 hm).2).2
        exact this ⟨rfl, rfl⟩
      refine ⟨h1, c :: made, by rw [h2]; simp, List.nodup_cons.2 ⟨hc, h3⟩, fun x => ?_⟩
      constructor
      · intro hx
        rcases List.mem_cons.1 hx with e | e
        · rw [e]; exact ⟨List.mem_cons_self c l, ho⟩
        · have := (h4 x).1 e
          exact ⟨List.mem_cons_of_mem c this.1, ((unlock_owned L a t t c x).1 this.2).1⟩
      · rintro ⟨hx, hox⟩
        by_cases hxc : x = c
        · rw [hxc]; exact List.mem_cons_self c made
        · rcases List.mem_cons.1 hx with e | e
          · exact (hxc e).elim
          · exact List.mem_cons_of_mem c
              ((h4 x).2 ⟨e, (unlock_owned L a t t c x).2 ⟨hox, fun h => hxc h.2⟩⟩)

/-- C23. For every back-end, every state and every list of cell indices (so for every
`held` list, with whatever duplicates and entries of cells already released), the
walk of `unlock_all_points_locked_by_this_thread()` gives the state of the member
function's loop, and the cells on which it calls `unlock`, hence `unlock_cell`, are
without repetition and are exactly the cells of the list with `owned[c] = true` on
entry: one call for each such cell, none for a cell with `owned[c] = false`.  For
`held = [3, 5, 3]` with only cell `3` owned, the calls are `[3]`. -/
theorem release_walk_tolerates_duplicates (tag : Grid_lock_tag) (last_id : Thread → Nat)
    (s : Grid tag.Slot) (t : Thread) (l : List Int) :
    (unlock_walk_traced (Spatial_grid_lock_data_structure_3 last_id tag) t l (s, [])).1 =
        unlock_walk (Spatial_grid_lock_data_structure_3 last_id tag) t l s ∧
      (unlock_walk_traced (Spatial_grid_lock_data_structure_3 last_id tag) t l (s, [])).2.Nodup ∧
      (∀ c, c ∈ (unlock_walk_traced (Spatial_grid_lock_data_structure_3 last_id tag) t l
          (s, [])).2 ↔ c ∈ l ∧ s.m_tls_grids t c = true) ∧
      grid_held_3_5_3.m_tls_locked_cells 0 = [3, 5, 3] ∧
      (unlock_walk_traced non_blocking.derived 0 (grid_held_3_5_3.m_tls_locked_cells 0)
        (grid_held_3_5_3, [])).2 = [3] := by
  obtain ⟨h1, made, h2, h3, h4⟩ := unlock_walk_traced_spec (laws last_id tag) t l s []
  rw [List.nil_append] at h2
  rw [h2]
  exact ⟨h1, h3, h4, rfl, rfl⟩

/-! ## Overlapping regions -/

theorem lex_lt_ne (a b : Int × Int × Int) (h : lex_lt a b) : a ≠ b := by
  intro e
  subst e
  unfold lex_lt at h
  omega

theorem region_cells_nodup (N ix iy iz r : Int) : (region_cells N ix iy iz r).Nodup := by
  rw [region_cells_eq_map]
  refine List.Nodup.map_on ?_ ((region_triples_pairwise N ix iy iz r).imp (lex_lt_ne _ _))
  rintro ⟨i, j, k⟩ hp ⟨i1, j1, k1⟩ hq h
  rw [mem_region_triples] at hp hq
  have e1 := index_coordinates_encode N i j k ⟨by omega, by omega⟩ ⟨by omega, by omega⟩
    ⟨by omega, by omega⟩
  have e2 := index_coordinates_encode N i1 j1 k1 ⟨by omega, by omega⟩ ⟨by omega, by omega⟩
    ⟨by omega, by omega⟩
  simp only at h
  rw [h, e2] at e1
  simp only [Prod.mk.injEq] at e1 ⊢
  exact ⟨e1.1.symm, e1.2.1.symm, e1.2.2.symm⟩

theorem try_lock_cells_held {σ : Type} {D : Derived σ} {holder : Thread → σ}
    (L : Laws D holder) (no_spin : Bool) (fuel : Nat) (t : Thread) (cells tmp : List Int)
    (s s1 : Grid σ) (hnd : cells.Nodup)
    (h : try_lock_cells D no_spin fuel t cells tmp s = some (true, s1)) :
    s1.m_tls_locked_cells t =
        s.m_tls_locked_cells t ++ cells.filter (fun c => !s.m_tls_grids t c) ∧
      s1.m_num_grid_cells_per_axis = s.m_num_grid_cells_per_axis := by
  induction cells generalizing tmp s with
  | nil =>
    simp only [try_lock_cells, Option.some.injEq, Prod.mk.injEq, true_and] at h
    subst h
    simp
  | cons c rest ih =>
    obtain ⟨hc, hrest⟩ := List.nodup_cons.1 hnd
    cases hcall : try_lock D no_spin fuel s t c with
    | none => rw [try_lock_cells_cons_none hcall] at h; simp at h
    | some r =>
      obtain ⟨b, s2⟩ := r
      cases b with
      | false => rw [try_lock_cells_cons_false hcall] at h; simp at h
      | true =>
        rw [try_lock_cells_cons_true hcall] at h
        obtain ⟨h1, h2⟩ := ih _ _ hrest h
        rcases try_lock_true L hcall with ⟨ho, e⟩ | ⟨ho, v, e, _, _⟩
        · subst e
          refine ⟨?_, h2⟩
          rw [h1]
          simp [List.filter_cons, ho]
        · subst e
          refine ⟨?_, h2⟩
          rw [h1]
          have hf : rest.filter (fun x => !(s.acquire t c v).m_tls_grids t x) =
              rest.filter (fun x => !s.m_tls_grids t x) := by
            apply List.filter_congr
            intro x hx
            have hxc : x ≠ c := fun e => hc (e ▸ hx)
            simp [Function.update_noteq hxc]
          rw [hf]
          simp [List.filter_cons, ho]

/-- C24 as stated fails.  On a fresh grid with `N = 2` thread `0` locks the region of
radius `1` around `(0, 0, 0)` and then the region of radius `1` around `(1, 1, 1)`;
both calls return true and both regions are the eight cells of the grid.  The second
call leaves the state as the first call left it: the `held` list of thread `0` has
eight entries, each cell once, and cell `0`, which both regions cover, occurs once
and not twice. -/
theorem held_duplicates_counterexample :
    try_lock_region non_blocking.derived true 0 (non_blocking.derived.construct unit_bbox 2)
        0 0 0 0 1 = some (true, grid_first_region) ∧
      try_lock_region non_blocking.derived true 0 grid_first_region 0 1 1 1 1 =
        some (true, grid_first_region) ∧
      (0 : Int) ∈ region_cells 2 0 0 0 1 ∧ (0 : Int) ∈ region_cells 2 1 1 1 1 ∧
      grid_first_region.m_tls_locked_cells 0 = [0, 4, 2, 6, 1, 5, 3, 7] ∧
      (grid_first_region.m_tls_locked_cells 0).count 0 = 1 ∧
      (grid_first_region.m_tls_locked_cells 0).count 0 ≠ 2 := by
  have h : grid_first_region.m_tls_locked_cells 0 = [0, 4, 2, 6, 1, 5, 3, 7] := rfl
  refine ⟨rfl, rfl, by decide, by decide, h, ?_, ?_⟩
  · rw [h]
    decide
  · rw [h]
    decide

/-- C24, amended.  A successful region call (`r ≠ 0`) appends to the `held` list of
the caller the cells of its neighbourhood that the caller did not own before the
call, in the order of the traversal and each once.  So when one thread makes two
successful region calls and, at the second call, still owns every cell it owned
after the first (no release in between), the second call appends no cell of the
overlap, and over the two calls a cell of the overlap is appended once if the
thread did not own it before the first call and not at all otherwise. -/
theorem overlapping_regions_append_once (tag : Grid_lock_tag) (last_id : Thread → Nat)
    (s s1 sm s2 : Grid tag.Slot) (t : Thread) (no_spin no_spin1 : Bool) (fuel fuel1 : Nat)
    (ix iy iz r jx jy jz q : Int) (hr : r ≠ 0) (hq : q ≠ 0)
    (h1 : try_lock_region (Spatial_grid_lock_data_structure_3 last_id tag) no_spin fuel
      s t ix iy iz r = some (true, s1))
    (hkeep : ∀ c, s1.m_tls_grids t c = true → sm.m_tls_grids t c = true)
    (hN : sm.m_num_grid_cells_per_axis = s1.m_num_grid_cells_per_axis)
    (h2 : try_lock_region (Spatial_grid_lock_data_structure_3 last_id tag) no_spin1 fuel1
      sm t jx jy jz q = some (true, s2)) :
    s1.m_tls_locked_cells t = s.m_tls_locked_cells t ++
        (region_cells s.m_num_grid_cells_per_axis ix iy iz r).filter
          (fun c => !s.m_tls_grids t c) ∧
      s2.m_tls_locked_cells t = sm.m_tls_locked_cells t ++
        (region_cells s.m_num_grid_cells_per_axis jx jy jz q).filter
          (fun c => !sm.m_tls_grids t c) ∧
      (region_cells s.m_num_grid_cells_per_axis ix iy iz r).Nodup ∧
      (region_cells s.m_num_grid_cells_per_axis jx jy jz q).Nodup ∧
      ∀ c, c ∈ region_cells s.m_num_grid_cells_per_axis ix iy iz r →
        c ∈ region_cells s.m_num_grid_cells_per_axis jx jy jz q →
        c ∉ (region_cells s.m_num_grid_cells_per_axis jx jy jz q).filter
          (fun c => !sm.m_tls_grids t c) ∧
        ((region_cells s.m_num_grid_cells_per_axis ix iy iz r).filter
            (fun c => !s.m_tls_grids t c) ++
          (region_cells s.m_num_grid_cells_per_axis jx jy jz q).filter
            (fun c => !sm.m_tls_grids t c)).count c =
          (if s.m_tls_grids t c = true then 0 else 1) := by
  unfold try_lock_region at h1 h2
  simp only [hr, if_false] at h1
  simp only [hq, if_false] at h2
  obtain ⟨a1, a2⟩ := try_lock_cells_held (laws last_id tag) no_spin fuel t _ [] s s1
    (region_cells_nodup _ _ _ _ _) h1
  obtain ⟨b1, _⟩ := try_lock_cells_held (laws last_id tag) no_spin1 fuel1 t _ [] sm s2
    (region_cells_nodup _ _ _ _ _) h2
  rw [hN, a2] at b1
  have hown := (try_lock_cells_true (laws last_id tag) no_spin fuel t _ [] s s1 h1).2
  refine ⟨a1, b1, region_cells_nodup _ _ _ _ _, region_cells_nodup _ _ _ _ _, ?_⟩
  intro c hcA hcB
  have hnot : c ∉ (region_cells s.m_num_grid_cells_per_axis jx jy jz q).filter
      (fun c => !sm.m_tls_grids t c) := by
    intro hm
    have := (List.mem_filter.1 hm).2
    simp [hkeep c (hown c hcA)] at this
  refine ⟨hnot, ?_⟩
  rw [List.count_append, List.count_eq_zero_of_not_mem hnot, Nat.add_zero]
  have hnd : ((region_cells s.m_num_grid_cells_per_axis ix iy iz r).filter
      (fun c => !s.m_tls_grids t c)).Nodup := (region_cells_nodup _ _ _ _ _).filter _
  cases ho : s.m_tls_grids t c with
  | true =>
    simp only [if_true]
    apply List.count_eq_zero_of_not_mem
    intro hm
    have := (List.mem_filter.1 hm).2
    simp [ho] at this
  | false =>
    simp only [Bool.false_eq_true, if_false]
    exact List.count_eq_one_of_mem hnd (List.mem_filter.2 ⟨hcA, by simp [ho]⟩)

/-- Witness of C24 amended: the two overlapping region calls of thread `0` on a fresh
grid with `N = 2`; the second call appends nothing. -/
theorem overlapping_regions_append_once_witness :
    (1 : Int) ≠ 0 ∧
      try_lock_region (Spatial_grid_lock_data_structure_3 zero_ids .Tag_non_blocking) true 0
        (non_blocking.derived.construct unit_bbox 2) 0 0 0 0 1 = some (true, grid_first_region) ∧
      (∀ c, grid_first_region.m_tls_grids 0 c = true →
        grid_first_region.m_tls_grids 0 c = true) ∧
      grid_first_region.m_num_grid_cells_per_axis =
        grid_first_region.m_num_grid_cells_per_axis ∧
      try_lock_region (Spatial_grid_lock_data_structure_3 zero_ids .Tag_non_blocking) true 0
        grid_first_region 0 1 1 1 1 = some (true, grid_first_region) ∧
      grid_first_region.m_tls_locked_cells 0 = grid_first_region.m_tls_locked_cells 0 ++
        (region_cells (non_blocking.derived.construct unit_bbox 2).m_num_grid_cells_per_axis
          1 1 1 1).filter (fun c => !grid_first_region.m_tls_grids 0 c) :=
  ⟨by decide, rfl, fun _ h => h, rfl, rfl,
    (overlapping_regions_append_once .Tag_non_blocking zero_ids
      (non_blocking.derived.construct unit_bbox 2) grid_first_region grid_first_region
      grid_first_region 0 true true 0 0 0 0 0 1 1 1 1 1 (by decide) (by decide) rfl
      (fun _ h => h) rfl rfl).2.1⟩

/-! ## Held covers owned -/

theorem Reachable.unchecked {σ : Type} {D : Derived σ} {bbox : Bbox_3} {N : Int} {s : Grid σ}
    (h : Reachable D bbox N s) : Reachable_unchecked D bbox N s := by
  induction h with
  | fresh => exact Reachable_unchecked.fresh
  | step s s1 t op fuel _ _ hrun ih => exact Reachable_unchecked.step s s1 t op fuel ih hrun

theorem Held_covers_owned.shrink {σ : Type} {s s1 : Grid σ} (C : Held_covers_owned s)
    (ho : ∀ u x, s1.m_tls_grids u x = true → s.m_tls_grids u x = true)
    (hh : s1.m_tls_locked_cells = s.m_tls_locked_cells) : Held_covers_owned s1 := by
  intro u x hx
  rw [hh]
  exact C u x (ho u x hx)

theorem Held_covers_owned.after_acquire {σ : Type} {s : Grid σ} (C : Held_covers_owned s)
    (t : Thread) (i : Int) (v : σ) : Held_covers_owned (s.acquire t i v) := by
  intro u x hx
  rw [Grid.acquire_m_tls_locked_cells]
  rcases (Grid.acquire_owned s t u i x v).1 hx with ⟨hu, hxi⟩ | hold
  · subst hu; subst hxi
    simp
  · by_cases hu : u = t
    · subst hu
      simp [C u x hold]
    · simpa [Function.update_noteq hu] using C u x hold

theorem unlock_cells_tls {σ : Type} {D : Derived σ} {holder : Thread → σ} (L : Laws D holder)
    (t : Thread) (tmp : List Int) (s : Grid σ) :
    (∀ u x, (unlock_cells D t tmp s).m_tls_grids u x = true → s.m_tls_grids u x = true) ∧
      (unlock_cells D t tmp s).m_tls_locked_cells = s.m_tls_locked_cells := by
  induction tmp generalizing s with
  | nil => exact ⟨fun _ _ h => h, rfl⟩
  | cons c l ih =>
    have step : unlock_cells D t (c :: l) s = unlock_cells D t l (unlock D s t c) := rfl
    rw [step]
    obtain ⟨h1, h2⟩ := ih (unlock D s t c)
    refine ⟨fun u x h => ((unlock_owned L s t u c x).1 (h1 u x h)).1, ?_⟩
    rw [h2, (unlock_tls L s t c).2]

theorem unlock_walk_tls {σ : Type} {D : Derived σ} {holder : Thread → σ} (L : Laws D holder)
    (t : Thread) (l : List Int) (s : Grid σ) :
    (∀ u x, (unlock_walk D t l s).m_tls_grids u x = true → s.m_tls_grids u x = true) ∧
      (unlock_walk D t l s).m_tls_locked_cells = s.m_tls_locked_cells ∧
      ∀ c ∈ l, (unlock_walk D t l s).m_tls_grids t c = false := by
  induction l generalizing s with
  | nil => exact ⟨fun _ _ h => h, rfl, fun c hc => by simp at hc⟩
  | cons c l ih =>
    cases ho : s.m_tls_grids t c with
    | false =>
      have step : unlock_walk D t (c :: l) s = unlock_walk D t l s := by
        simp [unlock_walk, Grid.get_thread_local_grid, ho]
      rw [step]
      obtain ⟨h1, h2, h3⟩ := ih s
      refine ⟨h1, h2, ?_⟩
      intro x hx
      rcases List.mem_cons.1 hx with e | hxl
      · subst e
        cases hv : (unlock_walk D t l s).m_tls_grids t x with
        | false => rfl
        | true => rw [h1 t x hv] at ho; exact Bool.noConfusion ho
      · exact h3 x hxl
    | true =>
      have step : unlock_walk D t (c :: l) s = unlock_walk D t l (unlock D s t c) := by
        simp [unlock_walk, Grid.get_thread_local_grid, ho]
      rw [step]
      obtain ⟨h1, h2, h3⟩ := ih (unlock D s t c)
      refine ⟨fun u x h => ((unlock_owned L s t u c x).1 (h1 u x h)).1, ?_, ?_⟩
      · rw [h2, (unlock_tls L s t c).2]
      · intro x hx
        rcases List.mem_cons.1 hx with e | hxl
        · subst e
          cases hv : (unlock_walk D t l (unlock D s t x)).m_tls_grids t x with
          | false => rfl
          | true => exact (((unlock_owned L s t t x x).1 (h1 t x hv)).2 ⟨rfl, rfl⟩).elim
        · exact h3 x hxl

theorem unlock_walk_but_one_tls {σ : Type} {D : Derived σ} {holder : Thread → σ}
    (L : Laws D holder) (t : Thread) (k : Int) (l : List Int) (s : Grid σ) (b : Bool) :
    (∀ u x, (unlock_walk_but_one D t k l (s, b)).1.m_tls_grids u x = true →
        s.m_tls_grids u x = true) ∧
      (unlock_walk_but_one D t k l (s, b)).1.m_tls_locked_cells = s.m_tls_locked_cells ∧
      (∀ c ∈ l, c ≠ k → (unlock_walk_but_one D t k l (s, b)).1.m_tls_grids t c = false) ∧
      (b = true → (unlock_walk_but_one D t k l (s, b)).2 = true) ∧
      (k ∈ l → s.m_tls_grids t k = true → (unlock_walk_but_one D t k l (s, b)).2 = true) := by
  induction l generalizing s b with
  | nil =>
    exact ⟨fun _ _ h => h, rfl, fun c hc => by simp at hc, fun h => h,
      fun hk => by simp at hk⟩
  | cons c l ih =>
    cases ho : s.m_tls_grids t c with
    | false =>
      have step : unlock_walk_but_one D t k (c :: l) (s, b) =
          unlock_walk_but_one D t k l (s, b) := by
        simp [unlock_walk_but_one, Grid.get_thread_local_grid, ho]
      rw [step]
      obtain ⟨h1, h2, h3, h4, h5⟩ := ih s b
      refine ⟨h1, h2, ?_, h4, ?_⟩
      · intro x hx hxk
        rcases List.mem_cons.1 hx with e | hxl
        · subst e
          cases hv : (unlock_walk_but_one D t k l (s, b)).1.m_tls_grids t x with
          | false => rfl
          | true => rw [h1 t x hv] at ho; exact Bool.noConfusion ho
        · exact h3 x hxl hxk
      · intro hk hok
        rcases List.mem_cons.1 hk with e | hkl
        · subst e
          rw [hok] at ho
          exact Bool.noConfusion ho
        · exact h5 hkl hok
    | true =>
      by_cases hck : c = k
      · have step : unlock_walk_but_one D t k (c :: l) (s, b) =
            unlock_walk_but_one D t k l (s, true) := by
          have hk : s.m_tls_grids t k = true := hck ▸ ho
          simp [unlock_walk_but_one, Grid.get_thread_local_grid, hk, hck]
        rw [step]
        obtain ⟨h1, h2, h3, h4, _⟩ := ih s true
        refine ⟨h1, h2, ?_, fun _ => h4 rfl, fun _ _ => h4 rfl⟩
        intro x hx hxk
        rcases List.mem_cons.1 hx with e | hxl
        · exact (hxk (e.trans hck)).elim
        · exact h3 x hxl hxk
      · have step : unlock_walk_but_one D t k (c :: l) (s, b) =
            unlock_walk_but_one D t k l (unlock D s t c, b) := by
          simp [unlock_walk_but_one, Grid.get_thread_local_grid, ho, hck]
        rw [step]
        obtain ⟨h1, h2, h3, h4, h5⟩ := ih (unlock D s t c) b
        refine ⟨fun u x h => ((unlock_owned L s t u c x).1 (h1 u x h)).1, ?_, ?_, h4, ?_⟩
        · rw [h2, (unlock_tls L s t c).2]
        · intro x hx hxk
          rcases List.mem_cons.1 hx with e | hxl
          · subst e
            cases hv : (unlock_walk_but_one D t k l (unlock D s t x, b)).1.m_tls_grids t x with
            | false => rfl
            | true => exact (((unlock_owned L s t t x x).1 (h1 t x hv)).2 ⟨rfl, rfl⟩).elim
          · exact h3 x hxl hxk
        · intro hk hok
          rcases List.mem_cons.1 hk with e | hkl
          · exact (hck e.symm).elim
          · exact h5 hkl ((unlock_owned L s t t c k).2 ⟨hok, fun h => hck h.2.symm⟩)

theorem Held_covers_owned.after_try_lock {σ : Type} {D : Derived σ} {holder : Thread → σ}
    (L : Laws D holder) {s s1 : Grid σ} (C : Held_covers_owned s) {no_spin : Bool}
    {fuel : Nat} {t : Thread} {i : Int} {b : Bool}
    (h : CGAL.try_lock D no_spin fuel s t i = some (b, s1)) : Held_covers_owned s1 := by
  cases b with
  | false =>
    rw [(try_lock_false L h).1]
    exact C
  | true =>
    rcases try_lock_true L h with ⟨_, e⟩ | ⟨_, v, e, _⟩
    · rw [e]; exact C
    · rw [e]; exact C.after_acquire t i v

theorem Held_covers_owned.after_try_lock_cells {σ : Type} {D : Derived σ} {holder : Thread → σ}
    (L : Laws D holder) (no_spin : Bool) (fuel : Nat) (t : Thread) (cells tmp : List Int)
    (s s1 : Grid σ) (b : Bool) (C : Held_covers_owned s)
    (h : CGAL.try_lock_cells D no_spin fuel t cells tmp s = some (b, s1)) :
    Held_covers_owned s1 := by
  induction cells generalizing tmp s with
  | nil =>
    simp only [CGAL.try_lock_cells, Option.some.injEq, Prod.mk.injEq] at h
    rw [← h.2]
    exact C
  | cons c rest ih =>
    cases hc : CGAL.try_lock D no_spin fuel s t c with
    | none => rw [try_lock_cells_cons_none hc] at h; exact Option.noConfusion h
    | some r =>
      obtain ⟨b1, s2⟩ := r
      have C2 : Held_covers_owned s2 := C.after_try_lock L hc
      cases b1 with
      | true =>
        rw [try_lock_cells_cons_true hc] at h
        exact ih _ s2 C2 h
      | false =>
        rw [try_lock_cells_cons_false hc] at h
        simp only [Option.some.injEq, Prod.mk.injEq] at h
        rw [← h.2]
        exact C2.shrink (unlock_cells_tls L t tmp s2).1 (unlock_cells_tls L t tmp s2).2

theorem Held_covers_owned.after_try_lock_region {σ : Type} {D : Derived σ} {holder : Thread → σ}
    (L : Laws D holder) {s s1 : Grid σ} (C : Held_covers_owned s) {no_spin : Bool}
    {fuel : Nat} {t : Thread} {ix iy iz r : Int} {b : Bool}
    (h : CGAL.try_lock_region D no_spin fuel s t ix iy iz r = some (b, s1)) :
    Held_covers_owned s1 := by
  unfold CGAL.try_lock_region at h
  by_cases hr : r = 0
  · simp only [hr, if_true] at h
    exact C.after_try_lock L h
  · simp only [hr, if_false] at h
    exact Held_covers_owned.after_try_lock_cells L no_spin fuel t _ [] s s1 b C h

theorem Held_covers_owned.after_unlock_all {σ : Type} {D : Derived σ} {holder : Thread → σ}
    (L : Laws D holder) {s : Grid σ} (C : Held_covers_owned s) (t : Thread) :
    Held_covers_owned (unlock_all_points_locked_by_this_thread D s t) := by
  obtain ⟨h1, h2, h3⟩ := unlock_walk_tls L t (s.m_tls_locked_cells t) s
  intro u x hx
  have hx1 : (unlock_walk D t (s.m_tls_locked_cells t) s).m_tls_grids u x = true := hx
  have hmem := C u x (h1 u x hx1)
  by_cases hu : u = t
  · subst hu
    rw [h3 x hmem] at hx1
    exact Bool.noConfusion hx1
  · show x ∈ Function.update (unlock_walk D t (s.m_tls_locked_cells t) s).m_tls_locked_cells
      t [] u
    rw [Function.update_noteq hu, h2]
    exact hmem

theorem Held_covers_owned.after_unlock_all_but_one {σ : Type} {D : Derived σ} {holder : Thread → σ}
    (L : Laws D holder) {s : Grid σ} (C : Held_covers_owned s) (t : Thread) (k : Int) :
    Held_covers_owned (unlock_all_tls_locked_cells_but_one D s t k) := by
  obtain ⟨h1, h2, h3, _, h5⟩ := unlock_walk_but_one_tls L t k (s.m_tls_locked_cells t) s false
  have key : ∀ u x,
      (unlock_walk_but_one D t k (s.m_tls_locked_cells t) (s, false)).1.m_tls_grids u x = true →
      (u ≠ t ∧ x ∈ s.m_tls_locked_cells u) ∨
        (u = t ∧ x = k ∧
          (unlock_walk_but_one D t k (s.m_tls_locked_cells t) (s, false)).2 = true) := by
    intro u x hx
    have hox := h1 u x hx
    have hmem := C u x hox
    by_cases hu : u = t
    · subst hu
      by_cases hxk : x = k
      · subst hxk
        exact Or.inr ⟨rfl, rfl, h5 hmem hox⟩
      · rw [h3 x hmem hxk] at hx
        exact Bool.noConfusion hx
    · exact Or.inl ⟨hu, hmem⟩
  intro u x hx
  unfold CGAL.unlock_all_tls_locked_cells_but_one at hx ⊢
  cases hf : (unlock_walk_but_one D t k (s.m_tls_locked_cells t) (s, false)).2 with
  | true =>
    simp only [hf, if_true] at hx ⊢
    have hx1 : (unlock_walk_but_one D t k (s.m_tls_locked_cells t)
        (s, false)).1.m_tls_grids u x = true := hx
    rcases key u x hx1 with ⟨hu, hmem⟩ | ⟨hu, hxk, _⟩
    · simp only [Grid.push_back, Grid.clear, Function.update_noteq hu, h2]
      exact hmem
    · subst hu; subst hxk
      simp [Grid.push_back, Grid.clear]
  | false =>
    simp only [hf, Bool.false_eq_true, if_false] at hx ⊢
    have hx1 : (unlock_walk_but_one D t k (s.m_tls_locked_cells t)
        (s, false)).1.m_tls_grids u x = true := hx
    rcases key u x hx1 with ⟨hu, hmem⟩ | ⟨_, _, hb⟩
    · simp only [Grid.clear, Function.update_noteq hu, h2]
      exact hmem
    · rw [hf] at hb
      exact Bool.noConfusion hb

theorem Held_covers_owned.after_run {σ : Type} {D : Derived σ} {holder : Thread → σ}
    (L : Laws D holder) {s s1 : Grid σ} (C : Held_covers_owned s) {fuel : Nat} {t : Thread}
    {op : Op} (h : CGAL.run D fuel s t op = some s1) : Held_covers_owned s1 := by
  cases op with
  | try_lock no_spin c =>
    simp only [CGAL.run, Option.map_eq_some', Prod.exists, exists_eq_right] at h
    obtain ⟨b, hb⟩ := h
    exact C.after_try_lock L hb
  | try_lock_region no_spin ix iy iz r =>
    simp only [CGAL.run, Option.map_eq_some', Prod.exists, exists_eq_right] at h
    obtain ⟨b, hb⟩ := h
    exact C.after_try_lock_region L hb
  | try_lock_index no_spin c r =>
    simp only [CGAL.run, Option.map_eq_some', Prod.exists, exists_eq_right] at h
    obtain ⟨b, hb⟩ := h
    unfold try_lock_index at hb
    by_cases hr : r = 0
    · simp only [hr, if_true] at hb
      exact C.after_try_lock L hb
    · simp only [hr, if_false] at hb
      exact C.after_try_lock_region L hb
  | try_lock_point no_spin point r =>
    simp only [CGAL.run, Option.map_eq_some', Prod.exists, exists_eq_right] at h
    obtain ⟨b, hb⟩ := h
    unfold try_lock_point at hb
    by_cases hr : r = 0
    · simp only [hr, if_true] at hb
      exact C.after_try_lock L hb
    · simp only [hr, if_false] at hb
      exact C.after_try_lock_region L hb
  | unlock c =>
    simp only [CGAL.run, Option.some.injEq] at h
    subst h
    exact C.shrink (fun u x hx => ((unlock_owned L s t u c x).1 hx).1) (unlock_tls L s t c).2
  | unlock_all_points_locked_by_this_thread =>
    simp only [CGAL.run, Option.some.injEq] at h
    subst h
    exact C.after_unlock_all L t
  | unlock_all_tls_locked_cells_but_one k =>
    simp only [CGAL.run, Option.some.injEq] at h
    subst h
    exact C.after_unlock_all_but_one L t k
  | unlock_all_tls_locked_locations_but_one_point point =>
    simp only [CGAL.run, Option.some.injEq] at h
    subst h
    exact C.after_unlock_all_but_one L t _
  | set_bbox bbox =>
    simp only [CGAL.run, Option.some.injEq] at h
    subst h
    exact C
  | is_locked point =>
    simp only [CGAL.run, Option.some.injEq, is_locked, is_cell_locked, L.probe] at h
    subst h
    exact C
  | check_if_all_cells_are_unlocked =>
    simp only [CGAL.run, Option.some.injEq, check_if_all_cells_are_unlocked_state L] at h
    subst h
    exact C

theorem Reachable_unchecked.held_covers {σ : Type} {D : Derived σ} {holder : Thread → σ}
    (L : Laws D holder) {bbox : Bbox_3} {N : Int} {s : Grid σ}
    (h : Reachable_unchecked D bbox N s) : Held_covers_owned s := by
  induction h with
  | fresh => intro t i hi; exact Bool.noConfusion hi
  | step s s1 t op fuel _ hrun ih => exact ih.after_run L hrun

/-- C25. In every state reachable from a freshly constructed grid by atomic calls of
the public member functions (the `try_lock` overloads whether they return true or
false, `unlock` whether or not the caller owns the cell, the two bulk releases, and
the other members), for each of the three back-ends, a cell `i` with
`owned[i] = true` for thread `t` occurs in the `held` list of `t`. -/
theorem held_covers_owned (tag : Grid_lock_tag) (last_id : Thread → Nat) (bbox : Bbox_3)
    (N : Int) (s : Grid tag.Slot)
    (hs : Reachable_unchecked (Spatial_grid_lock_data_structure_3 last_id tag) bbox N s)
    (t : Thread) (i : Int) (h : s.m_tls_grids t i = true) :
    i ∈ s.m_tls_locked_cells t :=
  hs.held_covers (laws last_id tag) t i h

/-- Witness of C25: thread `0` locks cell `3` and thread `1`, which does not own it,
calls `unlock(3)`; thread `0` still has `owned[3] = true` and `3` in its list. -/
theorem held_covers_owned_witness :
    Reachable_unchecked (Spatial_grid_lock_data_structure_3 zero_ids .Tag_non_blocking)
        unit_bbox 4 grid_cell_3_unlocked_by_other ∧
      grid_cell_3_unlocked_by_other.m_tls_grids 0 3 = true ∧
      3 ∈ grid_cell_3_unlocked_by_other.m_tls_locked_cells 0 :=
  ⟨Reachable_unchecked.step grid_cell_3_locked _ 1 (.unlock 3) 0
      grid_cell_3_locked_reachable.unchecked rfl, rfl,
    held_covers_owned .Tag_non_blocking zero_ids unit_bbox 4 grid_cell_3_unlocked_by_other
      (Reachable_unchecked.step grid_cell_3_locked _ 1 (.unlock 3) 0
        grid_cell_3_locked_reachable.unchecked rfl) 0 3 rfl⟩

end CGAL
